import Mathlib

/-!
# Rewards backend: click attribution, reward settlement, withdrawals,
offer completion, referrals, check-ins and profile updates

A shallow embedding of the Express/Mongoose handlers of
`routes/clicks.js`, `routes/users.js` and `routes/offers.js` (with the
document shapes of `models/Click.js`, `models/Offer.js`, `models/User.js`),
of `utils/generateReferralCode.js` and of `scripts/resetCheckIns.js`.

Modelling conventions.

* A collection is a `List` of documents in natural (insertion) order;
  `findOne` is the first match, `save` of a fetched document rewrites that
  document in place, `save` of a new document appends it.
* A handler is a function from the database (and the request) to the new
  database and the HTTP response. Handlers run one at a time.
* A finite JavaScript number is modelled by the rational value of a double.
  The numbers that enter through a request are rounded to the nearest double
  (ties to even, subnormals and overflow to infinity included): `parseFloat`
  of a string or a JSON number, and the quotient `amount / 0.1` of the
  withdraw handler, where `0.1` is the double nearest to one tenth. `NaN` and
  the infinities are kept as separate values where a handler can meet them.
  Coin balances and coin amounts are added exactly, which is what doubles do
  on integers below 2^53.
* An `_id` is the 24 lower-case hexadecimal digits of an ObjectId. A request
  string that meets an ObjectId path (`findById`, a query on `userId` or
  `offerId`) is cast first: 24 hexadecimal digits in either case give the
  id, anything else is a cast error, answered by the `catch` of the handler.
* The array paths of `models/User.js` declared as `type: Array` hold plain
  objects: `unshift`, `splice` and `$push` on them are written by `save`,
  assignments to the fields of an element are not. Keys that a subdocument
  schema does not declare are dropped when the subdocument is stored.
* `Date.now()` and `new Date()` are reads of a clock `clk : Nat → Nat`, the
  k-th read of one request being `clk k` (milliseconds since the epoch).
* Platform functions whose code is not part of the repository (the SHA-256
  digest, number formatting) are fields of `Runtime`; the casts and validation
  messages of Mongoose are fields of `Mongoose`.
* `Math.random()` is a sequence `random : Nat → ℚ`, the k-th draw of one call
  being `random k`; the local midnight of `setHours(0, 0, 0, 0)` is a function
  `startOfDay` on timestamps.
* `console.log` calls and socket emits do not touch the database and are not
  modelled.
-/

namespace RewardsBackend

/-! ## JavaScript values -/

/-- A JavaScript number: `NaN`, an infinity, or a finite value. A finite value
is given by a rational; where the code holds the result of reading a literal or
of a division, the model holds the double nearest to the exact value
(`roundDouble`). -/
inductive JsNum where
  | nan : JsNum
  | inf (negative : Bool) : JsNum
  | fin (q : ℚ) : JsNum
deriving DecidableEq

/-- A value found in a JSON request body (objects and arrays are not modelled). -/
inductive JsValue where
  | undefined : JsValue
  | null : JsValue
  | bool (b : Bool) : JsValue
  | num (x : JsNum) : JsValue
  | str (s : String) : JsValue
deriving DecidableEq

/-- JavaScript `isNaN` on a number. -/
def JsNum.isNaN : JsNum → Bool
  | .nan => true
  | _ => false

/-- JavaScript `x <= y` on numbers. -/
def JsNum.le : JsNum → JsNum → Bool
  | .nan, _ => false
  | _, .nan => false
  | .inf true, _ => true
  | _, .inf false => true
  | .inf false, _ => false
  | _, .inf true => false
  | .fin a, .fin b => decide (a ≤ b)

/-- JavaScript `x < y` on numbers. -/
def JsNum.lt : JsNum → JsNum → Bool
  | .nan, _ => false
  | _, .nan => false
  | .inf true, .inf true => false
  | .inf true, _ => true
  | .inf false, _ => false
  | .fin _, .inf negative => !negative
  | .fin a, .fin b => decide (a < b)

/-- JavaScript unary minus. -/
def JsNum.neg : JsNum → JsNum
  | .nan => .nan
  | .inf negative => .inf (!negative)
  | .fin q => .fin (-q)

/-- Nearest integer, ties to the even one. -/
def roundHalfEven (y : ℚ) : ℤ :=
  if y - ⌊y⌋ < 1 / 2 then ⌊y⌋
  else if 1 / 2 < y - ⌊y⌋ then ⌊y⌋ + 1
  else if ⌊y⌋ % 2 = 0 then ⌊y⌋ else ⌊y⌋ + 1

/-- Spacing of the doubles (IEEE 754 binary64) around a positive `x`: 52 binary
places below the leading bit of `x`, and 2^-1074 for `x` below 2^-1022. -/
def ulp (x : ℚ) : ℚ := (2 : ℚ) ^ (max (Int.log 2 x) (-1022) - 52)

/-- The double nearest to a value `x ≥ 0`, ties to the even significand;
`Infinity` when the nearest value is 2^1024 or more. -/
def roundDoubleNonneg (x : ℚ) : JsNum :=
  let r : ℚ := (roundHalfEven (x / ulp x) : ℚ) * ulp x
  if (2 : ℚ) ^ (1024 : ℕ) ≤ r then .inf false else .fin r

/-- The double nearest to a value: how a numeric literal is read and how the
exact result of an arithmetic operation is rounded. -/
def roundDouble (x : ℚ) : JsNum :=
  if 0 ≤ x then roundDoubleNonneg x else (roundDoubleNonneg (-x)).neg

/-- The number as a double: a finite value is replaced by the double nearest to
it, which is the value itself when it is a double. -/
def JsNum.toDouble : JsNum → JsNum
  | .nan => .nan
  | .inf negative => .inf negative
  | .fin q => roundDouble q

/-- JavaScript `x / c` for a finite positive divisor `c`: the exact quotient,
rounded to a double. -/
def JsNum.divPos (x : JsNum) (c : ℚ) : JsNum :=
  match x with
  | .nan => .nan
  | .inf negative => .inf negative
  | .fin q => roundDouble (q / c)

/-- JavaScript `Math.ceil`. -/
def JsNum.ceil : JsNum → JsNum
  | .nan => .nan
  | .inf negative => .inf negative
  | .fin q => .fin (⌈q⌉ : ℤ)

/-- Truthiness of a number: `NaN` and zero are falsy. -/
def JsNum.truthy : JsNum → Bool
  | .nan => false
  | .inf _ => true
  | .fin q => decide (q ≠ 0)

/-- JavaScript truthiness (`!v` is its negation). A number of the body is the
double that `JSON.parse` read from its literal. -/
def JsValue.truthy : JsValue → Bool
  | .undefined => false
  | .null => false
  | .bool b => b
  | .num x => x.toDouble.truthy
  | .str s => decide (s ≠ "")

/-- Truthiness of an optional string field of a request (`!x` is its negation):
a missing field and the empty string are falsy. -/
def truthy : Option String → Bool
  | none => false
  | some s => decide (s ≠ "")

/-! ### `parseFloat` -/

/-- White space skipped by `parseFloat` before the literal. -/
def isStrWhiteSpace (c : Char) : Bool :=
  c.toNat = 32 || c.toNat = 9 || c.toNat = 10 || c.toNat = 11 || c.toNat = 12 ||
  c.toNat = 13 || c.toNat = 160 || c.toNat = 5760 || c.toNat = 8232 || c.toNat = 8233 ||
  c.toNat = 8239 || c.toNat = 8287 || c.toNat = 12288 || c.toNat = 65279 ||
  (8192 ≤ c.toNat && c.toNat ≤ 8202)

/-- Value of a run of decimal digits. -/
def digitsValue (ds : List Char) : Nat :=
  ds.foldl (fun n c => 10 * n + (c.toNat - 48)) 0

/-- The exponent part `e[+-]digits` at the head of the input, if well formed. -/
def parseExponent : List Char → ℤ
  | e :: rest =>
    if e = 'e' ∨ e = 'E' then
      match rest with
      | '+' :: ds =>
        let run := ds.takeWhile Char.isDigit
        if run = [] then 0 else (digitsValue run : ℤ)
      | '-' :: ds =>
        let run := ds.takeWhile Char.isDigit
        if run = [] then 0 else -(digitsValue run : ℤ)
      | ds =>
        let run := ds.takeWhile Char.isDigit
        if run = [] then 0 else (digitsValue run : ℤ)
    else 0
  | [] => 0

/-- The longest unsigned decimal literal at the head of the input, as its exact
value; `none` when the input does not start with one. -/
def parseUnsignedDecimal (cs : List Char) : Option ℚ :=
  let intPart := cs.takeWhile Char.isDigit
  let afterInt := cs.dropWhile Char.isDigit
  let fracPart : List Char :=
    match afterInt with
    | '.' :: r => r.takeWhile Char.isDigit
    | _ => []
  let afterFrac : List Char :=
    match afterInt with
    | '.' :: r => r.dropWhile Char.isDigit
    | _ => afterInt
  if intPart = [] ∧ fracPart = [] then none
  else
    let mantissa : ℚ := (digitsValue intPart : ℚ) + (digitsValue fracPart : ℚ) / 10 ^ fracPart.length
    some (mantissa * (10 : ℚ) ^ parseExponent afterFrac)

/-- The literal after the optional sign: `Infinity`, or a decimal literal, read
as the double nearest to its value. -/
def parseUnsigned (cs : List Char) : JsNum :=
  if "Infinity".toList.isPrefixOf cs then .inf false
  else
    match parseUnsignedDecimal cs with
    | some q => roundDouble q
    | none => .nan

/-- JavaScript `parseFloat` on a string. -/
def parseFloatString (s : String) : JsNum :=
  match s.toList.dropWhile isStrWhiteSpace with
  | '+' :: cs => parseUnsigned cs
  | '-' :: cs => (parseUnsigned cs).neg
  | cs => parseUnsigned cs

/-- JavaScript `parseFloat(v)`: the argument is first converted to a string.
A number (a double) converts to a string that parses back to itself;
`undefined`, `null` and booleans convert to words that are not numeric
literals. -/
def parseFloat : JsValue → JsNum
  | .num x => x.toDouble
  | .str s => parseFloatString s
  | _ => .nan

/-! ### Strings and arrays -/

/-- JavaScript `s.substring(0, n)`. -/
def substring0 (n : Nat) (s : String) : String :=
  String.mk (s.toList.take n)

/-- Replace the first occurrence of `pat` in a list of characters by `rep`. -/
def replaceFirstChars (pat rep : List Char) : List Char → List Char
  | [] => []
  | c :: cs =>
    if pat.isPrefixOf (c :: cs) then rep ++ (c :: cs).drop pat.length
    else c :: replaceFirstChars pat rep cs

/-- JavaScript `s.replace(pat, rep)` with a non-empty string pattern and a
replacement free of `$` patterns: the first occurrence is replaced. -/
def replaceFirst (s pat rep : String) : String :=
  String.mk (replaceFirstChars pat.toList rep.toList s.toList)

/-- JavaScript `xs.findIndex(p)`; `none` stands for `-1`. -/
def findIndex {α : Type} (p : α → Bool) : List α → Option Nat
  | [] => none
  | x :: xs => if p x then some 0 else (findIndex p xs).map (· + 1)

/-- In-place update `xs[i] = f(xs[i])` of an array element. -/
def modifyAt {α : Type} (f : α → α) : Nat → List α → List α
  | _, [] => []
  | 0, x :: xs => f x :: xs
  | i + 1, x :: xs => x :: modifyAt f i xs

/-- Rewrite of the first document that matches `p`: what an update by a unique
key, or `save` of the document found by that key, does to a collection. -/
def updateFirst {α : Type} (p : α → Bool) (f : α → α) : List α → List α
  | [] => []
  | x :: xs => if p x then f x :: xs else x :: updateFirst p f xs

/-! ## Documents -/

/-- Milliseconds since the epoch. -/
abbrev Timestamp := Nat

/-- The clock of one request: the k-th read returns `clk k`. -/
abbrev Clock := Nat → Timestamp

/-- A MongoDB ObjectId in its string form: 24 hexadecimal digits in lower case. -/
abbrev ObjectId := String

/-- A hexadecimal digit, of either case. -/
def isHexChar (c : Char) : Bool :=
  c.isDigit || (decide (97 ≤ c.toNat) && decide (c.toNat ≤ 102)) ||
    (decide (65 ≤ c.toNat) && decide (c.toNat ≤ 70))

/-- The cast of a request string to an ObjectId, as `findById` and the queries
on an ObjectId path perform it: a string of 24 hexadecimal digits is read
without regard to the case of the digits, and the string form of the result is
in lower case; any other string is refused with a `CastError` (`none`), which
the handlers answer from their `catch` block. A 12-character string, which
older drivers read as twelve raw bytes, is refused here as well. -/
def castObjectId (s : String) : Option ObjectId :=
  if s.length = 24 ∧ s.toList.all isHexChar = true then
    some (String.mk (s.toList.map Char.toLower))
  else none

/-- Platform functions used by the handlers. -/
structure Runtime where
  /-- The call `crypto.createHash("sha256").update(data).digest("hex")`. -/
  sha256Hex : String → String
  /-- Conversion of a number to a string inside a template literal. -/
  numToString : ℚ → String
  /-- The call `x.toFixed(2)`. -/
  toFixed2 : ℚ → String

/-- The `deviceInfo` object stored on a click. -/
structure ClickDeviceInfo where
  userAgent : Option String
  platform : Option String
  timestamp : Timestamp
deriving DecidableEq

/-- A document of `models/Click.js`. -/
structure Click where
  clickId : String
  userId : ObjectId
  offerId : ObjectId
  upi : String
  rewardCoins : ℚ := 0
  isRewarded : Bool := false
  rewardedAt : Option Timestamp := none
  status : String := "pending"
  ipAddress : Option String := none
  deviceInfo : Option ClickDeviceInfo := none
  createdAt : Timestamp
  updatedAt : Timestamp
deriving DecidableEq

/-- A document of `models/Offer.js`. Descriptive fields that no handler of the
click, settlement or withdrawal paths reads (image, developer, rating, ...)
are left out. The schema declares no path `rewardAmount`. -/
structure Offer where
  _id : ObjectId
  title : String
  description : String
  coins : ℚ
  type : String
  requirements : String
  trackingUrl : String := ""
  isActive : Bool := true
  completedBy : List String := []
deriving DecidableEq

/-- The `paymentMethod` object of a user: `{ type, ...details }`. -/
structure PaymentMethod where
  type : String
  details : List (String × String)
deriving DecidableEq

/-- An entry of `user.paymentMethods`. -/
structure PaymentMethodEntry where
  id : String
  type : String
  details : List (String × String)
  isDefault : Bool
deriving DecidableEq

/-- An entry of `user.transactions`. -/
structure Transaction where
  id : String
  type : String
  amount : ℚ
  description : String
  date : Timestamp
  status : Option String := none
  paymentMethod : Option PaymentMethod := none
  offerId : Option String := none
deriving DecidableEq

/-- An entry of `user.notifications`. -/
structure Notification where
  id : String
  type : String
  title : String
  message : String
  read : Bool := false
  timestamp : Timestamp
  date : Option Timestamp := none
deriving DecidableEq

/-- An entry of `user.withdrawals`, `pendingWithdrawals`, `verifiedWithdrawals`. -/
structure Withdrawal where
  id : String
  amount : ℚ
  coins : ℚ
  date : Timestamp
  paymentMethod : PaymentMethod
  status : String
  verifiedDate : Option Timestamp
  verifiedBy : Option String
deriving DecidableEq

/-- An entry of `user.referralHistory`, with the paths of its schema (the `_id`
that the store gives each entry is left out). -/
structure ReferralEntry where
  user : Option ObjectId := none
  email : String
  name : String
  date : Timestamp
  coinsEarned : ℚ
deriving DecidableEq

/-- An entry of `user.userProblems`. -/
structure UserProblem where
  id : String
  title : String
  description : String
  type : String
  status : String := "open"
  createdAt : Timestamp
  updatedAt : Timestamp
  resolvedAt : Option Timestamp := none
  adminResponse : Option String := none
  attachments : List String := []
deriving DecidableEq

/-- The `deviceInfo` sub-document of a user. -/
structure UserDeviceInfo where
  platform : Option String := none
  version : Option String := none
  manufacturer : Option String := none
  model : Option String := none
  lastUpdated : Timestamp
deriving DecidableEq

/-- A document of `models/User.js`. -/
structure User where
  _id : ObjectId
  uid : String
  email : String
  name : String
  advertisingID : Option String := none
  deviceInfo : UserDeviceInfo
  profileImageUrl : Option String := none
  profileImage : Option String := none
  referralCode : String
  usedReferralCode : Option String := none
  referredBy : Option ObjectId := none
  referrals : List ObjectId := []
  referralHistory : List ReferralEntry := []
  referralCount : Nat := 0
  phone : Option String := none
  dateOfBirth : Option Timestamp := none
  gender : Option String := none
  coins : ℚ := 0
  completedOffers : List String := []
  pendingOffers : List String := []
  rejectedOffers : List String := []
  paymentMethods : List PaymentMethodEntry := []
  paymentMethod : Option PaymentMethod := none
  transactions : List Transaction := []
  withdrawals : List Withdrawal := []
  pendingWithdrawals : List Withdrawal := []
  verifiedWithdrawals : List Withdrawal := []
  notifications : List Notification := []
  lastCheckIn : Option Timestamp := none
  userProblems : List UserProblem := []
  createdAt : Timestamp
deriving DecidableEq

/-- The three collections of the store. -/
structure Database where
  users : List User := []
  offers : List Offer := []
  clicks : List Click := []
deriving DecidableEq

/-- The call `User.findById(id)` on an ObjectId. -/
def findUserById (db : Database) (id : ObjectId) : Option User :=
  db.users.find? (fun u => decide (u._id = id))

/-- The call `User.findOne({ uid })`. -/
def findUserByUid (db : Database) (uid : String) : Option User :=
  db.users.find? (fun u => decide (u.uid = uid))

/-- The call `Offer.findById(id)` on a request string: the string is cast to an
ObjectId and the offer with that `_id` is looked up. A string that is not an
ObjectId finds nothing; the handlers test the cast first. -/
def findOfferById (db : Database) (id : String) : Option Offer :=
  match castObjectId id with
  | some oid => db.offers.find? (fun o => decide (o._id = oid))
  | none => none

/-- The call `Click.findOne({ clickId })`. -/
def findClick (db : Database) (clickId : String) : Option Click :=
  db.clicks.find? (fun c => decide (c.clickId = clickId))

/-! ## `routes/clicks.js` -/

/-- The helper `generateClickId(userId, offerId)`: the first 12 characters of
the hex digest of `userId_offerId_timestamp`, the timestamp being the first
clock read. -/
def generateClickId (rt : Runtime) (clk : Clock) (userId offerId : String) : String :=
  let timestamp := clk 0
  let data := userId ++ "_" ++ offerId ++ "_" ++ toString timestamp
  substring0 12 (rt.sha256Hex data)

/-- Body and headers of `POST /create`. -/
structure CreateRequest where
  userId : Option String
  offerId : Option String
  upi : Option String
  ip : Option String := none
  userAgent : Option String := none
  platform : Option String := none

/-- Response of `POST /create`: HTTP status code and JSON body. -/
structure CreateResponse where
  code : Nat
  success : Bool
  message : String
  clickId : Option String := none
  pcid : Option String := none
  trackingUrl : Option String := none
deriving DecidableEq

/-- The query `{ userId, offerId, status: { $in: ["pending", "clicked"] } }`. -/
def isOpenClickFor (userId offerId : String) (c : Click) : Bool :=
  decide (c.userId = userId) && decide (c.offerId = offerId) &&
    (decide (c.status = "pending") || decide (c.status = "clicked"))

/-- Handler of `POST /create`. The two ids of the body are cast to ObjectIds by
the two `findById` calls, by the query for an open click and by the new click
document; a string that is not an ObjectId makes the first of them throw, and
the handler answers 500 from its `catch` block. The click id is computed from
the strings of the body as they are. The value of `offer.rewardAmount || 0` is
0: the schema of `Offer` declares no path `rewardAmount`, so the property is
undefined on every offer document. Saving the new click fails on the unique
index of `clickId` when the generated id is already taken; the handler then
answers 500 as well. -/
def createClick (rt : Runtime) (clk : Clock) (db : Database) (req : CreateRequest) :
    Database × CreateResponse :=
  if !truthy req.userId || !truthy req.offerId || !truthy req.upi then
    (db, { code := 400, success := false, message := "Missing required fields" })
  else
    let userId := req.userId.getD ""
    let offerId := req.offerId.getD ""
    let upi := req.upi.getD ""
    match castObjectId userId, castObjectId offerId with
    | some userOid, some offerOid =>
      match findUserById db userOid, findOfferById db offerId with
      | some _, some offer =>
        match db.clicks.find? (isOpenClickFor userOid offerOid) with
        | some existingClick =>
          (db, { code := 400, success := false,
                 message := "You already have a pending click for this offer",
                 clickId := some existingClick.clickId,
                 pcid := some existingClick.clickId })
        | none =>
          let clickId := generateClickId rt clk userId offerId
          let click : Click :=
            { clickId := clickId, userId := userOid, offerId := offerOid, upi := upi,
              rewardCoins := 0,
              ipAddress := req.ip,
              deviceInfo := some { userAgent := req.userAgent, platform := req.platform,
                                   timestamp := clk 1 },
              status := "pending",
              createdAt := clk 2, updatedAt := clk 3 }
          if db.clicks.any (fun c => decide (c.clickId = clickId)) then
            (db, { code := 500, success := false, message := "Error tracking click" })
          else
            let trackingUrl := replaceFirst offer.trackingUrl "{click_id}" clickId
            ({ db with clicks := db.clicks ++ [click] },
             { code := 201, success := true, message := "Click tracked successfully",
               clickId := some clickId, pcid := some clickId,
               trackingUrl := some trackingUrl })
      | _, _ =>
        (db, { code := 404, success := false, message := "User or offer not found" })
    | _, _ => (db, { code := 500, success := false, message := "Error tracking click" })

/-- Body of `POST /postback`. -/
structure PostbackRequest where
  click_id : Option String := none
  pcid : Option String := none
  status : Option String := none
  offer_id : Option String := none
  payout : Option String := none

/-- Response of `POST /postback`: HTTP status code and JSON body. -/
structure PostbackResponse where
  code : Nat
  success : Bool
  message : String
  status : Option String := none
  isRewarded : Option Bool := none
  click_id : Option String := none
  pcid : Option String := none
deriving DecidableEq

/-- The expression `click_id || pcid`. -/
def PostbackRequest.trackingId (req : PostbackRequest) : Option String :=
  if truthy req.click_id then req.click_id else req.pcid

/-- The expression `status || "installed"`. -/
def PostbackRequest.newStatus (req : PostbackRequest) : String :=
  if truthy req.status then req.status.getD "" else "installed"

/-- The test `offer_id && click.offerId.toString() !== offer_id`. -/
def PostbackRequest.offerMismatch (req : PostbackRequest) (click : Click) : Bool :=
  truthy req.offer_id && decide (click.offerId ≠ req.offer_id.getD "")

/-- Handler of `POST /postback`. -/
def postback (clk : Clock) (db : Database) (req : PostbackRequest) :
    Database × PostbackResponse :=
  if !truthy req.trackingId then
    (db, { code := 400, success := false,
           message := "Click ID (click_id or pcid) is required" })
  else
    let clickId := req.trackingId.getD ""
    match findClick db clickId with
    | none => (db, { code := 404, success := false, message := "Click not found" })
    | some click =>
      if req.offerMismatch click then
        (db, { code := 400, success := false, message := "Offer ID mismatch" })
      else if click.isRewarded then
        (db, { code := 400, success := false, message := "Click already rewarded" })
      else
        let newStatus := req.newStatus
        if newStatus = "installed" ∨ newStatus = "completed" then
          match findUserById db click.userId with
          | none =>
            (db, { code := 500, success := false, message := "Error processing postback" })
          | some _ =>
            let users := updateFirst (fun u => decide (u._id = click.userId))
              (fun u => { u with coins := u.coins + click.rewardCoins }) db.users
            let saved : Click :=
              { click with status := newStatus, isRewarded := true,
                           rewardedAt := some (clk 0), updatedAt := clk 1 }
            ({ db with users := users,
                       clicks := updateFirst (fun c => decide (c.clickId = clickId))
                         (fun _ => saved) db.clicks },
             { code := 200, success := true, message := "Postback processed successfully",
               status := some newStatus, isRewarded := some saved.isRewarded,
               click_id := some clickId, pcid := some clickId })
        else
          let saved : Click := { click with status := newStatus, updatedAt := clk 0 }
          ({ db with clicks := updateFirst (fun c => decide (c.clickId = clickId))
                       (fun _ => saved) db.clicks },
           { code := 200, success := true, message := "Postback processed successfully",
             status := some newStatus, isRewarded := some saved.isRewarded,
             click_id := some clickId, pcid := some clickId })

/-! ## `routes/users.js`: withdrawals -/

/-- The constant `conversionRate = 0.1` (rupees per coin): the double nearest to
one tenth, 3602879701896397 / 2^55. -/
def conversionRate : ℚ := 3602879701896397 / 36028797018963968

/-- The expression `Math.ceil(amountNumber / conversionRate)`. -/
def coinsRequired (amountNumber : JsNum) : JsNum :=
  (amountNumber.divPos conversionRate).ceil

/-- Response of `POST /:firebaseUid/withdraw`: HTTP status code and JSON body. -/
structure WithdrawResponse where
  code : Nat
  message : String
  available : Option ℚ := none
  required : Option JsNum := none
  withdrawal : Option Withdrawal := none
  newBalance : Option ℚ := none
  deductedCoins : Option ℚ := none
deriving DecidableEq

/-- The `$inc` / `$push` update of the withdraw handler, applied to a user. -/
def applyWithdrawal (coinsRequired : ℚ) (withdrawal : Withdrawal) (transaction : Transaction)
    (notification : Notification) (u : User) : User :=
  { u with coins := u.coins + (-coinsRequired),
           withdrawals := withdrawal :: u.withdrawals,
           pendingWithdrawals := withdrawal :: u.pendingWithdrawals,
           transactions := transaction :: u.transactions,
           notifications := notification :: u.notifications }

/-- Handler of `POST /:firebaseUid/withdraw`. Clock read 0 is the log timestamp.
The last branch is not reached: validation leaves a positive finite number or
`Infinity`, and `Infinity` fails the balance check. -/
def withdraw (rt : Runtime) (clk : Clock) (db : Database) (firebaseUid : String)
    (amount : JsValue) : Database × WithdrawResponse :=
  if !amount.truthy || (parseFloat amount).isNaN || (parseFloat amount).le (.fin 0) then
    (db, { code := 400, message := "Valid amount is required" })
  else
    let amountNumber := parseFloat amount
    match findUserByUid db firebaseUid with
    | none => (db, { code := 404, message := "User not found" })
    | some user =>
      if (JsNum.fin user.coins).lt (coinsRequired amountNumber) then
        (db, { code := 400, message := "Insufficient coins for this withdrawal",
               available := some user.coins,
               required := some (coinsRequired amountNumber) })
      else
        match user.paymentMethod with
        | none =>
          (db, { code := 400,
                 message := "No payment method found. Please add a payment method first." })
        | some paymentMethod =>
          match amountNumber, coinsRequired amountNumber with
          | .fin amt, .fin coins =>
            let withdrawalId := toString (clk 1)
            let withdrawal : Withdrawal :=
              { id := withdrawalId, amount := amt, coins := coins, date := clk 2,
                paymentMethod := paymentMethod, status := "pending",
                verifiedDate := none, verifiedBy := none }
            let transaction : Transaction :=
              { id := withdrawalId, type := "withdraw", amount := -coins,
                description := "Withdrawal request for ₹" ++ rt.toFixed2 amt,
                date := clk 3, status := some "pending",
                paymentMethod := some paymentMethod }
            let notification : Notification :=
              { id := toString (clk 4), type := "withdrawal",
                title := "Withdrawal Requested",
                message := "Your withdrawal request for ₹" ++ rt.toFixed2 amt ++
                  " has been received and is pending approval.",
                timestamp := clk 5, read := false }
            let updatedUser := applyWithdrawal coins withdrawal transaction notification user
            ({ db with users := updateFirst (fun u => decide (u.uid = firebaseUid))
                         (applyWithdrawal coins withdrawal transaction notification) db.users },
             { code := 201, message := "Withdrawal request submitted successfully",
               withdrawal := some withdrawal, newBalance := some updatedUser.coins,
               deductedCoins := some coins })
          | _, _ => (db, { code := 500, message := "Server error" })

/-- Response of `PATCH /:firebaseUid/withdrawals/:withdrawalId/verify`. -/
structure VerifyResponse where
  code : Nat
  message : String
  withdrawal : Option Withdrawal := none
deriving DecidableEq

/-- The three assignments `status = "verified"`, `verifiedDate = new Date()`,
`verifiedBy = adminUid` on a withdrawal record. -/
def markVerified (date : Timestamp) (adminUid : String) (w : Withdrawal) : Withdrawal :=
  { w with status := "verified", verifiedDate := some date, verifiedBy := some adminUid }

/-- Handler of `PATCH /:firebaseUid/withdrawals/:withdrawalId/verify`. The
element read at a found index is taken with `find?` on the same predicate.
`withdrawals` and `transactions` are arrays of plain objects (schema type
`Array`): the assignments to the fields of `user.withdrawals[i]` and of
`user.transactions[k]` change the loaded copy only, nothing marks the two paths
as modified, and `save` does not write them. What `save` writes are the three
arrays changed through `unshift` and `splice`: `verifiedWithdrawals`,
`pendingWithdrawals` and `notifications`. The response carries the loaded copy
of the withdrawal, with the three fields set. -/
def verifyWithdrawal (rt : Runtime) (clk : Clock) (db : Database)
    (firebaseUid withdrawalId : String) (adminUid : Option String) :
    Database × VerifyResponse :=
  if !truthy adminUid then
    (db, { code := 400, message := "Admin UID is required for verification" })
  else
    match findUserByUid db firebaseUid with
    | none => (db, { code := 404, message := "User not found" })
    | some user =>
      let hasId : Withdrawal → Bool := fun w => decide (w.id = withdrawalId)
      match findIndex hasId user.pendingWithdrawals, user.pendingWithdrawals.find? hasId with
      | some pendingIndex, some pendingWithdrawal =>
        match findIndex hasId user.withdrawals, user.withdrawals.find? hasId with
        | some _, some mainWithdrawal =>
          let admin := adminUid.getD ""
          let verifiedWithdrawal := markVerified (clk 1) admin pendingWithdrawal
          let notification : Notification :=
            { id := toString (clk 2), type := "withdrawal_verified",
              title := "Withdrawal Verified",
              message := "Your withdrawal request for ₹" ++ rt.numToString mainWithdrawal.amount ++
                " has been verified and processed.",
              timestamp := clk 3, read := false }
          let saved : User :=
            { user with verifiedWithdrawals := verifiedWithdrawal :: user.verifiedWithdrawals,
                        pendingWithdrawals := user.pendingWithdrawals.eraseIdx pendingIndex,
                        notifications := notification :: user.notifications }
          ({ db with users := updateFirst (fun u => decide (u.uid = firebaseUid))
                       (fun _ => saved) db.users },
           { code := 200, message := "Withdrawal verified successfully",
             withdrawal := some (markVerified (clk 0) admin mainWithdrawal) })
        | _, _ => (db, { code := 404, message := "Withdrawal not found" })
      | _, _ => (db, { code := 404, message := "Pending withdrawal not found" })

/-! ## Properties stated over the handlers -/

/-- Sum of the `amount` fields of a user's transaction log. -/
def ledgerSum (u : User) : ℚ :=
  (u.transactions.map (fun t => t.amount)).sum

/-- Ledger consistency: every balance equals the sum of the user's transaction amounts. -/
def LedgerConsistent (db : Database) : Prop :=
  ∀ u ∈ db.users, u.coins = ledgerSum u

/-- A postback whose reported status is a completion status. -/
def PostbackRequest.isCompletion (req : PostbackRequest) : Prop :=
  req.newStatus = "installed" ∨ req.newStatus = "completed"

/-- One call of the click API that can write to the store. -/
inductive ClickOp where
  | create (clk : Clock) (req : CreateRequest) : ClickOp
  | postback (clk : Clock) (req : PostbackRequest) : ClickOp

/-- Effect of one click API call on the store. -/
def ClickOp.run (rt : Runtime) (db : Database) : ClickOp → Database
  | .create clk req => (createClick rt clk db req).1
  | .postback clk req => (RewardsBackend.postback clk db req).1

/-- Effect of a sequence of click API calls, in order. -/
def runClickOps (rt : Runtime) (db : Database) (ops : List ClickOp) : Database :=
  ops.foldl (ClickOp.run rt) db

/-- Number of clicks of a (user, offer) pair whose status is `pending` or `clicked`. -/
def openClickCount (db : Database) (userId offerId : String) : Nat :=
  (db.clicks.filter (isOpenClickFor userId offerId)).length

/-- Deduplication invariant: at most one open click per (user, offer) pair. -/
def DedupInvariant (db : Database) : Prop :=
  ∀ userId offerId, openClickCount db userId offerId ≤ 1

/-- A status that counts as open for deduplication: `pending` or `clicked`. -/
def isOpenStatus (status : String) : Bool :=
  decide (status = "pending") || decide (status = "clicked")

/-- A postback that re-opens a click: it is accepted (the click is found, passes
the offer check and is not yet rewarded) and reports `pending` or `clicked` for
a click whose current status is neither. -/
def ClickOp.reopens (db : Database) : ClickOp → Bool
  | .create _ _ => false
  | .postback _ req =>
    isOpenStatus req.newStatus && truthy req.trackingId &&
      match findClick db (req.trackingId.getD "") with
      | some click =>
        !req.offerMismatch click && !click.isRewarded && !isOpenStatus click.status
      | none => false

/-- No call of the sequence, run from `db`, re-opens a click. -/
def noReopen (rt : Runtime) : Database → List ClickOp → Bool
  | _, [] => true
  | db, op :: ops => !op.reopens db && noReopen rt (op.run rt db) ops

/-! ### Example data -/

/-- A runtime whose digest agrees with SHA-256 on the two strings hashed in the
examples below, and whose number formatting is that of JavaScript on the
integers (below 10^21) that the examples format. -/
def exRuntime : Runtime where
  sha256Hex := fun s =>
    if s = "64b7f1c2a3d4e5f607182930_64b7f1c2a3d4e5f607182931_1700000000000" then
      "3213891eaa315cdc8b5075d6c0717fe82a27f170a97e4ee49b9b8592e16bf4d9"
    else if s = "64b7f1c2a3d4e5f607182930_64b7f1c2a3d4e5f607182931_1700000005000" then
      "304f5a1f7d985b58f9d6a3434d32319b0dead50afafbd78167eeb5ba63708604"
    else ""
  numToString := fun q => toString q.num
  toFixed2 := fun q => toString q.num ++ ".00"

/-- A freshly synced user: no coins, empty lists. -/
def exUser : User :=
  { _id := "64b7f1c2a3d4e5f607182930", uid := "firebase-uid-1", email := "asha@example.com",
    name := "Asha", deviceInfo := { lastUpdated := 1690000000000 },
    referralCode := "ASH4K2Q000", createdAt := 1690000000000 }

/-- An active offer worth 100 coins. -/
def exOffer : Offer :=
  { _id := "64b7f1c2a3d4e5f607182931", title := "Install the app",
    description := "Install and open", coins := 100, type := "install",
    requirements := "New users only",
    trackingUrl := "https://track.example/c?pcid={click_id}" }

/-- A store holding the fresh user and the offer, and no click. -/
def exDb : Database := { users := [exUser], offers := [exOffer] }

/-- A click request of the example user for the example offer. -/
def exCreate : CreateRequest :=
  { userId := some "64b7f1c2a3d4e5f607182930", offerId := some "64b7f1c2a3d4e5f607182931",
    upi := some "asha@upi" }

/-- Clock of the first example request. -/
def exClock1 : Clock := fun _ => 1700000000000

/-- Clock of a later example request. -/
def exClock2 : Clock := fun _ => 1700000005000

/-- A pending click of the example user on the example offer, worth 100 coins. -/
def exClick : Click :=
  { clickId := "3213891eaa31", userId := "64b7f1c2a3d4e5f607182930",
    offerId := "64b7f1c2a3d4e5f607182931", upi := "asha@upi", rewardCoins := 100,
    status := "pending", createdAt := 1700000000000, updatedAt := 1700000000000 }

/-- The same click after its reward has been paid. -/
def exRewardedClick : Click :=
  { exClick with status := "installed", isRewarded := true,
                 rewardedAt := some 1700000001000, updatedAt := 1700000001000 }

/-- The example store with the pending click. -/
def exDbPending : Database := { exDb with clicks := [exClick] }

/-- The example store with the rewarded click. -/
def exDbRewarded : Database := { exDb with clicks := [exRewardedClick] }

/-- A completion postback for the example click that names another offer. -/
def exMismatchPostback : PostbackRequest :=
  { click_id := some "3213891eaa31", status := some "completed",
    offer_id := some "64b7f1c2a3d4e5f6071829ff" }

/-- A completion postback for the example click. -/
def exInstalledPostback : PostbackRequest :=
  { click_id := some "3213891eaa31", status := some "installed" }

/-- The click that `POST /create` stores for `exCreate` on `exDb` at `exClock1`:
the schema of the offer has no `rewardAmount`, so `rewardCoins` is 0. -/
def exCreatedClick : Click :=
  { clickId := "3213891eaa31", userId := "64b7f1c2a3d4e5f607182930",
    offerId := "64b7f1c2a3d4e5f607182931", upi := "asha@upi", rewardCoins := 0,
    deviceInfo := some { userAgent := none, platform := none, timestamp := 1700000000000 },
    status := "pending", createdAt := 1700000000000, updatedAt := 1700000000000 }

/-- Four calls on the example store: create a click, report it `rejected`,
create a second click for the same user and offer, report the first `clicked`. -/
def exDedupOps : List ClickOp :=
  [ .create exClock1 exCreate,
    .postback exClock1 { click_id := some "3213891eaa31", status := some "rejected" },
    .create exClock2 exCreate,
    .postback exClock2 { click_id := some "3213891eaa31", status := some "clicked" } ]

/-- Four calls on the example store that follow the status order `pending`,
`clicked`, `installed`, with a repeated create in between. -/
def exOrderlyOps : List ClickOp :=
  [ .create exClock1 exCreate,
    .postback exClock1 { click_id := some "3213891eaa31", status := some "clicked" },
    .create exClock2 exCreate,
    .postback exClock2 { click_id := some "3213891eaa31", status := some "installed" } ]

/-- The example user with 1000 coins and a UPI payment method. -/
def exRichUser : User :=
  { exUser with coins := 1000,
                paymentMethod := some { type := "upi", details := [("upiId", "asha@upi")] } }

/-- A store holding that user. -/
def exDbRich : Database := { users := [exRichUser], offers := [exOffer] }

/-- The withdrawal record of the example request for 50 rupees at `exClock1`. -/
def exWithdrawal : Withdrawal :=
  { id := "1700000000000", amount := 50, coins := 500, date := 1700000000000,
    paymentMethod := { type := "upi", details := [("upiId", "asha@upi")] },
    status := "pending", verifiedDate := none, verifiedBy := none }

/-- The transaction written with that withdrawal. -/
def exWithdrawTransaction : Transaction :=
  { id := "1700000000000", type := "withdraw", amount := -500,
    description := "Withdrawal request for ₹50.00", date := 1700000000000,
    status := some "pending",
    paymentMethod := some { type := "upi", details := [("upiId", "asha@upi")] } }

/-- The notification written with that withdrawal. -/
def exWithdrawNotification : Notification :=
  { id := "1700000000000", type := "withdrawal", title := "Withdrawal Requested",
    message := "Your withdrawal request for ₹50.00 has been received and is pending approval.",
    timestamp := 1700000000000, read := false }

/-- The example user after the withdrawal of 50 rupees: 500 coins left. -/
def exUserAfterWithdrawal : User :=
  { exRichUser with coins := 500, withdrawals := [exWithdrawal],
                    pendingWithdrawals := [exWithdrawal],
                    transactions := [exWithdrawTransaction],
                    notifications := [exWithdrawNotification] }

/-- The store after the withdrawal of 50 rupees. -/
def exDbAfterWithdrawal : Database := { users := [exUserAfterWithdrawal], offers := [exOffer] }

/-! ## `routes/offers.js` -/

/-- Response of the three offer handlers: HTTP status code and JSON body. -/
structure OfferResponse where
  code : Nat
  message : String
  coins : Option ℚ := none
  transaction : Option Transaction := none
  notification : Option Notification := none
  pendingOffers : Option (List String) := none
  rejectedOffers : Option (List String) := none
deriving DecidableEq

/-- The update operator `$pull: { field: offerId }`: every occurrence is removed. -/
def pull (offerId : String) (xs : List String) : List String :=
  xs.filter (fun x => decide (x ≠ offerId))

/-- The update of the complete handler, applied to a user: `$inc` of the coins,
`$push` of the offer id, the transaction and the notification, `$pull` of the
offer id from the pending and rejected lists. -/
def applyCompletion (offerId : String) (coins : ℚ) (transaction : Transaction)
    (notification : Notification) (u : User) : User :=
  { u with coins := u.coins + coins,
           completedOffers := u.completedOffers ++ [offerId],
           transactions := transaction :: u.transactions,
           notifications := notification :: u.notifications,
           pendingOffers := pull offerId u.pendingOffers,
           rejectedOffers := pull offerId u.rejectedOffers }

/-- Handler of `POST /:offerId/complete/:firebaseUid`. The offer is looked up,
and updated at the end, by the ObjectId that the `offerId` of the path casts
to; the `completedOffers` test, the lists of the user and the transaction use
the string of the path as it is. A string that is not an ObjectId makes
`findById` throw, and the handler answers 500 from its `catch` block. -/
def completeOffer (rt : Runtime) (clk : Clock) (db : Database) (offerId firebaseUid : String) :
    Database × OfferResponse :=
  match castObjectId offerId with
  | none => (db, { code := 500, message := "Server error" })
  | some offerOid =>
    match findOfferById db offerId with
    | none => (db, { code := 404, message := "Offer not found" })
    | some offer =>
      if !offer.isActive then
        (db, { code := 400, message := "Offer is not active" })
      else
        match findUserByUid db firebaseUid with
        | none => (db, { code := 404, message := "User not found" })
        | some existingUser =>
          if existingUser.completedOffers.contains offerId then
            (db, { code := 400, message := "Offer already completed" })
          else
            let transaction : Transaction :=
              { id := toString (clk 0), type := "earn", amount := offer.coins,
                description := "Completed offer: " ++ offer.title,
                offerId := some offerId, date := clk 1 }
            let notification : Notification :=
              { id := toString (clk 2) ++ "_complete",
                title := "Offer Completed Successfully!",
                message := "Congratulations! Your offer \"" ++ offer.title ++
                  "\" has been verified and completed. You earned " ++
                  rt.numToString offer.coins ++ " coins!",
                type := "reward", read := false, timestamp := clk 3 }
            let updatedUser := applyCompletion offerId offer.coins transaction notification
              existingUser
            ({ db with
                 users := updateFirst (fun u => decide (u.uid = firebaseUid))
                   (applyCompletion offerId offer.coins transaction notification) db.users,
                 offers := updateFirst (fun o => decide (o._id = offerOid))
                   (fun o => { o with completedBy := o.completedBy ++ [firebaseUid] })
                   db.offers },
             { code := 200, message := "Offer completed successfully",
               coins := some updatedUser.coins, transaction := some transaction,
               notification := some notification })

/-- Handler of `POST /:offerId/pending/:firebaseUid`; a path string that is not
an ObjectId is answered 500 from the `catch` block. -/
def markOfferPending (clk : Clock) (db : Database) (offerId firebaseUid : String) :
    Database × OfferResponse :=
  if castObjectId offerId = none then
    (db, { code := 500, message := "Server error" })
  else
    match findOfferById db offerId with
    | none => (db, { code := 404, message := "Offer not found" })
    | some offer =>
      if !offer.isActive then
        (db, { code := 400, message := "Offer is not active" })
      else
        match findUserByUid db firebaseUid with
        | none => (db, { code := 404, message := "User not found" })
        | some existingUser =>
          if existingUser.completedOffers.contains offerId then
            (db, { code := 400, message := "Offer already completed" })
          else if existingUser.pendingOffers.contains offerId then
            (db, { code := 400, message := "Offer is already pending" })
          else
            let notification : Notification :=
              { id := toString (clk 0), title := "Offer Submitted for Verification",
                message := "Your offer \"" ++ offer.title ++
                  "\" has been submitted for verification. We\x27ll notify you once it\x27s reviewed.",
                type := "offer", read := false, timestamp := clk 1 }
            ({ db with
                 users := updateFirst (fun u => decide (u.uid = firebaseUid))
                   (fun u => { u with pendingOffers := u.pendingOffers ++ [offerId],
                                      notifications := notification :: u.notifications })
                   db.users },
             { code := 200, message := "Offer marked as pending",
               pendingOffers := some (existingUser.pendingOffers ++ [offerId]),
               notification := some notification })

/-- Handler of `POST /:offerId/reject/:firebaseUid`; `reason` is the optional
field of the body. A path string that is not an ObjectId is answered 500 from
the `catch` block. -/
def rejectOffer (clk : Clock) (db : Database) (offerId firebaseUid : String)
    (reason : Option String) : Database × OfferResponse :=
  if castObjectId offerId = none then
    (db, { code := 500, message := "Server error" })
  else
    match findOfferById db offerId with
    | none => (db, { code := 404, message := "Offer not found" })
    | some offer =>
      match findUserByUid db firebaseUid with
      | none => (db, { code := 404, message := "User not found" })
      | some existingUser =>
        if existingUser.completedOffers.contains offerId then
          (db, { code := 400, message := "Offer already completed" })
        else if existingUser.rejectedOffers.contains offerId then
          (db, { code := 400, message := "Offer is already rejected" })
        else
          let rejectionReason :=
            if truthy reason then reason.getD ""
            else "The verification requirements were not met."
          let notification : Notification :=
            { id := toString (clk 0) ++ "_reject",
              title := "Offer Verification Unsuccessful",
              message := "Your offer \"" ++ offer.title ++ "\" was not approved. Reason: " ++
                rejectionReason,
              type := "offer", read := false, timestamp := clk 1 }
          ({ db with
               users := updateFirst (fun u => decide (u.uid = firebaseUid))
                 (fun u => { u with rejectedOffers := u.rejectedOffers ++ [offerId],
                                    notifications := notification :: u.notifications,
                                    pendingOffers := pull offerId u.pendingOffers })
                 db.users },
           { code := 200, message := "Offer marked as rejected",
             rejectedOffers := some (existingUser.rejectedOffers ++ [offerId]),
             notification := some notification })

/-! ## `routes/users.js`: referrals -/

/-- The constant `REFERRAL_BONUS`, credited to the referrer. -/
def REFERRAL_BONUS : ℚ := 500

/-- The call `User.findOne({ referralCode })`. -/
def findUserByReferralCode (db : Database) (referralCode : String) : Option User :=
  db.users.find? (fun u => decide (u.referralCode = referralCode))

/-- Response of `POST /:firebaseUid/apply-referral`. -/
structure ReferralResponse where
  code : Nat
  message : String
  bonus : Option ℚ := none
  referrerBonus : Option ℚ := none
  user : Option User := none
deriving DecidableEq

/-- The current user as the apply-referral handler saves it (clock reads 0 to 3). -/
def referralApplier (clk : Clock) (referralCode : String) (referralUser currentUser : User) :
    User :=
  { currentUser with
      usedReferralCode := some referralCode,
      referredBy := some referralUser._id,
      transactions :=
        { id := toString (clk 0), type := "referral_applied", amount := 0,
          description := "Applied referral code: " ++ referralCode, date := clk 1 } ::
          currentUser.transactions,
      notifications :=
        { id := toString (clk 2) ++ "1", type := "referral", title := "Referral Applied!",
          message := "You\x27ve successfully applied the referral code!",
          timestamp := clk 3, read := false } :: currentUser.notifications }

/-- The referrer as the apply-referral handler saves it (clock reads 4 to 8); the
number in the two texts is the constant bonus. The object pushed to
`referralHistory` carries the applier under the key `userId`, which the schema
of the entries does not declare (its path is `user`): the key is dropped and
the stored entry has no `user`. -/
def referralReferrer (clk : Clock) (currentUser referralUser : User) : User :=
  { referralUser with
      coins := referralUser.coins + REFERRAL_BONUS,
      referrals := referralUser.referrals ++ [currentUser._id],
      referralHistory := referralUser.referralHistory ++
        [{ user := none, email := currentUser.email,
           name := if currentUser.name = "" then "User" else currentUser.name,
           date := clk 4, coinsEarned := REFERRAL_BONUS }],
      referralCount := referralUser.referralCount + 1,
      transactions :=
        { id := toString (clk 5 + 1), type := "referral_bonus", amount := REFERRAL_BONUS,
          description := "Received 500 coins for referring a new user", date := clk 6 } ::
          referralUser.transactions,
      notifications :=
        { id := toString (clk 7) ++ "2", type := "bonus", title := "Referral Bonus!",
          message := "You received 500 coins because someone used your referral code!",
          timestamp := clk 8, read := false } :: referralUser.notifications }

/-- Handler of `POST /:firebaseUid/apply-referral`. The two documents saved at
the end are distinct (their `_id` differ): the one found by `uid` and the one
found by `referralCode` are each rewritten in place. -/
def applyReferral (clk : Clock) (db : Database) (firebaseUid : String)
    (referralCode : Option String) : Database × ReferralResponse :=
  if !truthy referralCode then
    (db, { code := 400, message := "Referral code is required" })
  else
    let code := referralCode.getD ""
    match findUserByUid db firebaseUid with
    | none => (db, { code := 404, message := "User not found" })
    | some currentUser =>
      match findUserByReferralCode db code with
      | none => (db, { code := 404, message := "Invalid referral code" })
      | some referralUser =>
        if currentUser._id = referralUser._id then
          (db, { code := 400, message := "You cannot use your own referral code" })
        else if truthy currentUser.usedReferralCode then
          (db, { code := 400, message := "You have already used a referral code" })
        else
          let savedCurrent := referralApplier clk code referralUser currentUser
          let savedReferrer := referralReferrer clk currentUser referralUser
          ({ db with
               users := updateFirst (fun u => decide (u.referralCode = code))
                 (fun _ => savedReferrer)
                 (updateFirst (fun u => decide (u.uid = firebaseUid))
                   (fun _ => savedCurrent) db.users) },
           { code := 200, message := "Referral code applied successfully!",
             bonus := some 0, referrerBonus := some REFERRAL_BONUS,
             user := some savedCurrent })

/-! ## Properties stated over the handlers (withdrawal views, offers, referrals) -/

/-- A withdrawal record whose status is `pending`. -/
def isPendingWithdrawal (w : Withdrawal) : Bool := decide (w.status = "pending")

/-- A withdrawal record whose status is `verified`. -/
def isVerifiedWithdrawal (w : Withdrawal) : Bool := decide (w.status = "verified")

/-- The three withdrawal lists of a user agree: the ids of `withdrawals` are
pairwise distinct and each entry is pending or verified; `pendingWithdrawals`
is the list of the pending entries of `withdrawals`; the ids of
`verifiedWithdrawals` are, up to order, the ids of the verified entries of
`withdrawals`, and its entries have status `verified`. -/
def ViewsConsistent (u : User) : Prop :=
  (u.withdrawals.map (fun w => w.id)).Nodup ∧
  (∀ w ∈ u.withdrawals, w.status = "pending" ∨ w.status = "verified") ∧
  u.pendingWithdrawals = u.withdrawals.filter isPendingWithdrawal ∧
  (u.verifiedWithdrawals.map (fun w => w.id)).Perm
    ((u.withdrawals.filter isVerifiedWithdrawal).map (fun w => w.id)) ∧
  (∀ w ∈ u.verifiedWithdrawals, w.status = "verified")

/-- One call of the withdrawal API. -/
inductive WithdrawalOp where
  | request (clk : Clock) (firebaseUid : String) (amount : JsValue) : WithdrawalOp
  | verify (clk : Clock) (firebaseUid withdrawalId : String) (adminUid : Option String) :
      WithdrawalOp

/-- Effect of one withdrawal API call on the store. -/
def WithdrawalOp.run (rt : Runtime) (db : Database) : WithdrawalOp → Database
  | .request clk firebaseUid amount => (withdraw rt clk db firebaseUid amount).1
  | .verify clk firebaseUid withdrawalId adminUid =>
    (verifyWithdrawal rt clk db firebaseUid withdrawalId adminUid).1

/-- Effect of a sequence of withdrawal API calls, in order. -/
def runWithdrawalOps (rt : Runtime) (db : Database) (ops : List WithdrawalOp) : Database :=
  ops.foldl (WithdrawalOp.run rt) db

/-- An offer id occurs in at most one of the three offer lists of the user. -/
def OfferListsExclusive (u : User) : Prop :=
  ∀ offerId : String,
    ¬ (offerId ∈ u.completedOffers ∧ offerId ∈ u.pendingOffers) ∧
    ¬ (offerId ∈ u.completedOffers ∧ offerId ∈ u.rejectedOffers) ∧
    ¬ (offerId ∈ u.pendingOffers ∧ offerId ∈ u.rejectedOffers)

/-- One call of the apply-referral route. -/
structure ReferralCall where
  clk : Clock
  firebaseUid : String
  referralCode : Option String

/-- Number of calls of the sequence, run in order from `db`, that are made for
`firebaseUid` and succeed (answer 200). -/
def referralSuccesses (firebaseUid : String) : Database → List ReferralCall → Nat
  | _, [] => 0
  | db, call :: calls =>
    (if call.firebaseUid = firebaseUid ∧
        (applyReferral call.clk db call.firebaseUid call.referralCode).2.code = 200
      then 1 else 0) +
    referralSuccesses firebaseUid
      (applyReferral call.clk db call.firebaseUid call.referralCode).1 calls

/-! ### Example data (withdrawal views, offers, referrals) -/

/-- The example user with 1000 coins and no payment method. -/
def exUserNoMethod : User := { exUser with coins := 1000 }

/-- A store holding that user. -/
def exDbNoMethod : Database := { users := [exUserNoMethod], offers := [exOffer] }

/-- The example offer, deactivated. -/
def exInactiveOffer : Offer := { exOffer with isActive := false }

/-- A store holding the fresh example user and the deactivated offer. -/
def exDbInactive : Database := { users := [exUser], offers := [exInactiveOffer] }

/-- The example user after completing the example offer once. -/
def exUserCompleted : User :=
  { exUser with coins := 100, completedOffers := ["64b7f1c2a3d4e5f607182931"] }

/-- A store in which the example user has completed the offer and the offer has
since been deactivated. -/
def exDbCompletedInactive : Database :=
  { users := [exUserCompleted], offers := [exInactiveOffer] }

/-- The transaction of the first completion of the example offer at `exClock1`. -/
def exCompletionTransaction : Transaction :=
  { id := "1700000000000", type := "earn", amount := 100,
    description := "Completed offer: Install the app",
    offerId := some "64b7f1c2a3d4e5f607182931", date := 1700000000000 }

/-- The notification of that completion. -/
def exCompletionNotification : Notification :=
  { id := "1700000000000_complete", title := "Offer Completed Successfully!",
    message := "Congratulations! Your offer \"Install the app\" has been verified and " ++
      "completed. You earned 100 coins!",
    type := "reward", read := false, timestamp := 1700000000000 }

/-- The fresh example user after that completion. -/
def exUserCompletedOnce : User :=
  { exUser with coins := 100, completedOffers := ["64b7f1c2a3d4e5f607182931"],
                transactions := [exCompletionTransaction],
                notifications := [exCompletionNotification] }

/-- The example offer after that completion. -/
def exOfferCompletedOnce : Offer := { exOffer with completedBy := ["firebase-uid-1"] }

/-- A second user, the referrer of the referral examples. -/
def exReferrer : User :=
  { _id := "64b7f1c2a3d4e5f607182940", uid := "firebase-uid-2", email := "ravi@example.com",
    name := "Ravi", deviceInfo := { lastUpdated := 1690000000000 },
    referralCode := "RAV7T1M314", createdAt := 1690000000000 }

/-- A store holding the two fresh users. -/
def exDbTwoUsers : Database := { users := [exUser, exReferrer], offers := [exOffer] }

/-- Three apply-referral calls of the example user: the referrer's code, the
same code again, and a code that no user carries. -/
def exReferralCalls : List ReferralCall :=
  [ { clk := exClock1, firebaseUid := "firebase-uid-1", referralCode := some "RAV7T1M314" },
    { clk := exClock2, firebaseUid := "firebase-uid-1", referralCode := some "RAV7T1M314" },
    { clk := exClock2, firebaseUid := "firebase-uid-1", referralCode := some "NOBODY0000" } ]

/-- Withdrawal calls on the store of the user with 1000 coins: a request for 50
rupees and its verification. -/
def exWithdrawalOps : List WithdrawalOp :=
  [ .request exClock1 "firebase-uid-1" (.num (.fin 50)),
    .verify exClock2 "firebase-uid-1" "1700000000000" (some "admin-uid-7") ]

/-! ## `routes/clicks.js`: read routes -/

/-- What `populate("userId", "name email")` puts in place of the user reference. -/
structure ClickUserView where
  _id : ObjectId
  name : String
  email : String
deriving DecidableEq

/-- What `populate("offerId", "title rewardAmount trackingUrl")` puts in place of
the offer reference; the offer documents have no `rewardAmount`. -/
structure ClickOfferView where
  _id : ObjectId
  title : String
  trackingUrl : String
deriving DecidableEq

/-- A click as `GET /:clickId` returns it; a reference that resolves to no
document is populated with `null`. -/
structure ClickDetail where
  click : Click
  user : Option ClickUserView
  offer : Option ClickOfferView
deriving DecidableEq

/-- A click as `GET /user/:userId` returns it: only the offer is populated. -/
structure ClickListItem where
  click : Click
  offer : Option ClickOfferView
deriving DecidableEq

/-- Response of `GET /:clickId`. -/
structure ClickStatusResponse where
  code : Nat
  success : Bool
  message : Option String := none
  click : Option ClickDetail := none
deriving DecidableEq

/-- Response of `GET /user/:userId`. -/
structure ClickListResponse where
  code : Nat
  success : Bool
  message : Option String := none
  clicks : List ClickListItem := []
  total : Nat := 0
deriving DecidableEq

/-- The populated offer of a click: the offer whose `_id` is the reference. -/
def populateOffer (db : Database) (click : Click) : Option ClickOfferView :=
  (db.offers.find? (fun o => decide (o._id = click.offerId))).map
    (fun o => { _id := o._id, title := o.title, trackingUrl := o.trackingUrl })

/-- Handler of `GET /:clickId`: a query and two populations, no write. -/
def getClick (db : Database) (clickId : String) : Database × ClickStatusResponse :=
  match findClick db clickId with
  | none => (db, { code := 404, success := false, message := some "Click not found" })
  | some click =>
    (db, { code := 200, success := true,
           click := some
             { click := click,
               user := (findUserById db click.userId).map
                 (fun u => { _id := u._id, name := u.name, email := u.email }),
               offer := populateOffer db click } })

/-- Handler of `GET /user/:userId`: the clicks of the user, with the given
status when the query carries one, newest first; no write. The `userId` of the
path is cast to an ObjectId by the query; a string that is not one is answered
500 from the `catch` block. -/
def listUserClicks (db : Database) (userId : String) (status : Option String) :
    Database × ClickListResponse :=
  match castObjectId userId with
  | none =>
    (db, { code := 500, success := false, message := some "Error fetching user clicks" })
  | some userOid =>
    let query : Click → Bool := fun c =>
      decide (c.userId = userOid) && (!truthy status || decide (c.status = status.getD ""))
    let clicks :=
      (db.clicks.filter query).mergeSort (fun a b => decide (b.createdAt ≤ a.createdAt))
    (db, { code := 200, success := true,
           clicks := clicks.map (fun c => { click := c, offer := populateOffer db c }),
           total := clicks.length })

/-! ## `routes/users.js`: daily check-in -/

/-- Response of `POST /:firebaseUid/check-in`. -/
structure CheckInResponse where
  code : Nat
  message : String
  coins : Option ℚ := none
  transaction : Option Transaction := none
  notification : Option Notification := none
deriving DecidableEq

/-- Handler of `POST /:firebaseUid/check-in`. `startOfDay` is what
`setHours(0, 0, 0, 0)` makes of a time: the start of its day in the time zone
of the server. Clock read 0 is `today`, read 1 the new `lastCheckIn`; the
number in the notification text is the constant `checkInCoins`. -/
def checkIn (startOfDay : Timestamp → Timestamp) (clk : Clock) (db : Database)
    (firebaseUid : String) : Database × CheckInResponse :=
  match findUserByUid db firebaseUid with
  | none => (db, { code := 404, message := "User not found" })
  | some user =>
    let today := startOfDay (clk 0)
    let checkedIn : Bool :=
      match user.lastCheckIn with
      | some lastCheckIn => decide (today ≤ lastCheckIn)
      | none => false
    if checkedIn then
      (db, { code := 400, message := "Already checked in today" })
    else
      let checkInCoins : ℚ := 50
      let transaction : Transaction :=
        { id := toString (clk 2), type := "earn", amount := checkInCoins,
          description := "Daily check-in reward", date := clk 3 }
      let notification : Notification :=
        { id := toString (clk 4), title := "Daily Check-in Reward!",
          message := "You earned 50 coins for checking in today.",
          type := "reward", read := false, timestamp := clk 5, date := some (clk 6) }
      let saved : User :=
        { user with coins := user.coins + checkInCoins,
                    lastCheckIn := some (clk 1),
                    transactions := transaction :: user.transactions,
                    notifications := notification :: user.notifications }
      ({ db with users := updateFirst (fun u => decide (u.uid = firebaseUid))
                   (fun _ => saved) db.users },
       { code := 200, message := "Check-in successful", coins := some saved.coins,
         transaction := some transaction, notification := some notification })

/-! ## `scripts/resetCheckIns.js` -/

/-- The update `User.updateMany({}, { $set: { lastCheckIn: null } })`. -/
def resetCheckIns (db : Database) : Database :=
  { db with users := db.users.map (fun u => { u with lastCheckIn := none }) }

/-! ## `routes/users.js`: profile updates -/

/-- A JSON request body: its keys with their values, in order. -/
abbrev RequestBody := List (String × JsValue)

/-- Why Mongoose refuses an update or a save. -/
inductive StoreError where
  | cast (path : String) : StoreError
  | required (path : String) : StoreError
  | enumValue (path : String) : StoreError
  | duplicateKey (path : String) : StoreError
deriving DecidableEq

/-- Mongoose functions met by the profile handlers; the library is not part of
the repository. A cast returns `none` on a cast error and `some none` for a
value stored as `null`. -/
structure Mongoose where
  /-- Cast of a request value to a `String` path. -/
  castString : JsValue → Option (Option String)
  /-- Cast to the `email` path, with its `trim` and `lowercase` setters. -/
  castEmail : JsValue → Option (Option String)
  /-- Cast to a `Date` path. -/
  castDate : JsValue → Option (Option Timestamp)
  /-- The `message` of the error raised. -/
  errorMessage : StoreError → String

/-- The assignment of a request value to the schema path `key`, for the paths
that the two profile handlers let through. An unset (`null`) `name` or `email`
is stored as the empty string, which has the same truthiness. -/
def setField (m : Mongoose) (key : String) (value : JsValue) :
    Except StoreError (User → User) :=
  if key = "name" then
    match m.castString value with
    | some v => .ok (fun u => { u with name := v.getD "" })
    | none => .error (.cast key)
  else if key = "email" then
    match m.castEmail value with
    | some v => .ok (fun u => { u with email := v.getD "" })
    | none => .error (.cast key)
  else if key = "phone" then
    match m.castString value with
    | some v => .ok (fun u => { u with phone := v })
    | none => .error (.cast key)
  else if key = "dateOfBirth" then
    match m.castDate value with
    | some v => .ok (fun u => { u with dateOfBirth := v })
    | none => .error (.cast key)
  else if key = "gender" then
    match m.castString value with
    | some v => .ok (fun u => { u with gender := v })
    | none => .error (.cast key)
  else if key = "profileImageUrl" then
    match m.castString value with
    | some v => .ok (fun u => { u with profileImageUrl := v })
    | none => .error (.cast key)
  else if key = "advertisingID" then
    match m.castString value with
    | some v => .ok (fun u => { u with advertisingID := v })
    | none => .error (.cast key)
  else if key = "profileImage" then
    match m.castString value with
    | some v => .ok (fun u => { u with profileImage := v })
    | none => .error (.cast key)
  else .ok id

/-- The assignments of all entries of an update object, in order. -/
def setFields (m : Mongoose) : RequestBody → Except StoreError (User → User)
  | [] => .ok id
  | (key, value) :: rest =>
    match setField m key value, setFields m rest with
    | .ok f, .ok g => .ok (fun u => g (f u))
    | .error e, _ => .error e
    | .ok _, .error e => .error e

/-- The unique index on `email` refuses the new address: it differs from the
stored one and another document carries it. -/
def emailTaken (db : Database) (user : User) (email : String) : Bool :=
  decide (email ≠ user.email) &&
    db.users.any (fun v => decide (v._id ≠ user._id) && decide (v.email = email))

/-- Response of the two profile routes: the user document, or `message` /
`error` texts. -/
structure PatchResponse where
  code : Nat
  message : Option String := none
  error : Option String := none
  user : Option User := none
deriving DecidableEq

/-- The list `allowedUpdates` of `PATCH /:firebaseUid`. -/
def allowedUpdates : List String :=
  ["name", "email", "phone", "dateOfBirth", "gender", "profileImageUrl", "advertisingID"]

/-- Handler of `PATCH /:firebaseUid`. The update object is cast before the
store is asked; the update runs no validators. -/
def patchUser (m : Mongoose) (db : Database) (firebaseUid : String) (body : RequestBody) :
    Database × PatchResponse :=
  let updates := body.filter (fun kv => allowedUpdates.contains kv.1)
  if updates.length = 0 then
    (db, { code := 400, message := some "No valid fields to update" })
  else
    match setFields m updates with
    | .error e =>
      (db, { code := 500, message := some "Server error", error := some (m.errorMessage e) })
    | .ok f =>
      match findUserByUid db firebaseUid with
      | none => (db, { code := 404, message := some "User not found" })
      | some user =>
        if emailTaken db user (f user).email then
          (db, { code := 500, message := some "Server error",
                 error := some (m.errorMessage (.duplicateKey "email")) })
        else
          ({ db with users := updateFirst (fun u => decide (u.uid = firebaseUid)) f db.users },
           { code := 200, user := some (f user) })

/-- The list `allowedUpdates` of `PATCH /profile/:uid`. -/
def allowedProfileUpdates : List String :=
  ["name", "email", "phone", "gender", "dateOfBirth", "profileImageUrl", "profileImage"]

/-- The values that the `enum` of `gender` admits. -/
def genderAllowed : Option String → Bool
  | none => true
  | some g => decide (g = "male") || decide (g = "female") || decide (g = "other") ||
      decide (g = "")

/-- Handler of `PATCH /profile/:uid`. The document is saved, so the validators
of the schema run: `name` and `email` are required, `gender` is enumerated. -/
def patchProfile (m : Mongoose) (db : Database) (uid : String) (updates : RequestBody) :
    Database × PatchResponse :=
  let isValidOperation := updates.all (fun kv => allowedProfileUpdates.contains kv.1)
  if !isValidOperation then
    (db, { code := 400, error := some "Invalid updates!" })
  else
    match findUserByUid db uid with
    | none => (db, { code := 404, error := some "User not found" })
    | some user =>
      match setFields m updates with
      | .error e => (db, { code := 400, error := some (m.errorMessage e) })
      | .ok f =>
        let saved := f user
        if saved.name = "" then
          (db, { code := 400, error := some (m.errorMessage (.required "name")) })
        else if saved.email = "" then
          (db, { code := 400, error := some (m.errorMessage (.required "email")) })
        else if !genderAllowed saved.gender then
          (db, { code := 400, error := some (m.errorMessage (.enumValue "gender")) })
        else if emailTaken db user saved.email then
          (db, { code := 400, error := some (m.errorMessage (.duplicateKey "email")) })
        else
          ({ db with users := updateFirst (fun u => decide (u.uid = uid))
                       (fun _ => saved) db.users },
           { code := 200, user := some saved })

/-! ## `utils/generateReferralCode.js` -/

/-- The character class `[a-zA-Z0-9]`. -/
def isAlphanumeric (c : Char) : Bool :=
  (97 ≤ c.toNat && c.toNat ≤ 122) || (65 ≤ c.toNat && c.toNat ≤ 90) ||
    (48 ≤ c.toNat && c.toNat ≤ 57)

/-- JavaScript `s.charAt(i)`: the empty string outside the string. -/
def charAt (s : String) (i : ℤ) : String :=
  if i < 0 then ""
  else
    match s.toList.get? i.toNat with
    | some c => String.singleton c
    | none => ""

/-- JavaScript `s.slice(-n)`: the last `n` characters, or all of `s`. -/
def sliceLast (n : Nat) (s : String) : String :=
  String.mk (s.toList.drop (s.toList.length - n))

/-- The string `characters` of `generateReferralCode`. -/
def characters : String := "ABCDEFGHIJKLMNOPQRSTUVWXYZ0123456789"

/-- The function `generateReferralCode(name)`. `random i` is the value of the
i-th call of `Math.random()`, the timestamp is the first clock read. -/
def generateReferralCode (random : Nat → ℚ) (clk : Clock) (name : String) : String :=
  let namePrefix :=
    String.mk (((name.toList.filter isAlphanumeric).take 3).map Char.toUpper)
  let randomChars :=
    (List.range 4).foldl
      (fun acc i => acc ++ charAt characters ⌊random i * (characters.length : ℚ)⌋) ""
  let timestamp := sliceLast 3 (toString (clk 0))
  namePrefix ++ randomChars ++ timestamp

/-! ## Properties stated over the handlers (validation, click flags, identifiers, balances) -/

/-- A lower-case hexadecimal digit. -/
def isHexDigit (c : Char) : Bool :=
  (48 ≤ c.toNat && c.toNat ≤ 57) || (97 ≤ c.toNat && c.toNat ≤ 102)

/-- The digest is always a string of 64 lower-case hexadecimal digits, as a
SHA-256 digest in hex is. -/
def Runtime.HexDigest (rt : Runtime) : Prop :=
  ∀ s : String, (rt.sha256Hex s).length = 64 ∧ (rt.sha256Hex s).toList.all isHexDigit = true

/-- A decimal digit. -/
def isDecimalDigit (c : Char) : Bool :=
  48 ≤ c.toNat && c.toNat ≤ 57

/-- A character of the alphabet `A-Z0-9`. -/
def isUpperAlphanumeric (c : Char) : Bool :=
  (65 ≤ c.toNat && c.toNat ≤ 90) || (48 ≤ c.toNat && c.toNat ≤ 57)

/-- JavaScript `s.includes(pat)` on lists of characters. -/
def includesChars (pat : List Char) : List Char → Bool
  | [] => pat.isEmpty
  | c :: cs => pat.isPrefixOf (c :: cs) || includesChars pat cs

/-- JavaScript `s.includes(pat)`. -/
def includes (s pat : String) : Bool :=
  includesChars pat.toList s.toList

/-- Number of positions of a list of characters at which `pat` starts. -/
def countOccurrences (pat : List Char) : List Char → Nat
  | [] => 0
  | c :: cs => (if pat.isPrefixOf (c :: cs) then 1 else 0) + countOccurrences pat cs

/-- One call of the click API, the two read routes included. -/
inductive ClickApiOp where
  | create (clk : Clock) (req : CreateRequest) : ClickApiOp
  | postback (clk : Clock) (req : PostbackRequest) : ClickApiOp
  | status (clickId : String) : ClickApiOp
  | list (userId : String) (status : Option String) : ClickApiOp

/-- Effect of one call of the click API on the store. -/
def ClickApiOp.run (rt : Runtime) (db : Database) : ClickApiOp → Database
  | .create clk req => (createClick rt clk db req).1
  | .postback clk req => (RewardsBackend.postback clk db req).1
  | .status clickId => (getClick db clickId).1
  | .list userId statusFilter => (listUserClicks db userId statusFilter).1

/-- Effect of a sequence of calls of the click API, in order. -/
def runClickApiOps (rt : Runtime) (db : Database) (ops : List ClickApiOp) : Database :=
  ops.foldl (ClickApiOp.run rt) db

/-- All fields of `v` outside the allow-list of `PATCH /:firebaseUid` are those
of `u`. -/
def SameOutsideAllowList (u v : User) : Prop :=
  v = { u with name := v.name, email := v.email, phone := v.phone,
               dateOfBirth := v.dateOfBirth, gender := v.gender,
               profileImageUrl := v.profileImageUrl, advertisingID := v.advertisingID }

/-- A non-negative integer. -/
def NonNegInteger (q : ℚ) : Prop := ∃ n : ℕ, q = (n : ℚ)

/-- One call that can change a coin balance. -/
inductive BalanceOp where
  | withdraw (clk : Clock) (firebaseUid : String) (amount : JsValue) : BalanceOp
  | checkIn (startOfDay : Timestamp → Timestamp) (clk : Clock) (firebaseUid : String) :
      BalanceOp
  | referral (clk : Clock) (firebaseUid : String) (referralCode : Option String) : BalanceOp
  | postback (clk : Clock) (req : PostbackRequest) : BalanceOp
  | complete (clk : Clock) (offerId firebaseUid : String) : BalanceOp

/-- Effect of one balance-changing call on the store. -/
def BalanceOp.run (rt : Runtime) (db : Database) : BalanceOp → Database
  | .withdraw clk firebaseUid amount => (RewardsBackend.withdraw rt clk db firebaseUid amount).1
  | .checkIn startOfDay clk firebaseUid =>
    (RewardsBackend.checkIn startOfDay clk db firebaseUid).1
  | .referral clk firebaseUid referralCode =>
    (applyReferral clk db firebaseUid referralCode).1
  | .postback clk req => (RewardsBackend.postback clk db req).1
  | .complete clk offerId firebaseUid => (completeOffer rt clk db offerId firebaseUid).1

/-- Effect of a sequence of balance-changing calls, in order. -/
def runBalanceOps (rt : Runtime) (db : Database) (ops : List BalanceOp) : Database :=
  ops.foldl (BalanceOp.run rt) db

/-- The coin values met by the balance-changing calls satisfy `P`: the balances,
the coin values of the offers and the reward values of the clicks. -/
def CoinValues (P : ℚ → Prop) (db : Database) : Prop :=
  (∀ u ∈ db.users, P u.coins) ∧ (∀ o ∈ db.offers, P o.coins) ∧
    (∀ c ∈ db.clicks, P c.rewardCoins)

/-- One call of the API that changes a balance, verifies a withdrawal, or
creates the click that a postback settles. -/
inductive LedgerOp where
  | create (clk : Clock) (req : CreateRequest) : LedgerOp
  | postback (clk : Clock) (req : PostbackRequest) : LedgerOp
  | complete (clk : Clock) (offerId firebaseUid : String) : LedgerOp
  | checkIn (startOfDay : Timestamp → Timestamp) (clk : Clock) (firebaseUid : String) :
      LedgerOp
  | referral (clk : Clock) (firebaseUid : String) (referralCode : Option String) : LedgerOp
  | withdraw (clk : Clock) (firebaseUid : String) (amount : JsValue) : LedgerOp
  | verify (clk : Clock) (firebaseUid withdrawalId : String) (adminUid : Option String) :
      LedgerOp

/-- Effect of one such call on the store. -/
def LedgerOp.run (rt : Runtime) (db : Database) : LedgerOp → Database
  | .create clk req => (createClick rt clk db req).1
  | .postback clk req => (RewardsBackend.postback clk db req).1
  | .complete clk offerId firebaseUid => (completeOffer rt clk db offerId firebaseUid).1
  | .checkIn startOfDay clk firebaseUid =>
    (RewardsBackend.checkIn startOfDay clk db firebaseUid).1
  | .referral clk firebaseUid referralCode =>
    (applyReferral clk db firebaseUid referralCode).1
  | .withdraw clk firebaseUid amount => (RewardsBackend.withdraw rt clk db firebaseUid amount).1
  | .verify clk firebaseUid withdrawalId adminUid =>
    (verifyWithdrawal rt clk db firebaseUid withdrawalId adminUid).1

/-- Effect of a sequence of such calls, in order. -/
def runLedgerOps (rt : Runtime) (db : Database) (ops : List LedgerOp) : Database :=
  ops.foldl (LedgerOp.run rt) db

/-- Every user of the store is freshly synced: no coins, empty transaction log. -/
def FreshlySynced (db : Database) : Prop :=
  ∀ u ∈ db.users, u.coins = 0 ∧ u.transactions = []

/-- Every click of the store carries the reward that `POST /create` stores, 0. -/
def ZeroRewardClicks (db : Database) : Prop :=
  ∀ c ∈ db.clicks, c.rewardCoins = 0

/-! ### Example data (validation, click flags, identifiers, balances) -/

/-- A runtime whose digest is a string of 64 hexadecimal digits on every input
and agrees with SHA-256 on the two strings hashed in the examples. -/
def exHexRuntime : Runtime where
  sha256Hex := fun s =>
    if s = "64b7f1c2a3d4e5f607182930_64b7f1c2a3d4e5f607182931_1700000000000" then
      "3213891eaa315cdc8b5075d6c0717fe82a27f170a97e4ee49b9b8592e16bf4d9"
    else if s = "64b7f1c2a3d4e5f607182930_64b7f1c2a3d4e5f607182931_1700000005000" then
      "304f5a1f7d985b58f9d6a3434d32319b0dead50afafbd78167eeb5ba63708604"
    else "0000000000000000000000000000000000000000000000000000000000000000"
  numToString := fun q => toString q.num
  toFixed2 := fun q => toString q.num ++ ".00"

/-- The example offer with a tracking URL that carries the placeholder twice. -/
def exOfferTwoPlaceholders : Offer :=
  { exOffer with trackingUrl := "https://track.example/c?pcid={click_id}&sub={click_id}" }

/-- A store holding the fresh example user and that offer. -/
def exDbTwoPlaceholders : Database := { users := [exUser], offers := [exOfferTwoPlaceholders] }

/-- A postback that reports the example click as rejected. -/
def exRejectPostback : PostbackRequest :=
  { click_id := some "3213891eaa31", status := some "rejected" }

/-- The click created by `exCreate` on `exDb`, after the postback
`exRejectPostback` at `exClock1`: status `rejected`, not rewarded. -/
def exRejectedClick : Click := { exCreatedClick with status := "rejected" }

/-- The example store after that create call and that postback. -/
def exDbRejected : Database := { exDb with clicks := [exRejectedClick] }

/-- A postback for the example click that carries no status. -/
def exBarePostback : PostbackRequest := { click_id := some "3213891eaa31" }

/-- A postback for the example click that carries no status and names another
offer. -/
def exBareMismatchPostback : PostbackRequest :=
  { click_id := some "3213891eaa31", offer_id := some "64b7f1c2a3d4e5f6071829ff" }

/-- The example offer worth half a coin. -/
def exHalfCoinOffer : Offer := { exOffer with coins := 1 / 2 }

/-- A store holding the fresh example user and the half-coin offer. -/
def exDbHalfCoin : Database := { users := [exUser], offers := [exHalfCoinOffer] }

/-- Start of the UTC day of a time. -/
def exStartOfDay : Timestamp → Timestamp := fun t => t - t % 86400000

/-- The example user with a UPI payment method: no coins, no transactions. -/
def exUserWithUpi : User :=
  { exUser with
      paymentMethod := some { type := "upi", details := [("upiId", "asha@upi")] } }

/-- A store holding that user, the referrer and the example offer, and no click. -/
def exDbLedger : Database := { users := [exUserWithUpi, exReferrer], offers := [exOffer] }

/-- Calls on that store: the example user creates a click, the postback for it
arrives, the user completes the example offer, checks in, applies the code of
the referrer, asks for 10 rupees and an administrator verifies the request;
then the referrer checks in. -/
def exLedgerOps : List LedgerOp :=
  [ .create exClock1 exCreate, .postback exClock2 exInstalledPostback,
    .complete exClock2 "64b7f1c2a3d4e5f607182931" "firebase-uid-1",
    .checkIn exStartOfDay exClock2 "firebase-uid-1",
    .referral exClock2 "firebase-uid-1" (some "RAV7T1M314"),
    .withdraw exClock2 "firebase-uid-1" (.num (.fin 10)),
    .verify exClock2 "firebase-uid-1" "1700000005000" (some "admin-uid-7"),
    .checkIn exStartOfDay exClock2 "firebase-uid-2" ]

/-- A Mongoose that casts strings to themselves, reads no date and refuses
every other value. -/
def exMongoose : Mongoose where
  castString := fun v =>
    match v with
    | .str s => some (some s)
    | .null => some none
    | _ => none
  castEmail := fun v =>
    match v with
    | .str s => some (some s)
    | .null => some none
    | _ => none
  castDate := fun v =>
    match v with
    | .null => some none
    | _ => none
  errorMessage := fun _ => "error"

/-- Values of `Math.random()` for the examples: 0, 1/4, 1/2, 3/4, ... -/
def exRandom : Nat → ℚ := fun i => (i % 4 : ℕ) / 4

/-! ## Lemmas on collections -/

theorem updateFirst_of_find?_eq_none {α : Type} (p : α → Bool) (f : α → α) (l : List α)
    (h : l.find? p = none) : updateFirst p f l = l := by
  induction l with
  | nil => rfl
  | cons x xs ih =>
    by_cases hx : p x = true
    · simp [List.find?, hx] at h
    · simp [List.find?, hx] at h
      simp [updateFirst, hx, ih (by simpa using h)]

theorem find?_updateFirst {α : Type} (p : α → Bool) (f : α → α)
    (hf : ∀ x, p x = true → p (f x) = true) (l : List α) :
    (updateFirst p f l).find? p = (l.find? p).map f := by
  induction l with
  | nil => rfl
  | cons x xs ih =>
    by_cases hx : p x = true
    · simp [updateFirst, List.find?, hx, hf x hx]
    · simp [updateFirst, List.find?, hx, ih]

theorem length_updateFirst {α : Type} (p : α → Bool) (f : α → α) (l : List α) :
    (updateFirst p f l).length = l.length := by
  induction l with
  | nil => rfl
  | cons x xs ih =>
    by_cases hx : p x = true
    · simp [updateFirst, hx]
    · simp [updateFirst, hx, ih]

theorem findClick_clickId (db : Database) (id : String) (click : Click)
    (h : findClick db id = some click) : click.clickId = id := by
  have := List.find?_some h
  simpa using this

/-! ## Doubles -/

theorem roundHalfEven_of_near (y : ℚ) (m : ℤ) (h : |y - m| < 1 / 2) : roundHalfEven y = m := by
  rw [abs_lt] at h
  obtain ⟨h1, h2⟩ := h
  by_cases hym : (m : ℚ) ≤ y
  · have hf : ⌊y⌋ = m := by
      rw [Int.floor_eq_iff]
      constructor
      · exact hym
      · linarith
    unfold roundHalfEven
    rw [hf, if_pos (by linarith)]
  · have hf : ⌊y⌋ = m - 1 := by
      rw [Int.floor_eq_iff]
      push_cast
      constructor <;> linarith
    unfold roundHalfEven
    rw [hf]
    push_cast
    rw [if_neg (by linarith), if_pos (by linarith)]
    ring

theorem log_two_eq (x : ℚ) (e : ℤ) (hlo : (2 : ℚ) ^ e ≤ x) (hhi : x < (2 : ℚ) ^ (e + 1)) :
    Int.log 2 x = e := by
  have hx : 0 < x := lt_of_lt_of_le (by positivity) hlo
  have h1 : e ≤ Int.log 2 x := by
    exact (@Int.zpow_le_iff_le_log ℚ _ _ 2 (by norm_num) e x hx).mp (by exact_mod_cast hlo)
  have h2 : Int.log 2 x < e + 1 := by
    exact (@Int.lt_zpow_iff_log_lt ℚ _ _ 2 (by norm_num) (e + 1) x hx).mp
      (by exact_mod_cast hhi)
  omega

theorem roundDouble_of_near (x : ℚ) (e m : ℤ) (he : -1022 ≤ e)
    (hlo : (2 : ℚ) ^ e ≤ x) (hhi : x < (2 : ℚ) ^ (e + 1))
    (hnear : |x / (2 : ℚ) ^ (e - 52) - m| < 1 / 2)
    (hfin : (m : ℚ) * (2 : ℚ) ^ (e - 52) < (2 : ℚ) ^ (1024 : ℕ)) :
    roundDouble x = .fin ((m : ℚ) * (2 : ℚ) ^ (e - 52)) := by
  have hx : 0 < x := lt_of_lt_of_le (by positivity) hlo
  have hlog := log_two_eq x e hlo hhi
  have hulp : ulp x = (2 : ℚ) ^ (e - 52) := by
    unfold ulp
    rw [hlog, max_eq_left he]
  unfold roundDouble
  rw [if_pos hx.le]
  unfold roundDoubleNonneg
  simp only [hulp]
  rw [roundHalfEven_of_near _ m hnear, if_neg (not_le.mpr hfin)]

theorem roundDouble_of_near_nat (x : ℚ) (N e : ℕ) (he : e ≤ 52)
    (hlo : (2 : ℚ) ^ e ≤ x) (hhi : x < (2 : ℚ) ^ (e + 1))
    (hnear : |x - N| * (2 : ℚ) ^ (53 - e) < 1) :
    roundDouble x = .fin N := by
  obtain ⟨k, hk⟩ : ∃ k : ℕ, e + k = 52 := ⟨52 - e, by omega⟩
  have h53 : 53 - e = k + 1 := by omega
  have hz : (2 : ℚ) ^ ((e : ℤ) - 52) = 1 / (2 : ℚ) ^ k := by
    have : ((e : ℤ) - 52) = -(k : ℤ) := by omega
    rw [this, zpow_neg, zpow_natCast, one_div]
  have hkpos : (0 : ℚ) < (2 : ℚ) ^ k := by positivity
  have hnear2 : |x - N| * (2 : ℚ) ^ k < 1 / 2 := by
    rw [h53, pow_succ] at hnear
    linarith
  have hN : (N : ℚ) < (2 : ℚ) ^ (e + 1) + 1 := by
    have h1 : |x - N| < 1 := by
      have : |x - N| * 1 ≤ |x - N| * (2 : ℚ) ^ (53 - e) :=
        mul_le_mul_of_nonneg_left (one_le_pow₀ (by norm_num)) (abs_nonneg _)
      linarith
    rw [abs_lt] at h1
    linarith [h1.1]
  have hmain := roundDouble_of_near x (e : ℤ) ((N * 2 ^ k : ℕ) : ℤ) (by omega)
    (by rw [zpow_natCast]; exact hlo)
    (by rw [show ((e : ℤ) + 1) = ((e + 1 : ℕ) : ℤ) by push_cast; ring, zpow_natCast]; exact hhi)
    (by
      rw [hz]
      push_cast
      have : x / (1 / (2 : ℚ) ^ k) - (N : ℚ) * (2 : ℚ) ^ k = (x - N) * (2 : ℚ) ^ k := by
        field_simp
        ring
      rw [this, abs_mul, abs_of_pos hkpos]
      exact hnear2)
    (by
      rw [hz]
      push_cast
      have : (N : ℚ) * (2 : ℚ) ^ k * (1 / (2 : ℚ) ^ k) = N := by field_simp
      rw [this]
      have h2 : (2 : ℚ) ^ (e + 1) ≤ (2 : ℚ) ^ 53 :=
        pow_le_pow_right₀ (by norm_num) (by omega)
      have h3 : (2 : ℚ) ^ 53 + 1 < (2 : ℚ) ^ 1024 := by norm_num
      linarith)
  rw [hmain, hz]
  push_cast
  congr 1
  field_simp

/-- A positive integer below 2^53 is a double. -/
theorem roundDouble_natCast (n : ℕ) (hpos : 0 < n) (hlt : n < 2 ^ 53) :
    roundDouble (n : ℚ) = .fin n := by
  have hne : n ≠ 0 := by omega
  have he : Nat.log 2 n ≤ 52 := by
    have := (Nat.lt_pow_iff_log_lt (by norm_num : 1 < 2) hne).mp hlt
    omega
  apply roundDouble_of_near_nat (n : ℚ) n (Nat.log 2 n) he
  · exact_mod_cast Nat.pow_log_le_self 2 hne
  · exact_mod_cast Nat.lt_pow_succ_log_self (by norm_num : 1 < 2) n
  · simp

/-- The quotient of a whole number of rupees by the rate, in binary64, is ten
times the number. -/
theorem roundDouble_div_conversionRate (n : ℕ) (hpos : 0 < n) (hlt : 10 * n < 2 ^ 53) :
    roundDouble ((n : ℚ) / conversionRate) = .fin ((10 * n : ℕ) : ℚ) := by
  have hne : 10 * n ≠ 0 := by omega
  have he : Nat.log 2 (10 * n) ≤ 52 := by
    have := (Nat.lt_pow_iff_log_lt (by norm_num : 1 < 2) hne).mp hlt
    omega
  have h1 : 2 ^ Nat.log 2 (10 * n) ≤ 10 * n := Nat.pow_log_le_self 2 hne
  have h2 : 10 * n < 2 ^ (Nat.log 2 (10 * n) + 1) := Nat.lt_pow_succ_log_self (by norm_num) _
  have h3 : 2 ^ Nat.log 2 (10 * n) ≠ 10 * n := by
    intro h
    have h5 : 5 ∣ 2 ^ Nat.log 2 (10 * n) := by rw [h]; exact ⟨2 * n, by ring⟩
    have := (Nat.Prime.dvd_of_dvd_pow (by norm_num : Nat.Prime 5) h5)
    omega
  have h4 : 2 ^ Nat.log 2 (10 * n) + 1 ≤ 10 * n := by omega
  have hx : (n : ℚ) / conversionRate =
      ((10 * n : ℕ) : ℚ) - ((10 * n : ℕ) : ℚ) / 18014398509481985 := by
    unfold conversionRate
    push_cast
    field_simp
    ring
  have hq1 : ((2 ^ Nat.log 2 (10 * n) + 1 : ℕ) : ℚ) ≤ ((10 * n : ℕ) : ℚ) := by exact_mod_cast h4
  have hq2 : ((10 * n : ℕ) : ℚ) < ((2 ^ (Nat.log 2 (10 * n) + 1) : ℕ) : ℚ) := by exact_mod_cast h2
  have hq3 : ((10 * n : ℕ) : ℚ) < (2 : ℚ) ^ 53 := by exact_mod_cast hlt
  have hq0 : (0 : ℚ) < ((10 * n : ℕ) : ℚ) := by exact_mod_cast Nat.pos_of_ne_zero hne
  push_cast at hq1 hq2
  apply roundDouble_of_near_nat _ (10 * n) (Nat.log 2 (10 * n)) he
  · rw [hx]
    have : ((10 * n : ℕ) : ℚ) / 18014398509481985 < 1 := by
      rw [div_lt_one (by norm_num)]
      have : (2 : ℚ) ^ 53 < 18014398509481985 := by norm_num
      linarith
    push_cast at this ⊢
    linarith
  · rw [hx]
    have : (0 : ℚ) < ((10 * n : ℕ) : ℚ) / 18014398509481985 := by positivity
    push_cast at this ⊢
    linarith
  · rw [hx]
    have hd : (0 : ℚ) ≤ ((10 * n : ℕ) : ℚ) / 18014398509481985 := by positivity
    rw [show ((10 * n : ℕ) : ℚ) - ((10 * n : ℕ) : ℚ) / 18014398509481985 - ((10 * n : ℕ) : ℚ) =
      -(((10 * n : ℕ) : ℚ) / 18014398509481985) by ring, abs_neg, abs_of_nonneg hd]
    obtain ⟨k, hk⟩ : ∃ k : ℕ, Nat.log 2 (10 * n) + 1 + k = 54 := ⟨53 - Nat.log 2 (10 * n), by omega⟩
    have hk2 : 53 - Nat.log 2 (10 * n) = k := by omega
    rw [hk2, div_mul_eq_mul_div, div_lt_one (by norm_num)]
    have hpow : (2 : ℚ) ^ (Nat.log 2 (10 * n) + 1) * (2 : ℚ) ^ k = (2 : ℚ) ^ 54 := by
      rw [← pow_add, hk]
    have hkpos : (0 : ℚ) < (2 : ℚ) ^ k := by positivity
    have : ((10 * n : ℕ) : ℚ) * (2 : ℚ) ^ k < (2 : ℚ) ^ 54 := by
      rw [← hpow]
      push_cast
      exact mul_lt_mul_of_pos_right hq2 hkpos
    have h54 : (2 : ℚ) ^ 54 < 18014398509481985 := by norm_num
    linarith

theorem ulp_pos (x : ℚ) : 0 < ulp x := by
  unfold ulp
  positivity

theorem floor_le_roundHalfEven (y : ℚ) : ⌊y⌋ ≤ roundHalfEven y := by
  unfold roundHalfEven
  split
  · exact le_refl _
  · split
    · omega
    · split <;> omega

/-- A finite result of the conversion is a multiple of 2^-1074. -/
theorem roundDoubleNonneg_grid (x a : ℚ) (h : roundDoubleNonneg x = .fin a) :
    ∃ k : ℤ, a = (k : ℚ) / (2 : ℚ) ^ 1074 := by
  unfold roundDoubleNonneg at h
  simp only at h
  split at h
  · exact JsNum.noConfusion h
  · injection h with h
    obtain ⟨j, hj⟩ : ∃ j : ℕ, max (Int.log 2 x) (-1022) - 52 = (j : ℤ) - 1074 :=
      ⟨(max (Int.log 2 x) (-1022) - 52 + 1074).toNat, by
        have : -1022 ≤ max (Int.log 2 x) (-1022) := le_max_right _ _
        omega⟩
    refine ⟨roundHalfEven (x / ulp x) * 2 ^ j, ?_⟩
    rw [← h]
    unfold ulp
    rw [hj, zpow_sub₀ (by norm_num), zpow_natCast]
    push_cast
    ring

theorem roundDouble_grid (x a : ℚ) (h : roundDouble x = .fin a) :
    ∃ k : ℤ, a = (k : ℚ) / (2 : ℚ) ^ 1074 := by
  unfold roundDouble at h
  split at h
  · exact roundDoubleNonneg_grid x a h
  · cases hr : roundDoubleNonneg (-x) with
    | nan => rw [hr] at h; exact JsNum.noConfusion h
    | inf negative => rw [hr] at h; exact JsNum.noConfusion h
    | fin b =>
      rw [hr] at h
      injection h with h
      obtain ⟨k, hk⟩ := roundDoubleNonneg_grid (-x) b hr
      exact ⟨-k, by rw [← h, hk]; push_cast; ring⟩

/-- A positive multiple of 2^-1074 is at least 2^-1074. -/
theorem grid_pos (a : ℚ) (hpos : 0 < a) (h : ∃ k : ℤ, a = (k : ℚ) / (2 : ℚ) ^ 1074) :
    1 / (2 : ℚ) ^ 1074 ≤ a := by
  obtain ⟨k, hk⟩ := h
  have hk0 : (0 : ℚ) < k := by
    rw [hk] at hpos
    have h2 : (0 : ℚ) < (2 : ℚ) ^ 1074 := by positivity
    have := mul_pos hpos h2
    rwa [div_mul_cancel₀ _ (ne_of_gt h2)] at this
  have hk1 : (1 : ℤ) ≤ k := by exact_mod_cast hk0
  have hk2 : (1 : ℚ) ≤ k := by exact_mod_cast hk1
  rw [hk]
  exact div_le_div_of_nonneg_right hk2 (by positivity)

/-- A value of at least 2^-1074 is converted to a positive double or to infinity. -/
theorem roundDouble_pos (x q : ℚ) (hx : 1 / (2 : ℚ) ^ 1074 ≤ x) (h : roundDouble x = .fin q) :
    0 < q := by
  have hxpos : 0 < x := lt_of_lt_of_le (by positivity) hx
  unfold roundDouble at h
  rw [if_pos hxpos.le] at h
  unfold roundDoubleNonneg at h
  simp only at h
  split at h
  · exact JsNum.noConfusion h
  · injection h with h
    rw [← h]
    apply mul_pos _ (ulp_pos x)
    have hy : 1 ≤ x / ulp x := by
      rw [le_div_iff₀ (ulp_pos x), one_mul]
      unfold ulp
      rcases le_total (Int.log 2 x) (-1022) with hl | hl
      · rw [max_eq_right hl]
        have : (2 : ℚ) ^ ((-1022 : ℤ) - 52) = 1 / (2 : ℚ) ^ 1074 := by
          rw [show ((-1022 : ℤ) - 52) = -((1074 : ℕ) : ℤ) by norm_num, zpow_neg, zpow_natCast,
            one_div]
        rw [this]
        exact hx
      · rw [max_eq_left hl]
        have h1 : (2 : ℚ) ^ (Int.log 2 x) ≤ x := by
          have := @Int.zpow_log_le_self ℚ _ _ 2 x (by norm_num) hxpos
          exact_mod_cast this
        have h2 : (2 : ℚ) ^ (Int.log 2 x - 52) ≤ (2 : ℚ) ^ (Int.log 2 x) :=
          zpow_le_zpow_right₀ (by norm_num) (by omega)
        linarith
    have hf : (1 : ℤ) ≤ ⌊x / ulp x⌋ := Int.le_floor.mpr (by exact_mod_cast hy)
    have := floor_le_roundHalfEven (x / ulp x)
    have h3 : (1 : ℤ) ≤ roundHalfEven (x / ulp x) := le_trans hf this
    have h4 : (1 : ℚ) ≤ (roundHalfEven (x / ulp x) : ℚ) := by exact_mod_cast h3
    linarith

/-- A positive value below half the least double is converted to zero. -/
theorem roundDouble_tiny (x : ℚ) (hpos : 0 < x) (hlt : x < 1 / (2 : ℚ) ^ 1075) :
    roundDouble x = .fin 0 := by
  have hlog : Int.log 2 x ≤ -1022 := by
    have h1 : x < (2 : ℚ) ^ (-1022 : ℤ) := by
      have : (1 : ℚ) / (2 : ℚ) ^ 1075 ≤ (2 : ℚ) ^ (-1022 : ℤ) := by
        rw [show (-1022 : ℤ) = -((1022 : ℕ) : ℤ) by norm_num, zpow_neg, zpow_natCast, one_div]
        apply inv_anti₀ (by positivity)
        exact pow_le_pow_right₀ (by norm_num) (by norm_num)
      exact lt_of_lt_of_le hlt this
    have := (@Int.lt_zpow_iff_log_lt ℚ _ _ 2 (by norm_num) (-1022) x hpos).mp
      (by exact_mod_cast h1)
    omega
  have hulp : ulp x = 1 / (2 : ℚ) ^ 1074 := by
    unfold ulp
    rw [max_eq_right hlog,
      show ((-1022 : ℤ) - 52) = -((1074 : ℕ) : ℤ) by norm_num, zpow_neg, zpow_natCast, one_div]
  unfold roundDouble
  rw [if_pos hpos.le]
  unfold roundDoubleNonneg
  simp only [hulp]
  have hnear : |x / (1 / (2 : ℚ) ^ 1074) - ((0 : ℤ) : ℚ)| < 1 / 2 := by
    have h2 : (0 : ℚ) < (2 : ℚ) ^ 1074 := by positivity
    rw [Int.cast_zero, sub_zero, div_div_eq_mul_div, div_one, abs_of_pos (mul_pos hpos h2)]
    have : x * (2 : ℚ) ^ 1074 < 1 / (2 : ℚ) ^ 1075 * (2 : ℚ) ^ 1074 :=
      mul_lt_mul_of_pos_right hlt h2
    have h3 : (1 : ℚ) / (2 : ℚ) ^ 1075 * (2 : ℚ) ^ 1074 = 1 / 2 := by
      rw [pow_succ]
      field_simp
    linarith
  rw [roundHalfEven_of_near _ 0 hnear]
  simp

theorem roundDouble_zero : roundDouble 0 = .fin 0 := by
  unfold roundDouble
  rw [if_pos (le_refl _)]
  unfold roundDoubleNonneg
  simp only [zero_div]
  have : roundHalfEven 0 = 0 := roundHalfEven_of_near 0 0 (by norm_num)
  rw [this]
  simp

/-- The decimal 0.10000000000000001 is read as the double nearest to 0.1. -/
theorem roundDouble_tenth_long :
    roundDouble (10000000000000001 / 100000000000000000) = .fin conversionRate := by
  have h := roundDouble_of_near (10000000000000001 / 100000000000000000) (-4)
    7205759403792794 (by norm_num) (by norm_num) (by norm_num)
    (by rw [abs_lt]; constructor <;> norm_num) (by norm_num)
  rw [h]
  congr 1
  unfold conversionRate
  norm_num

theorem roundDouble_tenth : roundDouble (1 / 10) = .fin conversionRate := by
  have h := roundDouble_of_near (1 / 10) (-4)
    7205759403792794 (by norm_num) (by norm_num) (by norm_num)
    (by rw [abs_lt]; constructor <;> norm_num) (by norm_num)
  rw [h]
  congr 1
  unfold conversionRate
  norm_num

/-! ## Click postbacks -/

theorem truthy_some {s : String} (h : s ≠ "") : truthy (some s) = true := by
  simp [truthy, h]

theorem offerMismatch_of_ne (req : PostbackRequest) (click : Click) (offerId : String)
    (hoffer : req.offer_id = some offerId) (hsupplied : offerId ≠ "")
    (hmismatch : offerId ≠ click.offerId) : req.offerMismatch click = true := by
  have hm : ¬ click.offerId = offerId := fun h => hmismatch h.symm
  simp [PostbackRequest.offerMismatch, hoffer, truthy, hsupplied, hm]

/-- A postback that fails the offer check changes nothing. -/
theorem postback_mismatch (clk : Clock) (db : Database) (req : PostbackRequest)
    (id : String) (click : Click)
    (hid : req.trackingId = some id) (hne : id ≠ "")
    (hclick : findClick db id = some click) (hm : req.offerMismatch click = true) :
    postback clk db req =
      (db, { code := 400, success := false, message := "Offer ID mismatch" }) := by
  have ht : truthy (some id) = true := truthy_some hne
  simp only [postback, hid, ht, hclick, Option.getD_some, hm]
  simp

/-- A postback for a rewarded click that passes the offer check changes nothing. -/
theorem postback_already (clk : Clock) (db : Database) (req : PostbackRequest)
    (id : String) (click : Click)
    (hid : req.trackingId = some id) (hne : id ≠ "")
    (hclick : findClick db id = some click) (hm : req.offerMismatch click = false)
    (hrew : click.isRewarded = true) :
    postback clk db req =
      (db, { code := 400, success := false, message := "Click already rewarded" }) := by
  have ht : truthy (some id) = true := truthy_some hne
  simp only [postback, hid, ht, hclick, Option.getD_some, hm, hrew]
  simp

/-- A completion postback for an unrewarded click whose owner exists. -/
theorem postback_settle (clk : Clock) (db : Database) (req : PostbackRequest)
    (id : String) (click : Click) (owner : User)
    (hid : req.trackingId = some id) (hne : id ≠ "")
    (hclick : findClick db id = some click) (hm : req.offerMismatch click = false)
    (hrew : click.isRewarded = false) (hc : req.isCompletion)
    (howner : findUserById db click.userId = some owner) :
    postback clk db req =
      ({ db with
           users := updateFirst (fun u => decide (u._id = click.userId))
             (fun u => { u with coins := u.coins + click.rewardCoins }) db.users,
           clicks := updateFirst (fun c => decide (c.clickId = id))
             (fun _ => { click with status := req.newStatus, isRewarded := true,
                                    rewardedAt := some (clk 0), updatedAt := clk 1 }) db.clicks },
       { code := 200, success := true, message := "Postback processed successfully",
         status := some req.newStatus, isRewarded := some true,
         click_id := some id, pcid := some id }) := by
  have ht : truthy (some id) = true := truthy_some hne
  have hc2 : req.newStatus = "installed" ∨ req.newStatus = "completed" := hc
  simp only [postback, hid, ht, hclick, Option.getD_some, hm, hrew, howner]
  simp [hc2]

/-- A postback with another status for an unrewarded click only rewrites the click. -/
theorem postback_status (clk : Clock) (db : Database) (req : PostbackRequest)
    (id : String) (click : Click)
    (hid : req.trackingId = some id) (hne : id ≠ "")
    (hclick : findClick db id = some click) (hm : req.offerMismatch click = false)
    (hrew : click.isRewarded = false) (hc : ¬ req.isCompletion) :
    postback clk db req =
      ({ db with
           clicks := updateFirst (fun c => decide (c.clickId = id))
             (fun _ => { click with status := req.newStatus, updatedAt := clk 0 }) db.clicks },
       { code := 200, success := true, message := "Postback processed successfully",
         status := some req.newStatus, isRewarded := some false,
         click_id := some id, pcid := some id }) := by
  have ht : truthy (some id) = true := truthy_some hne
  have hc2 : ¬ (req.newStatus = "installed" ∨ req.newStatus = "completed") := hc
  simp only [postback, hid, ht, hclick, Option.getD_some, hm, hrew]
  simp [hc2, hrew]

theorem findUserById_settle (db : Database) (userId : String) (amount : ℚ) :
    findUserById
        { db with
            users := updateFirst (fun u => decide (u._id = userId))
              (fun u => { u with coins := u.coins + amount }) db.users } userId =
      (findUserById db userId).map (fun u => { u with coins := u.coins + amount }) := by
  unfold findUserById
  exact find?_updateFirst _ _ (fun x hx => by simpa using hx) db.users

theorem findClick_saved (db : Database) (users : List User) (id : String) (saved : Click)
    (hsaved : saved.clickId = id) (click : Click) (hclick : findClick db id = some click) :
    findClick
        { db with users := users,
                  clicks := updateFirst (fun c => decide (c.clickId = id)) (fun _ => saved)
                    db.clicks } id = some saved := by
  unfold findClick at hclick ⊢
  have h := find?_updateFirst (fun c : Click => decide (c.clickId = id)) (fun _ => saved)
    (fun x _ => by simpa using hsaved) db.clicks
  simp only [h, hclick, Option.map_some']

/-- C6: a postback that supplies an `offer_id` different from the click's
`offerId` is answered 400 "Offer ID mismatch" (the conflict outcome) and leaves
the store as it was: the click record, with its `status`, `isRewarded` and
`rewardedAt`, and the balance of the owning user are unchanged. An `offer_id`
counts as supplied when it is a non-empty string. -/
theorem postback_offer_mismatch_rejected (clk : Clock) (db : Database) (req : PostbackRequest)
    (id offerId : String) (click : Click)
    (hid : req.trackingId = some id) (hne : id ≠ "")
    (hclick : findClick db id = some click)
    (hoffer : req.offer_id = some offerId) (hsupplied : offerId ≠ "")
    (hmismatch : offerId ≠ click.offerId) :
    (postback clk db req).2 = { code := 400, success := false, message := "Offer ID mismatch" } ∧
    (postback clk db req).1 = db ∧
    findClick (postback clk db req).1 id = some click ∧
    findUserById (postback clk db req).1 click.userId = findUserById db click.userId := by
  have h := postback_mismatch clk db req id click hid hne hclick
    (offerMismatch_of_ne req click offerId hoffer hsupplied hmismatch)
  rw [h]
  exact ⟨rfl, rfl, hclick, rfl⟩

/-- C6, witness: a completion postback for the pending example click that names
another offer. -/
theorem postback_offer_mismatch_rejected_witness :
    (postback exClock2 exDbPending exMismatchPostback).2 =
        { code := 400, success := false, message := "Offer ID mismatch" } ∧
    (postback exClock2 exDbPending exMismatchPostback).1 = exDbPending ∧
    findClick (postback exClock2 exDbPending exMismatchPostback).1 "3213891eaa31" =
        some exClick ∧
    findUserById (postback exClock2 exDbPending exMismatchPostback).1 exClick.userId =
        findUserById exDbPending exClick.userId :=
  postback_offer_mismatch_rejected exClock2 exDbPending exMismatchPostback "3213891eaa31"
    "64b7f1c2a3d4e5f6071829ff" exClick rfl (by decide) rfl rfl (by decide) (by decide)

/-- C1 (as amended): a postback for the tracking id of a click whose
`isRewarded` flag is already true, whatever status it reports, is answered 400
and leaves the store (every balance and the click record) unchanged; the
message is "Offer ID mismatch" when the postback names another offer and
"Click already rewarded" otherwise. Hence, for an unrewarded click whose owner
exists, a completion postback that passes the offer check followed by any
postback for the same tracking id credits the click's `rewardCoins` once: the
first raises the owner's balance by `rewardCoins`, the second changes nothing. -/
theorem postback_credits_once :
    (∀ (clk : Clock) (db : Database) (req : PostbackRequest) (id : String) (click : Click),
      req.trackingId = some id → id ≠ "" → findClick db id = some click →
      click.isRewarded = true →
      (postback clk db req).1 = db ∧ (postback clk db req).2.code = 400 ∧
      (postback clk db req).2.success = false ∧
      (postback clk db req).2.message =
        (if req.offerMismatch click = true then "Offer ID mismatch"
         else "Click already rewarded")) ∧
    (∀ (clk1 clk2 : Clock) (db : Database) (req1 req2 : PostbackRequest) (id : String)
        (click : Click) (owner : User),
      req1.trackingId = some id → req2.trackingId = some id → id ≠ "" →
      findClick db id = some click → click.isRewarded = false →
      req1.offerMismatch click = false → req1.isCompletion →
      findUserById db click.userId = some owner →
      findUserById (postback clk1 db req1).1 click.userId =
        some { owner with coins := owner.coins + click.rewardCoins } ∧
      (postback clk2 (postback clk1 db req1).1 req2).1 = (postback clk1 db req1).1 ∧
      (postback clk2 (postback clk1 db req1).1 req2).2.success = false) := by
  have partA : ∀ (clk : Clock) (db : Database) (req : PostbackRequest) (id : String)
      (click : Click), req.trackingId = some id → id ≠ "" → findClick db id = some click →
      click.isRewarded = true →
      (postback clk db req).1 = db ∧ (postback clk db req).2.code = 400 ∧
      (postback clk db req).2.success = false ∧
      (postback clk db req).2.message =
        (if req.offerMismatch click = true then "Offer ID mismatch"
         else "Click already rewarded") := by
    intro clk db req id click hid hne hclick hrew
    cases hm : req.offerMismatch click with
    | true => rw [postback_mismatch clk db req id click hid hne hclick hm]; simp
    | false => rw [postback_already clk db req id click hid hne hclick hm hrew]; simp
  refine ⟨partA, ?_⟩
  intro clk1 clk2 db req1 req2 id click owner hid1 hid2 hne hclick hrew hm hc howner
  rw [postback_settle clk1 db req1 id click owner hid1 hne hclick hm hrew hc howner]
  have hsaved := findClick_saved db
    (updateFirst (fun u => decide (u._id = click.userId))
      (fun u => { u with coins := u.coins + click.rewardCoins }) db.users) id
    { click with status := req1.newStatus, isRewarded := true,
                 rewardedAt := some (clk1 0), updatedAt := clk1 1 }
    (findClick_clickId db id click hclick) click hclick
  obtain ⟨h1, _, h3, _⟩ := partA clk2 _ req2 id _ hid2 hne hsaved rfl
  refine ⟨?_, h1, h3⟩
  have hu := findUserById_settle db click.userId click.rewardCoins
  rw [howner] at hu
  simpa [findUserById] using hu

/-- C1, counterexample: the example click is already rewarded, and a completion
postback for its tracking id that names another offer is rejected as an offer
mismatch, not as already processed. -/
theorem postback_rewarded_counterexample :
    findClick exDbRewarded "3213891eaa31" = some exRewardedClick ∧
    exRewardedClick.isRewarded = true ∧
    exMismatchPostback.trackingId = some "3213891eaa31" ∧
    (postback exClock2 exDbRewarded exMismatchPostback).1 = exDbRewarded ∧
    (postback exClock2 exDbRewarded exMismatchPostback).2.message = "Offer ID mismatch" ∧
    (postback exClock2 exDbRewarded exMismatchPostback).2.message ≠ "Click already rewarded" := by
  have h := postback_mismatch exClock2 exDbRewarded exMismatchPostback "3213891eaa31"
    exRewardedClick rfl (by decide) rfl rfl
  rw [h]
  exact ⟨rfl, rfl, rfl, rfl, rfl, by decide⟩

/-- C1, witness: a postback for the rewarded example click, and two consecutive
`installed` postbacks for the pending example click. -/
theorem postback_credits_once_witness :
    ((postback exClock2 exDbRewarded exInstalledPostback).1 = exDbRewarded ∧
      (postback exClock2 exDbRewarded exInstalledPostback).2.code = 400 ∧
      (postback exClock2 exDbRewarded exInstalledPostback).2.success = false ∧
      (postback exClock2 exDbRewarded exInstalledPostback).2.message =
        (if exInstalledPostback.offerMismatch exRewardedClick = true then "Offer ID mismatch"
         else "Click already rewarded")) ∧
    (findUserById (postback exClock1 exDbPending exInstalledPostback).1 exClick.userId =
        some { exUser with coins := exUser.coins + exClick.rewardCoins } ∧
      (postback exClock2 (postback exClock1 exDbPending exInstalledPostback).1
          exInstalledPostback).1 = (postback exClock1 exDbPending exInstalledPostback).1 ∧
      (postback exClock2 (postback exClock1 exDbPending exInstalledPostback).1
          exInstalledPostback).2.success = false) :=
  ⟨postback_credits_once.1 exClock2 exDbRewarded exInstalledPostback "3213891eaa31"
      exRewardedClick rfl (by decide) rfl rfl,
   postback_credits_once.2 exClock1 exClock2 exDbPending exInstalledPostback exInstalledPostback
      "3213891eaa31" exClick exUser rfl rfl (by decide) rfl rfl rfl (Or.inl rfl) rfl⟩

/-- The first create call of the example user on the example store. -/
theorem createClick_example :
    createClick exRuntime exClock1 exDb exCreate =
      ({ exDb with clicks := [exCreatedClick] },
       { code := 201, success := true, message := "Click tracked successfully",
         clickId := some "3213891eaa31", pcid := some "3213891eaa31",
         trackingUrl := some "https://track.example/c?pcid=3213891eaa31" }) := by
  rfl

/-- C2 (the code at the failing input): the example user starts with 0 coins
and an empty transaction log, the example offer is worth 100 coins. The click is
created (201) with `rewardCoins` 0 and the postback with status `installed` is
accepted (200, `isRewarded` true), yet the user document is exactly what it
was: balance 0, no transaction, no notification. -/
theorem click_reward_scenario_writes_no_ledger_entry :
    exUser.coins = 0 ∧ exUser.transactions = [] ∧ exUser.notifications = [] ∧
    exOffer.coins = 100 ∧
    (createClick exRuntime exClock1 exDb exCreate).2.code = 201 ∧
    (createClick exRuntime exClock1 exDb exCreate).2.clickId = some "3213891eaa31" ∧
    (findClick (createClick exRuntime exClock1 exDb exCreate).1 "3213891eaa31").map
      (fun c => c.rewardCoins) = some 0 ∧
    (postback exClock2 (createClick exRuntime exClock1 exDb exCreate).1
        exInstalledPostback).2.code = 200 ∧
    (postback exClock2 (createClick exRuntime exClock1 exDb exCreate).1
        exInstalledPostback).2.isRewarded = some true ∧
    findUserById (postback exClock2 (createClick exRuntime exClock1 exDb exCreate).1
        exInstalledPostback).1 "64b7f1c2a3d4e5f607182930" = some exUser := by
  have h1 := createClick_example
  have h2 := postback_settle exClock2 { exDb with clicks := [exCreatedClick] }
    exInstalledPostback "3213891eaa31" exCreatedClick exUser rfl (by decide) rfl rfl rfl
    (Or.inl rfl) rfl
  rw [h1, h2]
  refine ⟨rfl, rfl, rfl, rfl, rfl, rfl, rfl, rfl, rfl, ?_⟩
  simp [findUserById, updateFirst, exDb, exUser, exCreatedClick]

/-! ## Deduplication of clicks -/

theorem filter_updateFirst_length_le {α : Type} (p q : α → Bool) (f : α → α) (l : List α)
    (hf : ∀ x, l.find? p = some x → q (f x) = true → q x = true) :
    ((updateFirst p f l).filter q).length ≤ (l.filter q).length := by
  induction l with
  | nil => simp [updateFirst]
  | cons x xs ih =>
    by_cases hx : p x = true
    · have h := hf x (by simp [List.find?, hx])
      cases hq : q (f x) with
      | false => cases hq2 : q x <;> simp [updateFirst, hx, List.filter_cons, hq, hq2]
      | true => simp [updateFirst, hx, List.filter_cons, hq, h hq]
    · have ih2 := ih (fun y hy => hf y (by simpa [List.find?, hx] using hy))
      cases hq : q x <;> simp [updateFirst, hx, List.filter_cons, hq, ih2]

/-- Effect of `POST /create` on the click collection: nothing, or one click
appended for a pair that had no open click. -/
theorem createClick_clicks (rt : Runtime) (clk : Clock) (db : Database) (req : CreateRequest) :
    (createClick rt clk db req).1 = db ∨
    ∃ click : Click,
      (createClick rt clk db req).1 = { db with clicks := db.clicks ++ [click] } ∧
      db.clicks.find? (isOpenClickFor click.userId click.offerId) = none := by
  unfold createClick
  split
  · exact Or.inl rfl
  · dsimp only
    split
    · split
      · split
        · exact Or.inl rfl
        · rename_i hnone
          split
          · exact Or.inl rfl
          · exact Or.inr ⟨_, rfl, hnone⟩
      · exact Or.inl rfl
    · exact Or.inl rfl

/-- Effect of `POST /postback` on the click collection: nothing, or the click
found by the tracking id rewritten with the reported status. -/
theorem postback_clicks (clk : Clock) (db : Database) (req : PostbackRequest) :
    (postback clk db req).1.clicks = db.clicks ∨
    ∃ (click saved : Click),
      truthy req.trackingId = true ∧
      findClick db (req.trackingId.getD "") = some click ∧
      req.offerMismatch click = false ∧ click.isRewarded = false ∧
      (postback clk db req).1.clicks =
        updateFirst (fun c => decide (c.clickId = req.trackingId.getD "")) (fun _ => saved)
          db.clicks ∧
      saved.userId = click.userId ∧ saved.offerId = click.offerId ∧
      saved.status = req.newStatus := by
  unfold postback
  split
  · exact Or.inl rfl
  · rename_i hid
    dsimp only
    split
    · exact Or.inl rfl
    · rename_i click hclick
      split
      · exact Or.inl rfl
      · rename_i hm
        split
        · exact Or.inl rfl
        · rename_i hr
          have hid2 : truthy req.trackingId = true := by simpa using hid
          have hm2 : req.offerMismatch click = false := by simpa using hm
          have hr2 : click.isRewarded = false := by simpa using hr
          split
          · split
            · exact Or.inl rfl
            · exact Or.inr ⟨click, _, hid2, hclick, hm2, hr2, rfl, rfl, rfl, rfl⟩
          · exact Or.inr ⟨click, _, hid2, hclick, hm2, hr2, rfl, rfl, rfl, rfl⟩

theorem isOpenClickFor_iff (userId offerId : String) (c : Click) :
    isOpenClickFor userId offerId c = true ↔
      c.userId = userId ∧ c.offerId = offerId ∧ isOpenStatus c.status = true := by
  simp [isOpenClickFor, isOpenStatus, and_assoc]

theorem dedup_step (rt : Runtime) (db : Database) (op : ClickOp)
    (hinv : DedupInvariant db) (hop : op.reopens db = false) :
    DedupInvariant (op.run rt db) := by
  intro userId offerId
  cases op with
  | create clk req =>
    rcases createClick_clicks rt clk db req with h | ⟨click, h, hnone⟩
    · simp only [ClickOp.run, h]; exact hinv userId offerId
    · simp only [ClickOp.run, h, openClickCount, List.filter_append, List.length_append]
      by_cases hopen : isOpenClickFor userId offerId click = true
      · have hu := (isOpenClickFor_iff userId offerId click).mp hopen
        rw [hu.1, hu.2.1] at hnone
        have hnil : db.clicks.filter (isOpenClickFor userId offerId) = [] := by
          rw [List.filter_eq_nil_iff]
          intro c hc
          exact List.find?_eq_none.mp hnone c hc
        simp [hnil, hopen]
      · have := hinv userId offerId
        simp only [openClickCount] at this
        simp [hopen, this]
  | postback clk req =>
    rcases postback_clicks clk db req with
      h | ⟨click, saved, hid, hclick, hm, hr, h, hu, ho, hs⟩
    · simp only [ClickOp.run, openClickCount, h]; exact hinv userId offerId
    · simp only [ClickOp.run, openClickCount, h]
      refine le_trans (filter_updateFirst_length_le _ _ _ db.clicks ?_) (hinv userId offerId)
      intro x hx hsaved
      have hxc : x = click := by
        have : findClick db (req.trackingId.getD "") = some x := hx
        rw [hclick] at this
        exact (Option.some.inj this).symm
      subst hxc
      have h1 := (isOpenClickFor_iff userId offerId saved).mp hsaved
      rw [hu, ho, hs] at h1
      refine (isOpenClickFor_iff userId offerId x).mpr ⟨h1.1, h1.2.1, ?_⟩
      simp only [ClickOp.reopens, hclick, h1.2.2, hid, hm, hr, Bool.true_and, Bool.not_false,
        Bool.not_eq_false'] at hop
      simpa using hop

theorem dedup_run (rt : Runtime) (ops : List ClickOp) :
    ∀ db : Database, DedupInvariant db → noReopen rt db ops = true →
      DedupInvariant (runClickOps rt db ops) := by
  induction ops with
  | nil => intro db h _; exact h
  | cons op ops ih =>
    intro db h hops
    simp only [noReopen, Bool.and_eq_true, Bool.not_eq_true'] at hops
    simp only [runClickOps, List.foldl_cons]
    exact ih (op.run rt db) (dedup_step rt db op h hops.1) hops.2

/-- C4 (as amended): in every state reached from a store with an empty click
collection by a sequence of click create and postback calls in which no
postback re-opens a click (is accepted with the reported status `pending` or
`clicked` for a click whose current status is neither), every (user, offer)
pair has at most one click whose status is `pending` or `clicked`. -/
theorem dedup_invariant_reachable (rt : Runtime) (db : Database) (ops : List ClickOp)
    (hempty : db.clicks = [])
    (hops : noReopen rt db ops = true) :
    DedupInvariant (runClickOps rt db ops) := by
  apply dedup_run rt ops db _ hops
  intro userId offerId
  simp [openClickCount, hempty]

/-- C4, witness: a run on the example store that moves the click from `pending`
to `clicked` to `installed`, with a repeated create in between. -/
theorem dedup_invariant_reachable_witness :
    exDb.clicks = [] ∧ noReopen exRuntime exDb exOrderlyOps = true ∧
    DedupInvariant (runClickOps exRuntime exDb exOrderlyOps) :=
  ⟨rfl, rfl, dedup_invariant_reachable exRuntime exDb exOrderlyOps rfl rfl⟩

/-- C4, counterexample: starting from an empty click collection, the four calls
of `exDedupOps` leave two open clicks for the same user and offer. -/
theorem dedup_invariant_counterexample :
    exDb.clicks = [] ∧
    openClickCount (runClickOps exRuntime exDb exDedupOps)
      "64b7f1c2a3d4e5f607182930" "64b7f1c2a3d4e5f607182931" = 2 ∧
    ¬ DedupInvariant (runClickOps exRuntime exDb exDedupOps) := by
  have h : openClickCount (runClickOps exRuntime exDb exDedupOps)
      "64b7f1c2a3d4e5f607182930" "64b7f1c2a3d4e5f607182931" = 2 := by rfl
  refine ⟨rfl, h, ?_⟩
  intro hinv
  have := hinv "64b7f1c2a3d4e5f607182930" "64b7f1c2a3d4e5f607182931"
  rw [h] at this
  exact absurd this (by decide)

/-! ## Repeated click creation -/

/-- The create handler on a request whose three fields are supplied and whose
two ids are ObjectIds. -/
theorem createClick_valid (rt : Runtime) (clk : Clock) (db : Database) (req : CreateRequest)
    (userId offerId : String) (userOid offerOid : ObjectId)
    (hu : req.userId = some userId) (hun : userId ≠ "")
    (ho : req.offerId = some offerId) (hon : offerId ≠ "")
    (hupi : truthy req.upi = true)
    (hcu : castObjectId userId = some userOid) (hco : castObjectId offerId = some offerOid) :
    createClick rt clk db req =
      match findUserById db userOid, findOfferById db offerId with
      | some _, some offer =>
        match db.clicks.find? (isOpenClickFor userOid offerOid) with
        | some existingClick =>
          (db, { code := 400, success := false,
                 message := "You already have a pending click for this offer",
                 clickId := some existingClick.clickId,
                 pcid := some existingClick.clickId })
        | none =>
          if db.clicks.any (fun c => decide (c.clickId =
              generateClickId rt clk userId offerId)) then
            (db, { code := 500, success := false, message := "Error tracking click" })
          else
            ({ db with clicks := db.clicks ++
                [{ clickId := generateClickId rt clk userId offerId, userId := userOid,
                   offerId := offerOid, upi := req.upi.getD "",
                   rewardCoins := 0, ipAddress := req.ip,
                   deviceInfo := some { userAgent := req.userAgent,
                                        platform := req.platform, timestamp := clk 1 },
                   status := "pending", createdAt := clk 2, updatedAt := clk 3 }] },
             { code := 201, success := true, message := "Click tracked successfully",
               clickId := some (generateClickId rt clk userId offerId),
               pcid := some (generateClickId rt clk userId offerId),
               trackingUrl := some (replaceFirst offer.trackingUrl "{click_id}"
                 (generateClickId rt clk userId offerId)) })
      | _, _ =>
        (db, { code := 404, success := false, message := "User or offer not found" }) := by
  simp only [createClick, hu, ho, truthy_some hun, truthy_some hon, hupi, Option.getD_some,
    hcu, hco]
  simp

/-- A create request for a pair that already has an open click. -/
theorem createClick_existing (rt : Runtime) (clk : Clock) (db : Database) (req : CreateRequest)
    (userId offerId : String) (userOid offerOid : ObjectId) (user : User) (offer : Offer)
    (existing : Click)
    (hu : req.userId = some userId) (hun : userId ≠ "")
    (ho : req.offerId = some offerId) (hon : offerId ≠ "")
    (hupi : truthy req.upi = true)
    (hcu : castObjectId userId = some userOid) (hco : castObjectId offerId = some offerOid)
    (huser : findUserById db userOid = some user)
    (hoffer : findOfferById db offerId = some offer)
    (hex : db.clicks.find? (isOpenClickFor userOid offerOid) = some existing) :
    createClick rt clk db req =
      (db, { code := 400, success := false,
             message := "You already have a pending click for this offer",
             clickId := some existing.clickId, pcid := some existing.clickId }) := by
  rw [createClick_valid rt clk db req userId offerId userOid offerOid hu hun ho hon hupi hcu hco]
  simp only [huser, hoffer, hex]

/-- What a 201 answer of `POST /create` says about the request and the store. -/
theorem createClick_created (rt : Runtime) (clk : Clock) (db : Database) (req : CreateRequest)
    (h : (createClick rt clk db req).2.code = 201) :
    ∃ (userId offerId : String) (userOid offerOid : ObjectId) (user : User) (offer : Offer)
        (click : Click),
      req.userId = some userId ∧ userId ≠ "" ∧ req.offerId = some offerId ∧ offerId ≠ "" ∧
      castObjectId userId = some userOid ∧ castObjectId offerId = some offerOid ∧
      findUserById db userOid = some user ∧ findOfferById db offerId = some offer ∧
      db.clicks.find? (isOpenClickFor userOid offerOid) = none ∧
      click.userId = userOid ∧ click.offerId = offerOid ∧ click.status = "pending" ∧
      click.rewardCoins = 0 ∧ click.isRewarded = false ∧
      (createClick rt clk db req).1 = { db with clicks := db.clicks ++ [click] } ∧
      (createClick rt clk db req).2.clickId = some click.clickId := by
  cases hu : req.userId with
  | none => simp [createClick, hu, truthy] at h
  | some userId =>
    cases ho : req.offerId with
    | none => simp [createClick, hu, ho, truthy] at h
    | some offerId =>
      by_cases hun : userId = ""
      · simp [createClick, hu, ho, truthy, hun] at h
      by_cases hon : offerId = ""
      · simp [createClick, hu, ho, truthy, hon] at h
      cases hupi : truthy req.upi with
      | false => simp [createClick, hupi] at h
      | true =>
        cases hcu : castObjectId userId with
        | none =>
          simp [createClick, hu, ho, truthy_some hun, truthy_some hon, hupi, hcu] at h
        | some userOid =>
          cases hco : castObjectId offerId with
          | none =>
            simp [createClick, hu, ho, truthy_some hun, truthy_some hon, hupi, hcu, hco] at h
          | some offerOid =>
            rw [createClick_valid rt clk db req userId offerId userOid offerOid hu hun ho hon
              hupi hcu hco] at h ⊢
            cases huser : findUserById db userOid with
            | none => simp [huser] at h
            | some user =>
              cases hoffer : findOfferById db offerId with
              | none => simp [huser, hoffer] at h
              | some offer =>
                cases hex : db.clicks.find? (isOpenClickFor userOid offerOid) with
                | some existing => simp [huser, hoffer, hex] at h
                | none =>
                  simp only [huser, hoffer, hex] at h ⊢
                  split at h
                  · simp at h
                  · rename_i hdup
                    rw [if_neg hdup]
                    exact ⟨userId, offerId, userOid, offerOid, user, offer, _, rfl, hun, rfl,
                      hon, hcu, hco, huser, hoffer, hex, rfl, rfl, rfl, rfl, rfl, rfl, rfl⟩

theorem find?_append_singleton_of_none {α : Type} (p : α → Bool) (l : List α) (x : α)
    (hnone : l.find? p = none) (hx : p x = true) : (l ++ [x]).find? p = some x := by
  induction l with
  | nil => simp [List.find?, hx]
  | cons y ys ih =>
    by_cases hy : p y = true
    · simp [List.find?, hy] at hnone
    · simp only [List.cons_append, List.find?, hy]
      simp only [List.find?, hy] at hnone
      exact ih hnone

/-- C5 (as amended): when a click for (u, o) with status `pending` or `clicked`
already exists, `create(u, o, upi)` persists no new click and answers with an
error response (HTTP 400, `success` false) that carries the tracking id of the
first such click; so a second create call for the same (u, o), made right after
a successful first one, changes nothing and reports the same tracking id as the
first. -/
theorem createClick_repeat_reports_existing :
    (∀ (rt : Runtime) (clk : Clock) (db : Database) (req : CreateRequest)
        (userId offerId : String) (userOid offerOid : ObjectId) (user : User) (offer : Offer)
        (existing : Click),
      req.userId = some userId → userId ≠ "" → req.offerId = some offerId → offerId ≠ "" →
      truthy req.upi = true →
      castObjectId userId = some userOid → castObjectId offerId = some offerOid →
      findUserById db userOid = some user → findOfferById db offerId = some offer →
      db.clicks.find? (isOpenClickFor userOid offerOid) = some existing →
      (createClick rt clk db req).1 = db ∧
      (createClick rt clk db req).2.code = 400 ∧
      (createClick rt clk db req).2.success = false ∧
      (createClick rt clk db req).2.clickId = some existing.clickId) ∧
    (∀ (rt : Runtime) (clk1 clk2 : Clock) (db : Database) (req1 req2 : CreateRequest),
      (createClick rt clk1 db req1).2.code = 201 →
      req2.userId = req1.userId → req2.offerId = req1.offerId → truthy req2.upi = true →
      (createClick rt clk2 (createClick rt clk1 db req1).1 req2).1 =
        (createClick rt clk1 db req1).1 ∧
      (createClick rt clk2 (createClick rt clk1 db req1).1 req2).2.code = 400 ∧
      (createClick rt clk2 (createClick rt clk1 db req1).1 req2).2.success = false ∧
      (createClick rt clk1 db req1).2.clickId ≠ none ∧
      (createClick rt clk2 (createClick rt clk1 db req1).1 req2).2.clickId =
        (createClick rt clk1 db req1).2.clickId) := by
  constructor
  · intro rt clk db req userId offerId userOid offerOid user offer existing hu hun ho hon hupi
      hcu hco huser hoffer hex
    rw [createClick_existing rt clk db req userId offerId userOid offerOid user offer existing
      hu hun ho hon hupi hcu hco huser hoffer hex]
    exact ⟨rfl, rfl, rfl, rfl⟩
  · intro rt clk1 clk2 db req1 req2 h201 hu2 ho2 hupi2
    obtain ⟨userId, offerId, userOid, offerOid, user, offer, click, hu, hun, ho, hon, hcu, hco,
      huser, hoffer, hnone, hclu, hclo, hcs, _, _, hdb, hid⟩ :=
      createClick_created rt clk1 db req1 h201
    have hopen : isOpenClickFor userOid offerOid click = true := by
      simp [isOpenClickFor, hclu, hclo, hcs]
    have hfind : ({ db with clicks := db.clicks ++ [click] } : Database).clicks.find?
        (isOpenClickFor userOid offerOid) = some click :=
      find?_append_singleton_of_none _ _ _ hnone hopen
    have e := createClick_existing rt clk2 { db with clicks := db.clicks ++ [click] } req2
      userId offerId userOid offerOid user offer click (hu2.trans hu) hun (ho2.trans ho) hon
      hupi2 hcu hco huser hoffer hfind
    rw [hdb, hid, e]
    exact ⟨rfl, rfl, rfl, by simp, rfl⟩

/-- C5, witness: a create call on the store with the pending example click, and
two consecutive create calls on the store without clicks. -/
theorem createClick_repeat_reports_existing_witness :
    ((createClick exRuntime exClock2 exDbPending exCreate).1 = exDbPending ∧
      (createClick exRuntime exClock2 exDbPending exCreate).2.code = 400 ∧
      (createClick exRuntime exClock2 exDbPending exCreate).2.success = false ∧
      (createClick exRuntime exClock2 exDbPending exCreate).2.clickId =
        some exClick.clickId) ∧
    ((createClick exRuntime exClock2 (createClick exRuntime exClock1 exDb exCreate).1
        exCreate).1 = (createClick exRuntime exClock1 exDb exCreate).1 ∧
      (createClick exRuntime exClock2 (createClick exRuntime exClock1 exDb exCreate).1
        exCreate).2.code = 400 ∧
      (createClick exRuntime exClock2 (createClick exRuntime exClock1 exDb exCreate).1
        exCreate).2.success = false ∧
      (createClick exRuntime exClock1 exDb exCreate).2.clickId ≠ none ∧
      (createClick exRuntime exClock2 (createClick exRuntime exClock1 exDb exCreate).1
        exCreate).2.clickId = (createClick exRuntime exClock1 exDb exCreate).2.clickId) :=
  ⟨createClick_repeat_reports_existing.1 exRuntime exClock2 exDbPending exCreate
      "64b7f1c2a3d4e5f607182930" "64b7f1c2a3d4e5f607182931"
      "64b7f1c2a3d4e5f607182930" "64b7f1c2a3d4e5f607182931" exUser exOffer exClick
      rfl (by decide) rfl (by decide) rfl rfl rfl rfl rfl rfl,
   createClick_repeat_reports_existing.2 exRuntime exClock1 exClock2 exDb exCreate exCreate
      rfl rfl rfl rfl⟩

/-- C5, counterexample: with the pending example click in the store, the create
call reports its tracking id in a 400 response with `success` false, not in a
non-error result. -/
theorem createClick_repeat_counterexample :
    exDbPending.clicks.find?
        (isOpenClickFor "64b7f1c2a3d4e5f607182930" "64b7f1c2a3d4e5f607182931") =
      some exClick ∧
    (createClick exRuntime exClock2 exDbPending exCreate).2.clickId = some exClick.clickId ∧
    (createClick exRuntime exClock2 exDbPending exCreate).2.code = 400 ∧
    (createClick exRuntime exClock2 exDbPending exCreate).2.success = false ∧
    ¬ ((createClick exRuntime exClock2 exDbPending exCreate).2.success = true ∨
       (createClick exRuntime exClock2 exDbPending exCreate).2.code < 400) := by
  have e := createClick_existing exRuntime exClock2 exDbPending exCreate
      "64b7f1c2a3d4e5f607182930" "64b7f1c2a3d4e5f607182931"
      "64b7f1c2a3d4e5f607182930" "64b7f1c2a3d4e5f607182931" exUser exOffer exClick
      rfl (by decide) rfl (by decide) rfl rfl rfl rfl rfl rfl
  rw [e]
  exact ⟨rfl, rfl, rfl, rfl, by decide⟩

/-! ## Withdrawal requests -/

/-- `parseFloat` on a text whose first character after the white space is not a sign. -/
theorem parseFloat_unsigned (s : String) (cs : List Char)
    (h : s.toList.dropWhile isStrWhiteSpace = cs)
    (h1 : ∀ t, cs ≠ '+' :: t) (h2 : ∀ t, cs ≠ '-' :: t) :
    parseFloat (.str s) = parseUnsigned cs := by
  show parseFloatString s = parseUnsigned cs
  unfold parseFloatString
  rw [h]
  split
  · rename_i t
    exact absurd rfl (h1 t)
  · rename_i t
    exact absurd rfl (h2 t)
  · rfl

/-- `parseUnsigned` on a decimal literal. -/
theorem parseUnsigned_decimal (cs : List Char) (q : ℚ)
    (hinf : "Infinity".toList.isPrefixOf cs = false)
    (hd : parseUnsignedDecimal cs = some q) : parseUnsigned cs = roundDouble q := by
  unfold parseUnsigned
  rw [if_neg (by rw [hinf]; exact Bool.false_ne_true), hd]

theorem parseFloatString_empty : parseFloatString "" = .nan := by
  have h := parseFloat_unsigned "" [] (by rfl) (by intro t h; exact List.noConfusion h)
    (by intro t h; exact List.noConfusion h)
  have h2 : parseUnsigned [] = .nan := by
    unfold parseUnsigned
    rw [if_neg (by decide)]
    rfl
  exact h.trans h2

/-- An amount that parses to a positive finite number is truthy. -/
theorem truthy_of_parseFloat_pos (amount : JsValue) (a : ℚ)
    (hparse : parseFloat amount = .fin a) (hpos : 0 < a) : amount.truthy = true := by
  cases amount with
  | undefined => simp [parseFloat] at hparse
  | null => simp [parseFloat] at hparse
  | bool b => simp [parseFloat] at hparse
  | num x =>
    simp only [parseFloat] at hparse
    simp [JsValue.truthy, hparse, JsNum.truthy, ne_of_gt hpos]
  | str s =>
    simp only [parseFloat] at hparse
    have : s ≠ "" := by
      intro hs
      rw [hs, parseFloatString_empty] at hparse
      exact JsNum.noConfusion hparse
    simp [JsValue.truthy, this]

theorem neg_grid (x : JsNum) (a : ℚ) (h : x.neg = .fin a)
    (hx : ∀ b, x = .fin b → ∃ k : ℤ, b = (k : ℚ) / (2 : ℚ) ^ 1074) :
    ∃ k : ℤ, a = (k : ℚ) / (2 : ℚ) ^ 1074 := by
  cases x with
  | nan => exact JsNum.noConfusion h
  | inf negative => exact JsNum.noConfusion h
  | fin b =>
    injection h with h
    obtain ⟨k, hk⟩ := hx b rfl
    exact ⟨-k, by rw [← h, hk]; push_cast; ring⟩

theorem parseUnsigned_grid (cs : List Char) (a : ℚ) (h : parseUnsigned cs = .fin a) :
    ∃ k : ℤ, a = (k : ℚ) / (2 : ℚ) ^ 1074 := by
  unfold parseUnsigned at h
  split at h
  · exact JsNum.noConfusion h
  · split at h
    · exact roundDouble_grid _ a h
    · exact JsNum.noConfusion h

/-- A finite result of `parseFloat` is a double: a multiple of 2^-1074. -/
theorem parseFloat_grid (amount : JsValue) (a : ℚ) (h : parseFloat amount = .fin a) :
    ∃ k : ℤ, a = (k : ℚ) / (2 : ℚ) ^ 1074 := by
  cases amount with
  | undefined => simp [parseFloat] at h
  | null => simp [parseFloat] at h
  | bool b => simp [parseFloat] at h
  | num x =>
    cases x with
    | nan => simp [parseFloat, JsNum.toDouble] at h
    | inf negative => simp [parseFloat, JsNum.toDouble] at h
    | fin q => exact roundDouble_grid q a h
  | str s =>
    simp only [parseFloat, parseFloatString] at h
    split at h
    · exact parseUnsigned_grid _ a h
    · exact neg_grid _ a h (fun b hb => parseUnsigned_grid _ b hb)
    · exact parseUnsigned_grid _ a h

theorem roundDouble_ne_nan (x : ℚ) : roundDouble x ≠ .nan := by
  unfold roundDouble roundDoubleNonneg
  simp only
  split
  · split <;> exact fun h => JsNum.noConfusion h
  · split <;> exact fun h => JsNum.noConfusion h

theorem roundDouble_nonneg_ne_neg_inf (x : ℚ) (hx : 0 ≤ x) : roundDouble x ≠ .inf true := by
  unfold roundDouble
  rw [if_pos hx]
  unfold roundDoubleNonneg
  simp only
  split
  · intro h
    injection h with h
    exact Bool.noConfusion h
  · exact fun h => JsNum.noConfusion h

/-- The coin cost of a positive amount that is a double: infinite (the quotient
overflows), or a whole number of at least one coin. -/
theorem coinsRequired_cases (a : ℚ) (hpos : 0 < a)
    (hgrid : ∃ k : ℤ, a = (k : ℚ) / (2 : ℚ) ^ 1074) :
    coinsRequired (.fin a) = .inf false ∨
      ∃ (q : ℚ), JsNum.divPos (.fin a) conversionRate = .fin q ∧ 0 < q ∧
        coinsRequired (.fin a) = .fin ((⌈q⌉ : ℤ) : ℚ) ∧ (1 : ℤ) ≤ ⌈q⌉ := by
  have hmin := grid_pos a hpos hgrid
  have hrate : (0 : ℚ) < conversionRate := by unfold conversionRate; norm_num
  have hx : 1 / (2 : ℚ) ^ 1074 ≤ a / conversionRate := by
    have h1 : a ≤ a / conversionRate := by
      rw [le_div_iff₀ hrate]
      have : conversionRate ≤ 1 := by unfold conversionRate; norm_num
      nlinarith
    linarith
  have hx0 : 0 ≤ a / conversionRate := le_trans (by positivity) hx
  cases hr : roundDouble (a / conversionRate) with
  | nan => exact absurd hr (roundDouble_ne_nan _)
  | inf negative =>
    cases negative with
    | true => exact absurd hr (roundDouble_nonneg_ne_neg_inf _ hx0)
    | false =>
      left
      simp [coinsRequired, JsNum.divPos, hr, JsNum.ceil]
  | fin q =>
    right
    have hq := roundDouble_pos _ q hx hr
    exact ⟨q, by simp [JsNum.divPos, hr], hq,
      by simp [coinsRequired, JsNum.divPos, hr, JsNum.ceil], Int.one_le_ceil_iff.mpr hq⟩

/-- The coin cost of a whole number of rupees is ten times the number. -/
theorem coinsRequired_natCast (n : ℕ) (hpos : 0 < n) (hlt : 10 * n < 2 ^ 53) :
    coinsRequired (.fin (n : ℚ)) = .fin ((10 * n : ℕ) : ℚ) := by
  have h : JsNum.divPos (.fin (n : ℚ)) conversionRate = .fin ((10 * n : ℕ) : ℚ) :=
    roundDouble_div_conversionRate n hpos hlt
  unfold coinsRequired
  rw [h]
  show JsNum.fin ((⌈((10 * n : ℕ) : ℚ)⌉ : ℤ) : ℚ) = .fin ((10 * n : ℕ) : ℚ)
  rw [Int.ceil_natCast, Int.cast_natCast]

/-- The handler on a valid finite amount, from the balance check on. -/
theorem withdraw_of_valid (rt : Runtime) (clk : Clock) (db : Database) (firebaseUid : String)
    (amount : JsValue) (a : ℚ) (user : User)
    (hparse : parseFloat amount = .fin a) (hpos : 0 < a)
    (huser : findUserByUid db firebaseUid = some user) :
    withdraw rt clk db firebaseUid amount =
      if (JsNum.fin user.coins).lt (coinsRequired (.fin a)) = true then
        (db, { code := 400, message := "Insufficient coins for this withdrawal",
               available := some user.coins,
               required := some (coinsRequired (.fin a)) })
      else
        match user.paymentMethod with
        | none =>
          (db, { code := 400,
                 message := "No payment method found. Please add a payment method first." })
        | some paymentMethod =>
          match coinsRequired (.fin a) with
          | .fin coins =>
            ({ db with
                 users := updateFirst (fun u => decide (u.uid = firebaseUid))
                   (applyWithdrawal coins
                     { id := toString (clk 1), amount := a,
                       coins := coins, date := clk 2,
                       paymentMethod := paymentMethod, status := "pending",
                       verifiedDate := none, verifiedBy := none }
                     { id := toString (clk 1), type := "withdraw",
                       amount := -coins,
                       description := "Withdrawal request for ₹" ++ rt.toFixed2 a,
                       date := clk 3, status := some "pending",
                       paymentMethod := some paymentMethod }
                     { id := toString (clk 4), type := "withdrawal",
                       title := "Withdrawal Requested",
                       message := "Your withdrawal request for ₹" ++ rt.toFixed2 a ++
                         " has been received and is pending approval.",
                       timestamp := clk 5, read := false }) db.users },
             { code := 201, message := "Withdrawal request submitted successfully",
               withdrawal := some
                 { id := toString (clk 1), amount := a,
                   coins := coins, date := clk 2,
                   paymentMethod := paymentMethod, status := "pending",
                   verifiedDate := none, verifiedBy := none },
               newBalance := some (user.coins + -coins),
               deductedCoins := some coins })
          | _ => (db, { code := 500, message := "Server error" }) := by
  have ht := truthy_of_parseFloat_pos amount a hparse hpos
  have hle : ¬ a ≤ 0 := not_le.mpr hpos
  simp only [withdraw, hparse, ht, JsNum.isNaN, JsNum.le, huser, applyWithdrawal]
  simp only [hle, decide_False, Bool.not_true, Bool.or_false, Bool.false_eq_true, if_false]
  split
  · rfl
  · cases user.paymentMethod with
    | none => rfl
    | some paymentMethod =>
      cases coinsRequired (.fin a) <;> rfl

/-- The handler on a valid finite amount with a finite coin cost. -/
theorem withdraw_of_cost (rt : Runtime) (clk : Clock) (db : Database) (firebaseUid : String)
    (amount : JsValue) (a c : ℚ) (user : User)
    (hparse : parseFloat amount = .fin a) (hpos : 0 < a)
    (hcost : coinsRequired (.fin a) = .fin c)
    (huser : findUserByUid db firebaseUid = some user) :
    withdraw rt clk db firebaseUid amount =
      if user.coins < c then
        (db, { code := 400, message := "Insufficient coins for this withdrawal",
               available := some user.coins, required := some (.fin c) })
      else
        match user.paymentMethod with
        | none =>
          (db, { code := 400,
                 message := "No payment method found. Please add a payment method first." })
        | some paymentMethod =>
          ({ db with
               users := updateFirst (fun u => decide (u.uid = firebaseUid))
                 (applyWithdrawal c
                   { id := toString (clk 1), amount := a,
                     coins := c, date := clk 2,
                     paymentMethod := paymentMethod, status := "pending",
                     verifiedDate := none, verifiedBy := none }
                   { id := toString (clk 1), type := "withdraw",
                     amount := -c,
                     description := "Withdrawal request for ₹" ++ rt.toFixed2 a,
                     date := clk 3, status := some "pending",
                     paymentMethod := some paymentMethod }
                   { id := toString (clk 4), type := "withdrawal",
                     title := "Withdrawal Requested",
                     message := "Your withdrawal request for ₹" ++ rt.toFixed2 a ++
                       " has been received and is pending approval.",
                     timestamp := clk 5, read := false }) db.users },
           { code := 201, message := "Withdrawal request submitted successfully",
             withdrawal := some
               { id := toString (clk 1), amount := a,
                 coins := c, date := clk 2,
                 paymentMethod := paymentMethod, status := "pending",
                 verifiedDate := none, verifiedBy := none },
             newBalance := some (user.coins + -c),
             deductedCoins := some c }) := by
  rw [withdraw_of_valid rt clk db firebaseUid amount a user hparse hpos huser, hcost]
  simp only [JsNum.lt, decide_eq_true_eq]

/-- The handler on a valid finite amount whose coin cost is infinite. -/
theorem withdraw_of_overflow (rt : Runtime) (clk : Clock) (db : Database)
    (firebaseUid : String) (amount : JsValue) (a : ℚ) (user : User)
    (hparse : parseFloat amount = .fin a) (hpos : 0 < a)
    (hcost : coinsRequired (.fin a) = .inf false)
    (huser : findUserByUid db firebaseUid = some user) :
    withdraw rt clk db firebaseUid amount =
      (db, { code := 400, message := "Insufficient coins for this withdrawal",
             available := some user.coins, required := some (.inf false) }) := by
  rw [withdraw_of_valid rt clk db firebaseUid amount a user hparse hpos huser, hcost]
  simp [JsNum.lt]

/-- What a 201 answer of the withdraw handler says about the request and the user. -/
theorem withdraw_created (rt : Runtime) (clk : Clock) (db : Database) (firebaseUid : String)
    (amount : JsValue) (h : (withdraw rt clk db firebaseUid amount).2.code = 201) :
    ∃ (a q : ℚ) (user : User) (paymentMethod : PaymentMethod),
      parseFloat amount = .fin a ∧ 0 < a ∧
      JsNum.divPos (.fin a) conversionRate = .fin q ∧ 0 < q ∧
      coinsRequired (.fin a) = .fin ((⌈q⌉ : ℤ) : ℚ) ∧ (1 : ℤ) ≤ ⌈q⌉ ∧
      findUserByUid db firebaseUid = some user ∧
      ¬ user.coins < ((⌈q⌉ : ℤ) : ℚ) ∧
      user.paymentMethod = some paymentMethod := by
  cases hp : parseFloat amount with
  | nan => simp [withdraw, hp, JsNum.isNaN] at h
  | inf negative =>
    cases negative with
    | true => simp [withdraw, hp, JsNum.isNaN, JsNum.le] at h
    | false =>
      cases huser : findUserByUid db firebaseUid with
      | none =>
        simp only [withdraw, hp, huser] at h
        split at h <;> simp at h
      | some user =>
        simp only [withdraw, hp, huser, coinsRequired, JsNum.divPos, JsNum.ceil, JsNum.lt] at h
        split at h <;> simp at h
  | fin a =>
    by_cases hpos : 0 < a
    · cases huser : findUserByUid db firebaseUid with
      | none =>
        simp only [withdraw, hp, huser] at h
        split at h <;> simp at h
      | some user =>
        rcases coinsRequired_cases a hpos (parseFloat_grid amount a hp) with hinf |
          ⟨q, hq, hqpos, hcost, hone⟩
        · rw [withdraw_of_overflow rt clk db firebaseUid amount a user hp hpos hinf huser] at h
          simp at h
        · rw [withdraw_of_cost rt clk db firebaseUid amount a _ user hp hpos hcost huser] at h
          by_cases hlt : user.coins < ((⌈q⌉ : ℤ) : ℚ)
          · simp [hlt] at h
          · cases hpm : user.paymentMethod with
            | none => simp [hlt, hpm] at h
            | some paymentMethod =>
              exact ⟨a, q, user, paymentMethod, rfl, hpos, hq, hqpos, hcost, hone, rfl, hlt, hpm⟩
    · have hle : a ≤ 0 := not_lt.mp hpos
      simp [withdraw, hp, JsNum.isNaN, JsNum.le, hle] at h

theorem findUserByUid_updateFirst (db : Database) (firebaseUid : String) (f : User → User)
    (hf : ∀ u, (f u).uid = u.uid) :
    findUserByUid
        { db with users := updateFirst (fun u => decide (u.uid = firebaseUid)) f db.users }
        firebaseUid =
      (findUserByUid db firebaseUid).map f := by
  unfold findUserByUid
  exact find?_updateFirst _ _ (fun x hx => by simpa [hf x] using hx) db.users

theorem findUserByUid_applyWithdrawal (db : Database) (firebaseUid : String) (c : ℚ)
    (w : Withdrawal) (t : Transaction) (n : Notification) :
    findUserByUid
        { db with users := updateFirst (fun u => decide (u.uid = firebaseUid))
                    (applyWithdrawal c w t n) db.users }
        firebaseUid =
      (findUserByUid db firebaseUid).map (applyWithdrawal c w t n) :=
  findUserByUid_updateFirst db firebaseUid _ (fun _ => rfl)

/-- C7 (as amended): for every accepted withdrawal request, `coinsRequired` is
the ceiling of the quotient, computed in double precision, of the parsed amount
`a` and the rate 0.1; it is a whole number of at least 1, and for a whole number
`n` of rupees (with `10 * n` below 2^53) it is `10 * n`. This one value is
deducted from the balance, stored as the `coins` of the withdrawal record and
stored negated as the `amount` of the transaction. -/
theorem withdraw_cost (rt : Runtime) (clk : Clock) (db : Database) (firebaseUid : String)
    (amount : JsValue) (h : (withdraw rt clk db firebaseUid amount).2.code = 201) :
    ∃ (a q : ℚ) (user updated : User) (w : Withdrawal) (t : Transaction),
      parseFloat amount = .fin a ∧ 0 < a ∧
      roundDouble (a / conversionRate) = .fin q ∧
      coinsRequired (.fin a) = .fin ((⌈q⌉ : ℤ) : ℚ) ∧ (1 : ℤ) ≤ ⌈q⌉ ∧
      (∀ n : ℕ, a = (n : ℚ) → 10 * n < 2 ^ 53 → ⌈q⌉ = 10 * (n : ℤ)) ∧
      findUserByUid db firebaseUid = some user ∧
      findUserByUid (withdraw rt clk db firebaseUid amount).1 firebaseUid = some updated ∧
      (withdraw rt clk db firebaseUid amount).2.deductedCoins = some ((⌈q⌉ : ℤ) : ℚ) ∧
      updated.coins = user.coins - ((⌈q⌉ : ℤ) : ℚ) ∧
      (withdraw rt clk db firebaseUid amount).2.newBalance =
        some (user.coins - ((⌈q⌉ : ℤ) : ℚ)) ∧
      (withdraw rt clk db firebaseUid amount).2.withdrawal = some w ∧
      updated.withdrawals.head? = some w ∧ updated.pendingWithdrawals.head? = some w ∧
      w.amount = a ∧ w.coins = ((⌈q⌉ : ℤ) : ℚ) ∧
      updated.transactions.head? = some t ∧ t.amount = -((⌈q⌉ : ℤ) : ℚ) := by
  obtain ⟨a, q, user, pm, hp, hpos, hq, hqpos, hcost, hone, huser, hlt, hpm⟩ :=
    withdraw_created rt clk db firebaseUid amount h
  rw [withdraw_of_cost rt clk db firebaseUid amount a _ user hp hpos hcost huser]
  simp only [hlt, if_false, hpm]
  rw [findUserByUid_applyWithdrawal, huser]
  have hint : ∀ n : ℕ, a = (n : ℚ) → 10 * n < 2 ^ 53 → ⌈q⌉ = 10 * (n : ℤ) := by
    intro n hn hlt53
    have hn0 : 0 < n := by
      rw [hn] at hpos
      exact_mod_cast hpos
    have h1 := roundDouble_div_conversionRate n hn0 hlt53
    rw [← hn] at h1
    have h2 : JsNum.divPos (.fin a) conversionRate = roundDouble (a / conversionRate) := rfl
    rw [h2, h1] at hq
    injection hq with hq
    rw [← hq]
    rw [@Int.ceil_natCast ℚ _ _ (10 * n)]
    push_cast
    ring
  exact ⟨a, q, user, _, _, _, hp, hpos, hq, hcost, hone, hint, rfl, rfl, rfl,
    (sub_eq_add_neg _ _).symm, by rw [sub_eq_add_neg], rfl, rfl, rfl, rfl, rfl, rfl, rfl⟩

/-- C8: for every user and every valid (positive finite) amount whose
`coinsRequired` exceeds the user's balance, the withdrawal request is answered
400 "Insufficient coins for this withdrawal" and the store is left as it was,
so the user's balance, withdrawals, pendingWithdrawals, transactions and
notifications are unchanged. -/
theorem withdraw_insufficient (rt : Runtime) (clk : Clock) (db : Database)
    (firebaseUid : String) (amount : JsValue) (a : ℚ) (user : User)
    (hparse : parseFloat amount = .fin a) (hpos : 0 < a)
    (huser : findUserByUid db firebaseUid = some user)
    (hlt : (JsNum.fin user.coins).lt (coinsRequired (.fin a)) = true) :
    withdraw rt clk db firebaseUid amount =
        (db, { code := 400, message := "Insufficient coins for this withdrawal",
               available := some user.coins,
               required := some (coinsRequired (.fin a)) }) ∧
    findUserByUid (withdraw rt clk db firebaseUid amount).1 firebaseUid = some user := by
  rw [withdraw_of_valid rt clk db firebaseUid amount a user hparse hpos huser]
  rw [if_pos hlt]
  exact ⟨rfl, huser⟩

/-- C9: for every successful withdrawal request, one withdrawal record with
status `pending` and `verifiedDate`, `verifiedBy` null is inserted at the front
of both `withdrawals` and `pendingWithdrawals`, one transaction with a negative
amount and one notification are inserted at the front of their lists, the
balance decreases by `coinsRequired`, and `verifiedWithdrawals` is unchanged. -/
theorem withdraw_effects (rt : Runtime) (clk : Clock) (db : Database) (firebaseUid : String)
    (amount : JsValue) (h : (withdraw rt clk db firebaseUid amount).2.code = 201) :
    ∃ (user updated : User) (w : Withdrawal) (t : Transaction) (n : Notification)
        (coinsRequired : ℚ),
      findUserByUid db firebaseUid = some user ∧
      findUserByUid (withdraw rt clk db firebaseUid amount).1 firebaseUid = some updated ∧
      (withdraw rt clk db firebaseUid amount).2.withdrawal = some w ∧
      (withdraw rt clk db firebaseUid amount).2.deductedCoins = some coinsRequired ∧
      w.status = "pending" ∧ w.verifiedDate = none ∧ w.verifiedBy = none ∧
      w.coins = coinsRequired ∧
      updated.withdrawals = w :: user.withdrawals ∧
      updated.pendingWithdrawals = w :: user.pendingWithdrawals ∧
      updated.transactions = t :: user.transactions ∧ t.amount < 0 ∧
      t.amount = -coinsRequired ∧
      updated.notifications = n :: user.notifications ∧
      updated.coins = user.coins - coinsRequired ∧
      updated.verifiedWithdrawals = user.verifiedWithdrawals := by
  obtain ⟨a, q, user, pm, hp, hpos, hq, hqpos, hcost, hone, huser, hlt, hpm⟩ :=
    withdraw_created rt clk db firebaseUid amount h
  rw [withdraw_of_cost rt clk db firebaseUid amount a _ user hp hpos hcost huser]
  simp only [hlt, if_false, hpm]
  rw [findUserByUid_applyWithdrawal, huser]
  have hone2 : (1 : ℚ) ≤ ((⌈q⌉ : ℤ) : ℚ) := by exact_mod_cast hone
  refine ⟨user, _, _, _, _, ((⌈q⌉ : ℤ) : ℚ), rfl, rfl, rfl, rfl, rfl, rfl, rfl,
    rfl, rfl, rfl, rfl, ?_, rfl, rfl, (sub_eq_add_neg _ _).symm, rfl⟩
  show -((⌈q⌉ : ℤ) : ℚ) < 0
  linarith

theorem parseFloat_fifty : parseFloat (.num (.fin 50)) = .fin 50 := by
  have h := roundDouble_natCast 50 (by norm_num) (by norm_num)
  simpa [parseFloat, JsNum.toDouble] using h

theorem coinsRequired_fifty : coinsRequired (.fin 50) = .fin 500 := by
  have h := coinsRequired_natCast 50 (by norm_num) (by norm_num)
  norm_num at h
  exact h

/-- The scenario of the specification: 1000 coins, a request for 50 rupees. -/
theorem withdraw_example :
    withdraw exRuntime exClock1 exDbRich "firebase-uid-1" (.num (.fin 50)) =
      (exDbAfterWithdrawal,
       { code := 201, message := "Withdrawal request submitted successfully",
         withdrawal := some exWithdrawal, newBalance := some 500,
         deductedCoins := some 500 }) := by
  rw [withdraw_of_cost exRuntime exClock1 exDbRich "firebase-uid-1" (.num (.fin 50)) 50 500
    exRichUser parseFloat_fifty (by norm_num) coinsRequired_fifty rfl]
  have hcoins : exRichUser.coins = 1000 := rfl
  have hpm : exRichUser.paymentMethod =
      some { type := "upi", details := [("upiId", "asha@upi")] } := rfl
  have hfix : exRuntime.toFixed2 50 = "50.00" := by rfl
  have hts : toString (exClock1 1) = "1700000000000" := by rfl
  have hts4 : toString (exClock1 4) = "1700000000000" := by rfl
  rw [hcoins, hpm, hfix, hts, hts4]
  norm_num [exDbRich, exDbAfterWithdrawal, updateFirst, applyWithdrawal, exUserAfterWithdrawal,
    exRichUser, exUser, exWithdrawal, exWithdrawTransaction, exWithdrawNotification, exClock1]

  constructor <;> rfl

/-- C7, witness: balance 1000 and amount 50 give `coinsRequired` 500 and new
balance 500. -/
theorem withdraw_cost_witness :
    (withdraw exRuntime exClock1 exDbRich "firebase-uid-1" (.num (.fin 50))).2.code = 201 ∧
    (withdraw exRuntime exClock1 exDbRich "firebase-uid-1" (.num (.fin 50))).2.deductedCoins =
      some 500 ∧
    (withdraw exRuntime exClock1 exDbRich "firebase-uid-1" (.num (.fin 50))).2.newBalance =
      some 500 ∧
    (withdraw exRuntime exClock1 exDbRich "firebase-uid-1" (.num (.fin 50))).1 =
      exDbAfterWithdrawal ∧
    exRichUser.coins = 1000 ∧ exUserAfterWithdrawal.coins = 500 ∧
    exUserAfterWithdrawal.pendingWithdrawals = [exWithdrawal] ∧ exWithdrawal.coins = 500 ∧
    ∃ (a q : ℚ) (user updated : User) (w : Withdrawal) (t : Transaction),
      parseFloat (.num (.fin 50)) = .fin a ∧ 0 < a ∧
      roundDouble (a / conversionRate) = .fin q ∧
      coinsRequired (.fin a) = .fin ((⌈q⌉ : ℤ) : ℚ) ∧ (1 : ℤ) ≤ ⌈q⌉ ∧
      (∀ n : ℕ, a = (n : ℚ) → 10 * n < 2 ^ 53 → ⌈q⌉ = 10 * (n : ℤ)) ∧
      findUserByUid exDbRich "firebase-uid-1" = some user ∧
      findUserByUid (withdraw exRuntime exClock1 exDbRich "firebase-uid-1"
        (.num (.fin 50))).1 "firebase-uid-1" = some updated ∧
      (withdraw exRuntime exClock1 exDbRich "firebase-uid-1"
        (.num (.fin 50))).2.deductedCoins = some ((⌈q⌉ : ℤ) : ℚ) ∧
      updated.coins = user.coins - ((⌈q⌉ : ℤ) : ℚ) ∧
      (withdraw exRuntime exClock1 exDbRich "firebase-uid-1" (.num (.fin 50))).2.newBalance =
        some (user.coins - ((⌈q⌉ : ℤ) : ℚ)) ∧
      (withdraw exRuntime exClock1 exDbRich "firebase-uid-1" (.num (.fin 50))).2.withdrawal =
        some w ∧
      updated.withdrawals.head? = some w ∧ updated.pendingWithdrawals.head? = some w ∧
      w.amount = a ∧ w.coins = ((⌈q⌉ : ℤ) : ℚ) ∧
      updated.transactions.head? = some t ∧ t.amount = -((⌈q⌉ : ℤ) : ℚ) :=
  ⟨by rw [withdraw_example], by rw [withdraw_example], by rw [withdraw_example],
   by rw [withdraw_example], rfl, rfl, rfl, rfl,
   withdraw_cost exRuntime exClock1 exDbRich "firebase-uid-1" (.num (.fin 50))
     (by rw [withdraw_example])⟩

/-- The decimal 0.10000000000000001 is read as the double nearest to 0.1. -/
theorem parseFloat_tenth_long : parseFloat (.str "0.10000000000000001") = .fin conversionRate := by
  rw [parseFloat_unsigned "0.10000000000000001"
    ['0', '.', '1', '0', '0', '0', '0', '0', '0', '0', '0', '0', '0', '0', '0', '0', '0', '0', '1']
    (by rfl)
    (by intro t h; injection h with h _; revert h; decide)
    (by intro t h; injection h with h _; revert h; decide)]
  rw [parseUnsigned_decimal
    ['0', '.', '1', '0', '0', '0', '0', '0', '0', '0', '0', '0', '0', '0', '0', '0', '0', '0', '1']
    ((((0 : ℕ) : ℚ) + ((10000000000000001 : ℕ) : ℚ) / 10 ^ (17 : ℕ)) * (10 : ℚ) ^ (0 : ℤ))
    (by rfl) (by rfl)]
  have hval : (((0 : ℕ) : ℚ) + ((10000000000000001 : ℕ) : ℚ) / 10 ^ (17 : ℕ)) *
      (10 : ℚ) ^ (0 : ℤ) = 10000000000000001 / 100000000000000000 := by norm_num
  rw [hval, roundDouble_tenth_long]


/-- C7, counterexample: the example user with 1000 coins asks for
0.10000000000000001 rupees. The amount is read as the double nearest to 0.1,
the request is accepted and 1 coin is deducted, while the ceiling of the amount
divided by one tenth in exact arithmetic is 2, for the decimal of the request
and for the double it is read as. -/
theorem withdraw_cost_counterexample :
    parseFloat (.str "0.10000000000000001") = .fin conversionRate ∧
    (withdraw exRuntime exClock1 exDbRich "firebase-uid-1"
      (.str "0.10000000000000001")).2.code = 201 ∧
    (withdraw exRuntime exClock1 exDbRich "firebase-uid-1"
      (.str "0.10000000000000001")).2.deductedCoins = some 1 ∧
    (findUserByUid (withdraw exRuntime exClock1 exDbRich "firebase-uid-1"
      (.str "0.10000000000000001")).1 "firebase-uid-1").map (fun u => u.coins) = some 999 ∧
    ⌈(10 : ℚ) * (10000000000000001 / 100000000000000000)⌉ = 2 ∧
    ⌈(10 : ℚ) * conversionRate⌉ = 2 := by
  have hrate : (0 : ℚ) < conversionRate := by unfold conversionRate; norm_num
  have hcost : coinsRequired (.fin conversionRate) = .fin 1 := by
    have h1 : roundDouble (conversionRate / conversionRate) = .fin ((1 : ℕ) : ℚ) := by
      rw [div_self (ne_of_gt hrate)]
      have := roundDouble_natCast 1 (by norm_num) (by norm_num)
      simpa using this
    have h : JsNum.divPos (.fin conversionRate) conversionRate = .fin ((1 : ℕ) : ℚ) := h1
    unfold coinsRequired
    rw [h]
    show JsNum.fin ((⌈((1 : ℕ) : ℚ)⌉ : ℤ) : ℚ) = .fin 1
    rw [Int.ceil_natCast]
    norm_num
  have h3 := withdraw_of_cost exRuntime exClock1 exDbRich "firebase-uid-1"
    (.str "0.10000000000000001") conversionRate 1 exRichUser parseFloat_tenth_long hrate hcost
    rfl
  have hcoins : exRichUser.coins = 1000 := rfl
  have hpm : exRichUser.paymentMethod =
      some { type := "upi", details := [("upiId", "asha@upi")] } := rfl
  rw [hcoins, hpm] at h3
  rw [h3]
  refine ⟨parseFloat_tenth_long, ?_, ?_, ?_, ?_, ?_⟩
  · norm_num
  · norm_num
  · have hlt : ¬ (1000 : ℚ) < 1 := by norm_num
    simp only [hlt, if_false]
    rw [findUserByUid_applyWithdrawal]
    have hu : findUserByUid exDbRich "firebase-uid-1" = some exRichUser := rfl
    rw [hu]
    simp only [Option.map_some', applyWithdrawal, hcoins]
    norm_num
  · rw [Int.ceil_eq_iff]
    norm_num
  · rw [Int.ceil_eq_iff]
    unfold conversionRate
    norm_num

/-- C8, witness: the fresh example user, with 0 coins, asks for 50 rupees. -/
theorem withdraw_insufficient_witness :
    withdraw exRuntime exClock1 exDb "firebase-uid-1" (.num (.fin 50)) =
        (exDb, { code := 400, message := "Insufficient coins for this withdrawal",
                 available := some exUser.coins,
                 required := some (coinsRequired (.fin 50)) }) ∧
    findUserByUid (withdraw exRuntime exClock1 exDb "firebase-uid-1" (.num (.fin 50))).1
      "firebase-uid-1" = some exUser :=
  withdraw_insufficient exRuntime exClock1 exDb "firebase-uid-1" (.num (.fin 50)) 50 exUser
    parseFloat_fifty (by norm_num) rfl
    (by rw [coinsRequired_fifty]; simp [JsNum.lt, exUser])

/-- C9, witness: the example user with 1000 coins asks for 50 rupees. -/
theorem withdraw_effects_witness :
    (withdraw exRuntime exClock1 exDbRich "firebase-uid-1" (.num (.fin 50))).2.code = 201 ∧
    ∃ (user updated : User) (w : Withdrawal) (t : Transaction) (n : Notification)
        (coinsRequired : ℚ),
      findUserByUid exDbRich "firebase-uid-1" = some user ∧
      findUserByUid (withdraw exRuntime exClock1 exDbRich "firebase-uid-1"
        (.num (.fin 50))).1 "firebase-uid-1" = some updated ∧
      (withdraw exRuntime exClock1 exDbRich "firebase-uid-1" (.num (.fin 50))).2.withdrawal =
        some w ∧
      (withdraw exRuntime exClock1 exDbRich "firebase-uid-1"
        (.num (.fin 50))).2.deductedCoins = some coinsRequired ∧
      w.status = "pending" ∧ w.verifiedDate = none ∧ w.verifiedBy = none ∧
      w.coins = coinsRequired ∧
      updated.withdrawals = w :: user.withdrawals ∧
      updated.pendingWithdrawals = w :: user.pendingWithdrawals ∧
      updated.transactions = t :: user.transactions ∧ t.amount < 0 ∧
      t.amount = -coinsRequired ∧
      updated.notifications = n :: user.notifications ∧
      updated.coins = user.coins - coinsRequired ∧
      updated.verifiedWithdrawals = user.verifiedWithdrawals :=
  ⟨by rw [withdraw_example],
   withdraw_effects exRuntime exClock1 exDbRich "firebase-uid-1" (.num (.fin 50))
     (by rw [withdraw_example])⟩

/-! ## Withdrawal verification -/

theorem find?_of_findIndex {α : Type} (p : α → Bool) :
    ∀ (l : List α) (i : Nat), findIndex p l = some i →
      ∃ x, l.find? p = some x ∧ l[i]? = some x ∧ p x = true := by
  intro l
  induction l with
  | nil => intro i h; simp [findIndex] at h
  | cons y ys ih =>
    intro i h
    by_cases hy : p y = true
    · simp only [findIndex, hy, if_true, Option.some.injEq] at h
      subst h
      exact ⟨y, by simp [List.find?, hy], by simp, hy⟩
    · simp only [findIndex, hy, Bool.false_eq_true, if_false, Option.map_eq_some'] at h
      obtain ⟨j, hj, hij⟩ := h
      obtain ⟨x, hx1, hx2, hx3⟩ := ih j hj
      subst hij
      exact ⟨x, by simp [List.find?, hy, hx1], by simpa using hx2, hx3⟩

theorem findUserByUid_uid (db : Database) (firebaseUid : String) (user : User)
    (h : findUserByUid db firebaseUid = some user) : user.uid = firebaseUid := by
  have := List.find?_some h
  simpa using this

theorem findUserByUid_save (db : Database) (firebaseUid : String) (user saved : User)
    (h : findUserByUid db firebaseUid = some user) (hs : saved.uid = firebaseUid) :
    findUserByUid
        { db with users := updateFirst (fun u => decide (u.uid = firebaseUid))
                    (fun _ => saved) db.users }
        firebaseUid = some saved := by
  unfold findUserByUid at h ⊢
  have e := find?_updateFirst (fun u : User => decide (u.uid = firebaseUid)) (fun _ => saved)
    (fun x _ => by simpa using hs) db.users
  simp only [e, h, Option.map_some']

/-- An accepted verify call: what the stored user is afterwards. The record
leaves `pendingWithdrawals`, its verified copy enters `verifiedWithdrawals`, one
notification is added; `withdrawals`, `transactions` and the balance are as
they were. -/
theorem verifyWithdrawal_stored (rt : Runtime) (clk : Clock) (db : Database)
    (firebaseUid w adminUid : String) (user : User) (i j : Nat)
    (hadmin : adminUid ≠ "")
    (huser : findUserByUid db firebaseUid = some user)
    (hpending : findIndex (fun x : Withdrawal => decide (x.id = w)) user.pendingWithdrawals =
      some i)
    (hmain : findIndex (fun x : Withdrawal => decide (x.id = w)) user.withdrawals = some j) :
    ∃ (pending main : Withdrawal) (updated : User) (n : Notification),
      user.pendingWithdrawals[i]? = some pending ∧ pending.id = w ∧
      user.withdrawals[j]? = some main ∧
      (verifyWithdrawal rt clk db firebaseUid w (some adminUid)).2 =
        { code := 200, message := "Withdrawal verified successfully",
          withdrawal := some (markVerified (clk 0) adminUid main) } ∧
      findUserByUid (verifyWithdrawal rt clk db firebaseUid w (some adminUid)).1 firebaseUid =
        some updated ∧
      updated.pendingWithdrawals = user.pendingWithdrawals.eraseIdx i ∧
      updated.verifiedWithdrawals =
        markVerified (clk 1) adminUid pending :: user.verifiedWithdrawals ∧
      updated.withdrawals = user.withdrawals ∧
      updated.transactions = user.transactions ∧
      updated.notifications = n :: user.notifications ∧
      updated.coins = user.coins := by
  obtain ⟨pending, hp1, hp2, hp3⟩ := find?_of_findIndex _ _ _ hpending
  obtain ⟨main, hm1, hm2, _⟩ := find?_of_findIndex _ _ _ hmain
  simp only [verifyWithdrawal, truthy_some hadmin, huser, hpending, hp1, hmain, hm1,
    Option.getD_some, Bool.not_true, Bool.false_eq_true, if_false]
  exact ⟨pending, main, _, _, hp2, by simpa using hp3, hm2, rfl,
    findUserByUid_save db firebaseUid user _ huser (findUserByUid_uid db firebaseUid user huser),
    rfl, rfl, rfl, rfl, rfl, rfl⟩

/-- C10 (the code at the failing input): the example user holds one withdrawal
of 500 coins, with status `pending`, in `withdrawals` and in
`pendingWithdrawals`, and its transaction with status `pending`. The verify
call of the admin is answered 200 and the response shows the withdrawal with
status `verified`. In the stored user the record has left
`pendingWithdrawals`, its copy with status `verified`, `verifiedBy` the admin
and a `verifiedDate` is in `verifiedWithdrawals`, one notification is added and
the balance is still 500; but the entry of `withdrawals` still has status
`pending` and no `verifiedBy` or `verifiedDate`, and the status of the
transaction is still `pending`. -/
theorem verify_leaves_withdrawal_and_transaction_pending :
    (findUserByUid exDbAfterWithdrawal "firebase-uid-1").map
      (fun u => (u.pendingWithdrawals.map (fun x => x.id),
        u.withdrawals.map (fun x => (x.id, x.status)),
        u.transactions.map (fun t => (t.id, t.status)), u.notifications.length, u.coins)) =
      some (["1700000000000"], [("1700000000000", "pending")],
        [("1700000000000", some "pending")], 1, 500) ∧
    (verifyWithdrawal exRuntime exClock2 exDbAfterWithdrawal "firebase-uid-1"
        "1700000000000" (some "admin-uid-7")).2.code = 200 ∧
    (verifyWithdrawal exRuntime exClock2 exDbAfterWithdrawal "firebase-uid-1"
        "1700000000000" (some "admin-uid-7")).2.withdrawal.map
      (fun x => (x.status, x.verifiedBy)) = some ("verified", some "admin-uid-7") ∧
    (findUserByUid (verifyWithdrawal exRuntime exClock2 exDbAfterWithdrawal "firebase-uid-1"
        "1700000000000" (some "admin-uid-7")).1 "firebase-uid-1").map
      (fun u => (u.pendingWithdrawals,
        u.verifiedWithdrawals.map (fun x => (x.id, x.status, x.verifiedBy, x.verifiedDate)),
        u.withdrawals.map (fun x => (x.id, x.status, x.verifiedBy, x.verifiedDate)),
        u.transactions.map (fun t => (t.id, t.status)), u.notifications.length, u.coins)) =
      some ([], [("1700000000000", "verified", some "admin-uid-7", some 1700000005000)],
        [("1700000000000", "pending", none, none)],
        [("1700000000000", some "pending")], 2, 500) := by
  refine ⟨by rfl, by rfl, by rfl, by rfl⟩

/-! ## Withdrawal requests without a payment method -/

/-- C20: for every user who has no payment method configured (`paymentMethod` is
null) and every valid (positive finite) amount whose coin cost the balance
covers, the withdrawal request is answered 400 "No payment method found. Please
add a payment method first." and the store is left as it was, so the balance
and the withdrawal, transaction and notification lists are unchanged. -/
theorem withdraw_no_payment_method (rt : Runtime) (clk : Clock) (db : Database)
    (firebaseUid : String) (amount : JsValue) (a : ℚ) (user : User)
    (hparse : parseFloat amount = .fin a) (hpos : 0 < a)
    (huser : findUserByUid db firebaseUid = some user)
    (hcovers : (JsNum.fin user.coins).lt (coinsRequired (.fin a)) = false)
    (hmethod : user.paymentMethod = none) :
    withdraw rt clk db firebaseUid amount =
        (db, { code := 400,
               message := "No payment method found. Please add a payment method first." }) ∧
    findUserByUid (withdraw rt clk db firebaseUid amount).1 firebaseUid = some user := by
  rw [withdraw_of_valid rt clk db firebaseUid amount a user hparse hpos huser]
  rw [if_neg (by rw [hcovers]; exact Bool.false_ne_true), hmethod]
  exact ⟨rfl, huser⟩

/-- C20, witness: the example user with 1000 coins and no payment method asks
for 50 rupees. -/
theorem withdraw_no_payment_method_witness :
    withdraw exRuntime exClock1 exDbNoMethod "firebase-uid-1" (.num (.fin 50)) =
        (exDbNoMethod,
         { code := 400,
           message := "No payment method found. Please add a payment method first." }) ∧
    findUserByUid (withdraw exRuntime exClock1 exDbNoMethod "firebase-uid-1"
      (.num (.fin 50))).1 "firebase-uid-1" = some exUserNoMethod :=
  withdraw_no_payment_method exRuntime exClock1 exDbNoMethod "firebase-uid-1" (.num (.fin 50))
    50 exUserNoMethod parseFloat_fifty (by norm_num) rfl
    (by rw [coinsRequired_fifty]; simp [JsNum.lt, exUserNoMethod]; norm_num) rfl

/-! ## Verification of an id that is not pending -/

theorem findIndex_eq_none {α : Type} (p : α → Bool) (l : List α)
    (h : ∀ x ∈ l, p x = false) : findIndex p l = none := by
  induction l with
  | nil => rfl
  | cons y ys ih =>
    have hy : p y = false := h y (List.mem_cons_self _ _)
    simp [findIndex, hy, ih (fun x hx => h x (List.mem_cons_of_mem _ hx))]

theorem findIndex_eraseIdx {α : Type} (p : α → Bool) :
    ∀ (l : List α) (i : Nat), findIndex p l = some i → l.eraseIdx i = l.eraseP p := by
  intro l
  induction l with
  | nil => intro i h; simp [findIndex] at h
  | cons y ys ih =>
    intro i h
    by_cases hy : p y = true
    · simp only [findIndex, hy, if_true, Option.some.injEq] at h
      subst h
      simp [List.eraseP_cons_of_pos, hy]
    · simp only [findIndex, hy, Bool.false_eq_true, if_false, Option.map_eq_some'] at h
      obtain ⟨j, hj, hij⟩ := h
      subst hij
      simp [List.eraseP_cons_of_neg, hy, ih j hj]

theorem findIndex_modifyAt {α : Type} (p : α → Bool) (f : α → α) :
    ∀ (l : List α) (i : Nat), findIndex p l = some i → modifyAt f i l = updateFirst p f l := by
  intro l
  induction l with
  | nil => intro i h; simp [findIndex] at h
  | cons y ys ih =>
    intro i h
    by_cases hy : p y = true
    · simp only [findIndex, hy, if_true, Option.some.injEq] at h
      subst h
      simp [modifyAt, updateFirst, hy]
    · simp only [findIndex, hy, Bool.false_eq_true, if_false, Option.map_eq_some'] at h
      obtain ⟨j, hj, hij⟩ := h
      subst hij
      simp [modifyAt, updateFirst, hy, ih j hj]

/-- Removing the first match of `p` from a list with at most one match leaves no match. -/
theorem eraseP_no_match {α : Type} (p : α → Bool) (l : List α)
    (h : (l.filter p).length ≤ 1) : ∀ x ∈ l.eraseP p, p x = false := by
  induction l with
  | nil => intro x hx; simp at hx
  | cons y ys ih =>
    by_cases hy : p y = true
    · intro x hx
      rw [List.eraseP_cons_of_pos hy] at hx
      simp only [List.filter_cons, hy, if_true, List.length_cons] at h
      have hnil : ys.filter p = [] := List.length_eq_zero.mp (by omega)
      have := List.filter_eq_nil_iff.mp hnil x hx
      simpa using this
    · intro x hx
      have hyf : p y = false := by simpa using hy
      rw [List.eraseP_cons_of_neg (by simp [hyf])] at hx
      simp only [List.filter_cons, hyf, Bool.false_eq_true, if_false] at h
      rcases List.mem_cons.mp hx with hxy | hxys
      · rw [hxy]; exact hyf
      · exact ih h x hxys

/-- A verify call for an id that no pending withdrawal of the user carries. -/
theorem verifyWithdrawal_not_pending (rt : Runtime) (clk : Clock) (db : Database)
    (firebaseUid w adminUid : String) (user : User)
    (hadmin : adminUid ≠ "")
    (huser : findUserByUid db firebaseUid = some user)
    (hnone : ∀ x ∈ user.pendingWithdrawals, x.id ≠ w) :
    verifyWithdrawal rt clk db firebaseUid w (some adminUid) =
      (db, { code := 404, message := "Pending withdrawal not found" }) := by
  have hidx : findIndex (fun x : Withdrawal => decide (x.id = w)) user.pendingWithdrawals =
      none := findIndex_eq_none _ _ (fun x hx => by simpa using hnone x hx)
  simp only [verifyWithdrawal, truthy_some hadmin, huser, hidx, Bool.not_true,
    Bool.false_eq_true, if_false]

/-- The store after an accepted verify call. -/
theorem verifyWithdrawal_accepted (rt : Runtime) (clk : Clock) (db : Database)
    (firebaseUid w adminUid : String) (user : User) (i j : Nat)
    (hadmin : adminUid ≠ "")
    (huser : findUserByUid db firebaseUid = some user)
    (hpending : findIndex (fun x : Withdrawal => decide (x.id = w)) user.pendingWithdrawals =
      some i)
    (hmain : findIndex (fun x : Withdrawal => decide (x.id = w)) user.withdrawals = some j) :
    ∃ (pending : Withdrawal) (saved : User),
      user.pendingWithdrawals.find? (fun x => decide (x.id = w)) = some pending ∧
      (verifyWithdrawal rt clk db firebaseUid w (some adminUid)).2.code = 200 ∧
      (verifyWithdrawal rt clk db firebaseUid w (some adminUid)).1 =
        { db with users := updateFirst (fun u => decide (u.uid = firebaseUid))
                    (fun _ => saved) db.users } ∧
      saved.uid = user.uid ∧ saved.coins = user.coins ∧
      saved.usedReferralCode = user.usedReferralCode ∧
      saved.withdrawals = user.withdrawals ∧ saved.transactions = user.transactions ∧
      saved.pendingWithdrawals = user.pendingWithdrawals.eraseIdx i ∧
      saved.verifiedWithdrawals =
        markVerified (clk 1) adminUid pending :: user.verifiedWithdrawals := by
  obtain ⟨pending, hp1, _, _⟩ := find?_of_findIndex _ _ _ hpending
  obtain ⟨main, hm1, _, _⟩ := find?_of_findIndex _ _ _ hmain
  simp only [verifyWithdrawal, truthy_some hadmin, huser, hpending, hp1, hmain, hm1,
    Option.getD_some, Bool.not_true, Bool.false_eq_true, if_false]
  exact ⟨pending, _, rfl, trivial, rfl, rfl, rfl, rfl, rfl, rfl, rfl, rfl⟩

/-- C11: for every user and every withdrawal id that no entry of the user's
`pendingWithdrawals` carries, a verify call (with an `adminUid`) is answered
404 "Pending withdrawal not found" and leaves the store, hence the user,
unchanged. In particular, after an accepted verify call for an id that only
one pending withdrawal carried, a second verify call for the same id is
answered 404 and changes nothing, so `verifiedWithdrawals` gets no second
entry. -/
theorem verify_not_pending_rejected :
    (∀ (rt : Runtime) (clk : Clock) (db : Database) (firebaseUid w adminUid : String)
        (user : User),
      adminUid ≠ "" → findUserByUid db firebaseUid = some user →
      (∀ x ∈ user.pendingWithdrawals, x.id ≠ w) →
      verifyWithdrawal rt clk db firebaseUid w (some adminUid) =
          (db, { code := 404, message := "Pending withdrawal not found" }) ∧
      findUserByUid (verifyWithdrawal rt clk db firebaseUid w (some adminUid)).1 firebaseUid =
          some user) ∧
    (∀ (rt : Runtime) (clk1 clk2 : Clock) (db : Database)
        (firebaseUid w adminUid1 adminUid2 : String) (user : User) (i j : Nat),
      adminUid1 ≠ "" → adminUid2 ≠ "" → findUserByUid db firebaseUid = some user →
      findIndex (fun x : Withdrawal => decide (x.id = w)) user.pendingWithdrawals = some i →
      findIndex (fun x : Withdrawal => decide (x.id = w)) user.withdrawals = some j →
      (user.pendingWithdrawals.filter (fun x => decide (x.id = w))).length ≤ 1 →
      (verifyWithdrawal rt clk1 db firebaseUid w (some adminUid1)).2.code = 200 ∧
      verifyWithdrawal rt clk2 (verifyWithdrawal rt clk1 db firebaseUid w (some adminUid1)).1
          firebaseUid w (some adminUid2) =
        ((verifyWithdrawal rt clk1 db firebaseUid w (some adminUid1)).1,
         { code := 404, message := "Pending withdrawal not found" })) := by
  constructor
  · intro rt clk db firebaseUid w adminUid user hadmin huser hnone
    rw [verifyWithdrawal_not_pending rt clk db firebaseUid w adminUid user hadmin huser hnone]
    exact ⟨rfl, huser⟩
  · intro rt clk1 clk2 db firebaseUid w adminUid1 adminUid2 user i j hadmin1 hadmin2 huser
      hpending hmain hone
    obtain ⟨pending, saved, _, hcode, hdb, huid, _, _, _, _, hp, _⟩ :=
      verifyWithdrawal_accepted rt clk1 db firebaseUid w adminUid1 user i j hadmin1 huser
        hpending hmain
    refine ⟨hcode, ?_⟩
    rw [hdb]
    have hfind := findUserByUid_save db firebaseUid user saved huser
      (huid.trans (findUserByUid_uid db firebaseUid user huser))
    apply verifyWithdrawal_not_pending rt clk2 _ firebaseUid w adminUid2 saved hadmin2 hfind
    intro x hx
    rw [hp, findIndex_eraseIdx _ _ _ hpending] at hx
    have := eraseP_no_match _ _ hone x hx
    simpa using this

/-- C11, witness: a verify call for an id that the user with no withdrawals
does not have, and two consecutive verify calls for the pending withdrawal of
the example user. -/
theorem verify_not_pending_rejected_witness :
    (verifyWithdrawal exRuntime exClock2 exDbRich "firebase-uid-1" "1700000000000"
          (some "admin-uid-7") =
        (exDbRich, { code := 404, message := "Pending withdrawal not found" }) ∧
      findUserByUid (verifyWithdrawal exRuntime exClock2 exDbRich "firebase-uid-1"
          "1700000000000" (some "admin-uid-7")).1 "firebase-uid-1" = some exRichUser) ∧
    ((verifyWithdrawal exRuntime exClock1 exDbAfterWithdrawal "firebase-uid-1"
          "1700000000000" (some "admin-uid-7")).2.code = 200 ∧
      verifyWithdrawal exRuntime exClock2
          (verifyWithdrawal exRuntime exClock1 exDbAfterWithdrawal "firebase-uid-1"
            "1700000000000" (some "admin-uid-7")).1
          "firebase-uid-1" "1700000000000" (some "admin-uid-8") =
        ((verifyWithdrawal exRuntime exClock1 exDbAfterWithdrawal "firebase-uid-1"
            "1700000000000" (some "admin-uid-7")).1,
         { code := 404, message := "Pending withdrawal not found" })) :=
  ⟨verify_not_pending_rejected.1 exRuntime exClock2 exDbRich "firebase-uid-1" "1700000000000"
      "admin-uid-7" exRichUser (by decide) rfl
      (by intro x hx; simp [exRichUser, exUser] at hx),
   verify_not_pending_rejected.2 exRuntime exClock1 exClock2 exDbAfterWithdrawal
      "firebase-uid-1" "1700000000000" "admin-uid-7" "admin-uid-8" exUserAfterWithdrawal 0 0
      (by decide) (by decide) rfl rfl rfl (by decide)⟩

/-! ## Offer completion -/

theorem contains_eq_false_of_not_mem (xs : List String) (x : String) (h : x ∉ xs) :
    xs.contains x = false := by
  simpa using h

theorem contains_eq_true_of_mem (xs : List String) (x : String) (h : x ∈ xs) :
    xs.contains x = true := by
  simpa using h

theorem not_mem_pull (offerId : String) (xs : List String) : offerId ∉ pull offerId xs := by
  simp [pull]

theorem mem_pull_of_ne (offerId x : String) (xs : List String) (h : x ≠ offerId) :
    x ∈ pull offerId xs ↔ x ∈ xs := by
  simp [pull, h]

/-- A request string that finds an offer is an ObjectId. -/
theorem findOfferById_cast (db : Database) (id : String) (offer : Offer)
    (h : findOfferById db id = some offer) :
    ∃ oid : ObjectId, castObjectId id = some oid ∧
      db.offers.find? (fun o => decide (o._id = oid)) = some offer := by
  unfold findOfferById at h
  cases hc : castObjectId id with
  | none => simp [hc] at h
  | some oid => exact ⟨oid, rfl, by simpa [hc] using h⟩

/-- The complete handler on an active offer that the user has not completed. -/
theorem completeOffer_accepted (rt : Runtime) (clk : Clock) (db : Database)
    (offerId firebaseUid : String) (offerOid : ObjectId) (offer : Offer) (user : User)
    (hcast : castObjectId offerId = some offerOid)
    (hoffer : findOfferById db offerId = some offer) (hactive : offer.isActive = true)
    (huser : findUserByUid db firebaseUid = some user)
    (hnew : offerId ∉ user.completedOffers) :
    completeOffer rt clk db offerId firebaseUid =
      ({ db with
           users := updateFirst (fun u => decide (u.uid = firebaseUid))
             (applyCompletion offerId offer.coins
               { id := toString (clk 0), type := "earn", amount := offer.coins,
                 description := "Completed offer: " ++ offer.title,
                 offerId := some offerId, date := clk 1 }
               { id := toString (clk 2) ++ "_complete",
                 title := "Offer Completed Successfully!",
                 message := "Congratulations! Your offer \"" ++ offer.title ++
                   "\" has been verified and completed. You earned " ++
                   rt.numToString offer.coins ++ " coins!",
                 type := "reward", read := false, timestamp := clk 3 }) db.users,
           offers := updateFirst (fun o => decide (o._id = offerOid))
             (fun o => { o with completedBy := o.completedBy ++ [firebaseUid] })
             db.offers },
       { code := 200, message := "Offer completed successfully",
         coins := some (user.coins + offer.coins),
         transaction := some
           { id := toString (clk 0), type := "earn", amount := offer.coins,
             description := "Completed offer: " ++ offer.title,
             offerId := some offerId, date := clk 1 },
         notification := some
           { id := toString (clk 2) ++ "_complete",
             title := "Offer Completed Successfully!",
             message := "Congratulations! Your offer \"" ++ offer.title ++
               "\" has been verified and completed. You earned " ++
               rt.numToString offer.coins ++ " coins!",
             type := "reward", read := false, timestamp := clk 3 } }) := by
  simp only [completeOffer, hcast, hoffer, hactive, huser,
    contains_eq_false_of_not_mem _ _ hnew, applyCompletion]
  simp

/-- The complete handler for an offer that the user has already completed. -/
theorem completeOffer_repeated (rt : Runtime) (clk : Clock) (db : Database)
    (offerId firebaseUid : String) (user : User)
    (huser : findUserByUid db firebaseUid = some user)
    (hdone : offerId ∈ user.completedOffers) :
    completeOffer rt clk db offerId firebaseUid =
      (db, match castObjectId offerId with
           | none => { code := 500, message := "Server error" }
           | some _ =>
             match findOfferById db offerId with
             | none => { code := 404, message := "Offer not found" }
             | some offer =>
               if offer.isActive = true then
                 { code := 400, message := "Offer already completed" }
               else { code := 400, message := "Offer is not active" }) := by
  cases hcast : castObjectId offerId with
  | none => simp [completeOffer, hcast]
  | some offerOid =>
    cases hoffer : findOfferById db offerId with
    | none => simp [completeOffer, hcast, hoffer]
    | some offer =>
      cases hactive : offer.isActive with
      | false => simp [completeOffer, hcast, hoffer, hactive]
      | true =>
        simp [completeOffer, hcast, hoffer, hactive, huser, hdone]

theorem findUserByUid_applyCompletion (db : Database) (firebaseUid offerId : String) (c : ℚ)
    (t : Transaction) (n : Notification) (offers : List Offer) :
    findUserByUid
        { db with users := updateFirst (fun u => decide (u.uid = firebaseUid))
                    (applyCompletion offerId c t n) db.users,
                  offers := offers }
        firebaseUid =
      (findUserByUid db firebaseUid).map (applyCompletion offerId c t n) := by
  unfold findUserByUid
  exact find?_updateFirst _ _ (fun x hx => by simpa [applyCompletion] using hx) db.users

/-- C15: for every existing user, active offer `o` with coin value `c` and `o`
not in the user's `completedOffers`, the complete call is answered 200; it
increases the balance by exactly `c`, appends `o` to `completedOffers`, removes
`o` from `pendingOffers` and `rejectedOffers` (and nothing else from them),
puts one `earn` transaction with amount `c` and `offerId` `o` at the front of
the transaction log and one notification at the front of the notification
list; the returned `coins` is the new balance. -/
theorem completeOffer_effects (rt : Runtime) (clk : Clock) (db : Database)
    (offerId firebaseUid : String) (offer : Offer) (user : User)
    (hoffer : findOfferById db offerId = some offer) (hactive : offer.isActive = true)
    (huser : findUserByUid db firebaseUid = some user)
    (hnew : offerId ∉ user.completedOffers) :
    ∃ (updated : User) (t : Transaction) (n : Notification),
      (completeOffer rt clk db offerId firebaseUid).2.code = 200 ∧
      findUserByUid (completeOffer rt clk db offerId firebaseUid).1 firebaseUid = some updated ∧
      updated.coins = user.coins + offer.coins ∧
      (completeOffer rt clk db offerId firebaseUid).2.coins = some updated.coins ∧
      updated.completedOffers = user.completedOffers ++ [offerId] ∧
      updated.pendingOffers = user.pendingOffers.filter (fun x => decide (x ≠ offerId)) ∧
      updated.rejectedOffers = user.rejectedOffers.filter (fun x => decide (x ≠ offerId)) ∧
      offerId ∉ updated.pendingOffers ∧ offerId ∉ updated.rejectedOffers ∧
      updated.transactions = t :: user.transactions ∧
      t.type = "earn" ∧ t.amount = offer.coins ∧ t.offerId = some offerId ∧
      (completeOffer rt clk db offerId firebaseUid).2.transaction = some t ∧
      updated.notifications = n :: user.notifications := by
  obtain ⟨offerOid, hcast, _⟩ := findOfferById_cast db offerId offer hoffer
  rw [completeOffer_accepted rt clk db offerId firebaseUid offerOid offer user hcast hoffer
    hactive huser hnew]
  rw [findUserByUid_applyCompletion, huser]
  exact ⟨_, _, _, rfl, rfl, rfl, rfl, rfl, rfl, rfl, not_mem_pull _ _, not_mem_pull _ _,
    rfl, rfl, rfl, rfl, rfl, rfl⟩

/-- C15, witness: the fresh example user completes the example offer, worth 100
coins. -/
theorem completeOffer_effects_witness :
    (findUserByUid (completeOffer exRuntime exClock1 exDb "64b7f1c2a3d4e5f607182931"
        "firebase-uid-1").1 "firebase-uid-1").map
      (fun u => (u.completedOffers, u.transactions.map (fun t => t.type),
        u.notifications.length)) =
      some (["64b7f1c2a3d4e5f607182931"], ["earn"], 1) ∧
    ∃ (updated : User) (t : Transaction) (n : Notification),
      (completeOffer exRuntime exClock1 exDb "64b7f1c2a3d4e5f607182931"
        "firebase-uid-1").2.code = 200 ∧
      findUserByUid (completeOffer exRuntime exClock1 exDb "64b7f1c2a3d4e5f607182931"
        "firebase-uid-1").1 "firebase-uid-1" = some updated ∧
      updated.coins = exUser.coins + exOffer.coins ∧
      (completeOffer exRuntime exClock1 exDb "64b7f1c2a3d4e5f607182931"
        "firebase-uid-1").2.coins = some updated.coins ∧
      updated.completedOffers = exUser.completedOffers ++ ["64b7f1c2a3d4e5f607182931"] ∧
      updated.pendingOffers = exUser.pendingOffers.filter
        (fun x => decide (x ≠ "64b7f1c2a3d4e5f607182931")) ∧
      updated.rejectedOffers = exUser.rejectedOffers.filter
        (fun x => decide (x ≠ "64b7f1c2a3d4e5f607182931")) ∧
      "64b7f1c2a3d4e5f607182931" ∉ updated.pendingOffers ∧
      "64b7f1c2a3d4e5f607182931" ∉ updated.rejectedOffers ∧
      updated.transactions = t :: exUser.transactions ∧
      t.type = "earn" ∧ t.amount = exOffer.coins ∧
      t.offerId = some "64b7f1c2a3d4e5f607182931" ∧
      (completeOffer exRuntime exClock1 exDb "64b7f1c2a3d4e5f607182931"
        "firebase-uid-1").2.transaction = some t ∧
      updated.notifications = n :: exUser.notifications :=
  ⟨by rfl,
   completeOffer_effects exRuntime exClock1 exDb "64b7f1c2a3d4e5f607182931" "firebase-uid-1"
     exOffer exUser rfl rfl rfl (by simp [exUser])⟩

/-- The first complete call of the fresh example user for the example offer. -/
theorem completeOffer_example_first :
    completeOffer exRuntime exClock1 exDb "64b7f1c2a3d4e5f607182931" "firebase-uid-1" =
      ({ users := [exUserCompletedOnce], offers := [exOfferCompletedOnce] },
       { code := 200, message := "Offer completed successfully", coins := some 100,
         transaction := some exCompletionTransaction,
         notification := some exCompletionNotification }) := by
  rw [completeOffer_accepted exRuntime exClock1 exDb "64b7f1c2a3d4e5f607182931"
    "firebase-uid-1" "64b7f1c2a3d4e5f607182931" exOffer exUser rfl rfl rfl rfl
    (by simp [exUser])]
  have hts : toString (exClock1 0) = "1700000000000" := by rfl
  have hts2 : toString (exClock1 2) = "1700000000000" := by rfl
  have hnum : exRuntime.numToString exOffer.coins = "100" := by rfl
  rw [hts, hts2, hnum]
  norm_num [exDb, updateFirst, applyCompletion, exUser, exOffer, exUserCompletedOnce,
    exOfferCompletedOnce, exCompletionTransaction, exCompletionNotification, pull, exClock1]
  repeat' constructor

/-- C14 (the code at the failing input): the fresh example user completes the
active example offer, worth 100 coins, under the id `64b7f1c2a3d4e5f607182931`:
the call is answered 200 and the balance is 100. The same user then completes
the same offer under the id `64B7F1C2A3D4E5F607182931`, which casts to the same
ObjectId and finds the same offer, while `completedOffers` holds the first
string only: the call is answered 200 again, the balance is 200,
`completedOffers` holds both strings, the log holds two `earn` transactions of
100 and the offer lists the user twice in `completedBy`. -/
theorem completeOffer_second_spelling_credits_again :
    castObjectId "64B7F1C2A3D4E5F607182931" = some "64b7f1c2a3d4e5f607182931" ∧
    findOfferById exDb "64b7f1c2a3d4e5f607182931" = some exOffer ∧
    findOfferById exDb "64B7F1C2A3D4E5F607182931" = some exOffer ∧
    exOffer.isActive = true ∧ exOffer.coins = 100 ∧ exUser.coins = 0 ∧
    (completeOffer exRuntime exClock1 exDb "64b7f1c2a3d4e5f607182931"
      "firebase-uid-1").2.code = 200 ∧
    (completeOffer exRuntime exClock1 exDb "64b7f1c2a3d4e5f607182931"
      "firebase-uid-1").2.coins = some 100 ∧
    (completeOffer exRuntime exClock2
      (completeOffer exRuntime exClock1 exDb "64b7f1c2a3d4e5f607182931" "firebase-uid-1").1
      "64B7F1C2A3D4E5F607182931" "firebase-uid-1").2.code = 200 ∧
    (completeOffer exRuntime exClock2
      (completeOffer exRuntime exClock1 exDb "64b7f1c2a3d4e5f607182931" "firebase-uid-1").1
      "64B7F1C2A3D4E5F607182931" "firebase-uid-1").2.coins = some 200 ∧
    (findUserByUid (completeOffer exRuntime exClock2
      (completeOffer exRuntime exClock1 exDb "64b7f1c2a3d4e5f607182931" "firebase-uid-1").1
      "64B7F1C2A3D4E5F607182931" "firebase-uid-1").1 "firebase-uid-1").map
        (fun u => (u.coins, u.completedOffers, u.transactions.map (fun t => (t.type, t.amount))))
      = some (200, ["64b7f1c2a3d4e5f607182931", "64B7F1C2A3D4E5F607182931"],
          [("earn", 100), ("earn", 100)]) ∧
    (findOfferById (completeOffer exRuntime exClock2
      (completeOffer exRuntime exClock1 exDb "64b7f1c2a3d4e5f607182931" "firebase-uid-1").1
      "64B7F1C2A3D4E5F607182931" "firebase-uid-1").1 "64b7f1c2a3d4e5f607182931").map
        (fun o => o.completedBy) = some ["firebase-uid-1", "firebase-uid-1"] := by
  have h1 := completeOffer_example_first
  have h2 := completeOffer_accepted exRuntime exClock2
    { users := [exUserCompletedOnce], offers := [exOfferCompletedOnce] }
    "64B7F1C2A3D4E5F607182931" "firebase-uid-1" "64b7f1c2a3d4e5f607182931"
    exOfferCompletedOnce exUserCompletedOnce rfl rfl rfl rfl
    (by simp [exUserCompletedOnce])
  rw [h1, h2]
  refine ⟨rfl, rfl, rfl, rfl, rfl, rfl, rfl, rfl, rfl, ?_, ?_, ?_⟩
  · norm_num [exUserCompletedOnce, exOfferCompletedOnce, exOffer]
  · norm_num [findUserByUid, updateFirst, applyCompletion, exUserCompletedOnce,
      exOfferCompletedOnce, exOffer, exUser, exCompletionTransaction]
  · rfl

/-! ## Clicks on inactive offers -/

/-- C19 (the code at the failing input): the offer of the store `exDbInactive`
exists and has `isActive` false; the create call of the existing example user
for it is answered 201 and the click is persisted. -/
theorem createClick_inactive_offer_accepted :
    findUserById exDbInactive "64b7f1c2a3d4e5f607182930" = some exUser ∧
    findOfferById exDbInactive "64b7f1c2a3d4e5f607182931" = some exInactiveOffer ∧
    exInactiveOffer.isActive = false ∧ exDbInactive.clicks = [] ∧
    (createClick exRuntime exClock1 exDbInactive exCreate).2.code = 201 ∧
    (createClick exRuntime exClock1 exDbInactive exCreate).2.success = true ∧
    (createClick exRuntime exClock1 exDbInactive exCreate).1.clicks = [exCreatedClick] := by
  exact ⟨rfl, rfl, rfl, rfl, rfl, rfl, rfl⟩

/-! ## Offer lists -/

/-- C13 (the code at the failing input): the fresh example user has three
empty offer lists; after a reject call and then a mark-pending call for the
example offer, both answered 200, the offer id is in `pendingOffers` and in
`rejectedOffers` at once. -/
theorem pending_after_reject_breaks_exclusivity :
    OfferListsExclusive exUser ∧
    (rejectOffer exClock1 exDb "64b7f1c2a3d4e5f607182931" "firebase-uid-1" none).2.code = 200 ∧
    (markOfferPending exClock2
      (rejectOffer exClock1 exDb "64b7f1c2a3d4e5f607182931" "firebase-uid-1" none).1
      "64b7f1c2a3d4e5f607182931" "firebase-uid-1").2.code = 200 ∧
    (findUserByUid (markOfferPending exClock2
      (rejectOffer exClock1 exDb "64b7f1c2a3d4e5f607182931" "firebase-uid-1" none).1
      "64b7f1c2a3d4e5f607182931" "firebase-uid-1").1 "firebase-uid-1").map
        (fun u => (u.completedOffers, u.pendingOffers, u.rejectedOffers)) =
      some ([], ["64b7f1c2a3d4e5f607182931"], ["64b7f1c2a3d4e5f607182931"]) ∧
    ∃ u : User,
      findUserByUid (markOfferPending exClock2
        (rejectOffer exClock1 exDb "64b7f1c2a3d4e5f607182931" "firebase-uid-1" none).1
        "64b7f1c2a3d4e5f607182931" "firebase-uid-1").1 "firebase-uid-1" = some u ∧
      ¬ OfferListsExclusive u := by
  refine ⟨?_, rfl, rfl, rfl, ?_⟩
  · intro offerId
    simp [exUser]
  · refine ⟨_, rfl, ?_⟩
    intro h
    exact (h "64b7f1c2a3d4e5f607182931").2.2 ⟨by simp, by simp⟩

/-! ## Referrals -/

theorem find?_updateFirst_of_ne {α : Type} (p q : α → Bool) (g : α → α) (a r : α)
    (hg : q (g a) = q a) (hne : a ≠ r) (l : List α)
    (ha : l.find? p = some a) (hr : l.find? q = some r) :
    (updateFirst p g l).find? q = some r := by
  induction l with
  | nil => simp at ha
  | cons x xs ih =>
    by_cases hp : p x = true
    · have hax : x = a := by simpa [List.find?, hp] using ha
      subst hax
      by_cases hq : q x = true
      · have : x = r := by simpa [List.find?, hq] using hr
        exact absurd this hne
      · have hq2 : q (g x) = false := by rw [hg]; simpa using hq
        have hr2 : xs.find? q = some r := by simpa [List.find?, hq] using hr
        simp [updateFirst, hp, List.find?, hq2, hr2]
    · have ha2 : xs.find? p = some a := by simpa [List.find?, hp] using ha
      by_cases hq : q x = true
      · have hxr : x = r := by simpa [List.find?, hq] using hr
        subst hxr
        simp [updateFirst, hp, List.find?, hq]
      · have hr2 : xs.find? q = some r := by simpa [List.find?, hq] using hr
        simp [updateFirst, hp, List.find?, hq, ih ha2 hr2]

theorem updateFirst_const {α : Type} (q : α → Bool) (g : α → α) (r : α) (l : List α)
    (hr : l.find? q = some r) :
    updateFirst q (fun _ => g r) l = updateFirst q g l := by
  induction l with
  | nil => rfl
  | cons x xs ih =>
    by_cases hq : q x = true
    · have hxr : x = r := by simpa [List.find?, hq] using hr
      subst hxr
      simp [updateFirst, hq]
    · have hr2 : xs.find? q = some r := by simpa [List.find?, hq] using hr
      simp [updateFirst, hq, ih hr2]

theorem find?_updateFirst_rel {α : Type} (p q : α → Bool) (g : α → α)
    (hg : ∀ x, p (g x) = p x) (l : List α) :
    (updateFirst q g l).find? p = l.find? p ∨
      (updateFirst q g l).find? p = (l.find? p).map g := by
  induction l with
  | nil => exact Or.inl rfl
  | cons x xs ih =>
    by_cases hq : q x = true
    · by_cases hp : p x = true
      · right
        simp [updateFirst, hq, List.find?, hp, hg]
      · left
        have hp2 : p (g x) = false := by rw [hg]; simpa using hp
        simp [updateFirst, hq, List.find?, hp, hp2]
    · by_cases hp : p x = true
      · left
        simp [updateFirst, hq, List.find?, hp]
      · rcases ih with h | h
        · left
          simp [updateFirst, hq, List.find?, hp, h]
        · right
          simp [updateFirst, hq, List.find?, hp, h]

theorem findUserByReferralCode_code (db : Database) (code : String) (user : User)
    (h : findUserByReferralCode db code = some user) : user.referralCode = code := by
  have := List.find?_some h
  simpa using this

/-- Every answer of the apply-referral handler other than 200 leaves the store
as it was. -/
theorem applyReferral_rejected (clk : Clock) (db : Database) (firebaseUid : String)
    (referralCode : Option String)
    (h : (applyReferral clk db firebaseUid referralCode).2.code ≠ 200) :
    (applyReferral clk db firebaseUid referralCode).1 = db := by
  cases referralCode with
  | none => simp [applyReferral, truthy]
  | some code =>
    by_cases hcode : code = ""
    · simp [applyReferral, truthy, hcode]
    · have htruthy : truthy (some code) = true := truthy_some hcode
      cases hcur : findUserByUid db firebaseUid with
      | none => simp [applyReferral, htruthy, hcur]
      | some currentUser =>
        cases hrefu : findUserByReferralCode db code with
        | none => simp [applyReferral, htruthy, hcur, hrefu]
        | some referralUser =>
          by_cases hself : currentUser._id = referralUser._id
          · simp [applyReferral, htruthy, hcur, hrefu, hself]
          · cases hused : truthy currentUser.usedReferralCode with
            | true => simp [applyReferral, htruthy, hcur, hrefu, hself, hused]
            | false => simp [applyReferral, htruthy, hcur, hrefu, hself, hused] at h

/-- The accepted case of the apply-referral handler: what is known of the
request, and the store written, with the two saves as rewrites by the two
lookup keys. -/
theorem applyReferral_accepted (clk : Clock) (db : Database) (firebaseUid : String)
    (referralCode : Option String)
    (h : (applyReferral clk db firebaseUid referralCode).2.code = 200) :
    ∃ (code : String) (currentUser referralUser : User),
      referralCode = some code ∧ code ≠ "" ∧
      findUserByUid db firebaseUid = some currentUser ∧
      findUserByReferralCode db code = some referralUser ∧
      currentUser._id ≠ referralUser._id ∧
      truthy currentUser.usedReferralCode = false ∧
      applyReferral clk db firebaseUid referralCode =
        ({ db with
             users := updateFirst (fun u => decide (u.referralCode = code))
               (referralReferrer clk currentUser)
               (updateFirst (fun u => decide (u.uid = firebaseUid))
                 (referralApplier clk code referralUser) db.users) },
         { code := 200, message := "Referral code applied successfully!",
           bonus := some 0, referrerBonus := some REFERRAL_BONUS,
           user := some (referralApplier clk code referralUser currentUser) }) := by
  cases referralCode with
  | none => simp [applyReferral, truthy] at h
  | some code =>
    by_cases hcode : code = ""
    · simp [applyReferral, truthy, hcode] at h
    · have htruthy : truthy (some code) = true := truthy_some hcode
      cases hcur : findUserByUid db firebaseUid with
      | none => simp [applyReferral, htruthy, hcur] at h
      | some currentUser =>
        cases hrefu : findUserByReferralCode db code with
        | none => simp [applyReferral, htruthy, hcur, hrefu] at h
        | some referralUser =>
          by_cases hself : currentUser._id = referralUser._id
          · simp [applyReferral, htruthy, hcur, hrefu, hself] at h
          · cases hused : truthy currentUser.usedReferralCode with
            | true => simp [applyReferral, htruthy, hcur, hrefu, hself, hused] at h
            | false =>
              refine ⟨code, currentUser, referralUser, rfl, hcode, rfl, hrefu, hself, hused, ?_⟩
              have hne : currentUser ≠ referralUser := fun e => hself (by rw [e])
              have hrc := findUserByReferralCode_code db code referralUser hrefu
              have h1 : updateFirst (fun u => decide (u.uid = firebaseUid))
                  (fun _ => referralApplier clk code referralUser currentUser) db.users =
                  updateFirst (fun u => decide (u.uid = firebaseUid))
                    (referralApplier clk code referralUser) db.users :=
                updateFirst_const _ (referralApplier clk code referralUser) currentUser
                  db.users hcur
              have h2 : (updateFirst (fun u => decide (u.uid = firebaseUid))
                  (referralApplier clk code referralUser) db.users).find?
                    (fun u => decide (u.referralCode = code)) = some referralUser :=
                find?_updateFirst_of_ne _ _ _ currentUser referralUser rfl hne db.users
                  hcur hrefu
              have h3 := updateFirst_const (fun u : User => decide (u.referralCode = code))
                (referralReferrer clk currentUser) referralUser _ h2
              simp only [applyReferral, htruthy, hcur, hrefu, hself, hused, Bool.not_true,
                Bool.false_eq_true, if_false, Option.getD_some, h1, h3]

/-- The two users as found after an accepted application. -/
theorem applyReferral_finds (clk : Clock) (db : Database) (firebaseUid code : String)
    (currentUser referralUser : User)
    (hcur : findUserByUid db firebaseUid = some currentUser)
    (hrefu : findUserByReferralCode db code = some referralUser)
    (hself : currentUser._id ≠ referralUser._id) (users : List User)
    (husers : users = updateFirst (fun u => decide (u.referralCode = code))
      (referralReferrer clk currentUser)
      (updateFirst (fun u => decide (u.uid = firebaseUid))
        (referralApplier clk code referralUser) db.users)) :
    findUserByUid { db with users := users } firebaseUid =
        some (referralApplier clk code referralUser currentUser) ∧
      findUserByReferralCode { db with users := users } code =
        some (referralReferrer clk currentUser referralUser) := by
  subst husers
  have hne : currentUser ≠ referralUser := fun e => hself (by rw [e])
  have h2 : (updateFirst (fun u => decide (u.uid = firebaseUid))
      (referralApplier clk code referralUser) db.users).find?
        (fun u => decide (u.referralCode = code)) = some referralUser :=
    find?_updateFirst_of_ne _ _ _ currentUser referralUser rfl hne db.users hcur hrefu
  have h1 : (updateFirst (fun u => decide (u.uid = firebaseUid))
      (referralApplier clk code referralUser) db.users).find?
        (fun u => decide (u.uid = firebaseUid)) =
        some (referralApplier clk code referralUser currentUser) := by
    have := find?_updateFirst (fun u : User => decide (u.uid = firebaseUid))
      (referralApplier clk code referralUser) (fun x hx => by simpa [referralApplier] using hx)
      db.users
    rw [this]
    unfold findUserByUid at hcur
    rw [hcur]
    rfl
  constructor
  · unfold findUserByUid
    exact find?_updateFirst_of_ne (fun u : User => decide (u.referralCode = code))
      (fun u : User => decide (u.uid = firebaseUid)) (referralReferrer clk currentUser)
      referralUser (referralApplier clk code referralUser currentUser) rfl
      (fun e => hself (by rw [e]; rfl)) _ h2 h1
  · unfold findUserByReferralCode
    have := find?_updateFirst (fun u : User => decide (u.referralCode = code))
      (referralReferrer clk currentUser) (fun x hx => by simpa [referralReferrer] using hx)
      (updateFirst (fun u => decide (u.uid = firebaseUid))
        (referralApplier clk code referralUser) db.users)
    rw [this, h2]
    rfl

/-- C16: for every user `u` of the store, found by `uid` and identified by the
own referral code (the index on `referralCode` is unique), the apply-referral
call of `u` with that code is answered 400 and leaves the whole store
unchanged, so `u` is found as before, with the same balance, used code,
referrer, referral count, referrals, referral history, transactions and
notifications; with a non-empty code the message is "You cannot use your own
referral code". -/
theorem self_referral_rejected (clk : Clock) (db : Database) (firebaseUid : String)
    (u : User)
    (huser : findUserByUid db firebaseUid = some u)
    (hown : findUserByReferralCode db u.referralCode = some u) :
    (applyReferral clk db firebaseUid (some u.referralCode)).1 = db ∧
    (applyReferral clk db firebaseUid (some u.referralCode)).2.code = 400 ∧
    findUserByUid (applyReferral clk db firebaseUid (some u.referralCode)).1 firebaseUid =
      some u ∧
    (u.referralCode ≠ "" →
      (applyReferral clk db firebaseUid (some u.referralCode)).2 =
        { code := 400, message := "You cannot use your own referral code" }) := by
  by_cases hcode : u.referralCode = ""
  · have hfalse : truthy (some u.referralCode) = false := by rw [hcode]; rfl
    have : applyReferral clk db firebaseUid (some u.referralCode) =
        (db, { code := 400, message := "Referral code is required" }) := by
      simp [applyReferral, hfalse]
    rw [this]
    exact ⟨rfl, rfl, huser, fun h => absurd hcode h⟩
  · have htruthy : truthy (some u.referralCode) = true := truthy_some hcode
    have : applyReferral clk db firebaseUid (some u.referralCode) =
        (db, { code := 400, message := "You cannot use your own referral code" }) := by
      simp [applyReferral, htruthy, huser, hown]
    rw [this]
    exact ⟨rfl, rfl, huser, fun _ => rfl⟩

/-- C16, witness: the example user applies the own code `ASH4K2Q000`. -/
theorem self_referral_rejected_witness :
    (applyReferral exClock1 exDbTwoUsers "firebase-uid-1" (some exUser.referralCode)).1 =
      exDbTwoUsers ∧
    (applyReferral exClock1 exDbTwoUsers "firebase-uid-1" (some exUser.referralCode)).2.code =
      400 ∧
    findUserByUid
        (applyReferral exClock1 exDbTwoUsers "firebase-uid-1" (some exUser.referralCode)).1
        "firebase-uid-1" = some exUser ∧
    (exUser.referralCode ≠ "" →
      (applyReferral exClock1 exDbTwoUsers "firebase-uid-1" (some exUser.referralCode)).2 =
        { code := 400, message := "You cannot use your own referral code" }) :=
  self_referral_rejected exClock1 exDbTwoUsers "firebase-uid-1" exUser rfl rfl

/-- C18: every successful application (answer 200) is made with a non-empty
code `c` by an applier `a`, found by `uid`, with no used code, of a referrer
`r`, found by `c`, other than `a`; afterwards the referrer found by `c` has
the balance of `r` plus 500, the referral count of `r` plus 1, the referral
history of `r` with one entry of `coinsEarned` 500 appended (it carries the
email of `a` and no `user` reference) and the referrals of `r` with `a`
appended, and the applier found by `uid` has the
balance of `a` and the transactions of `a` with one `referral_applied`
transaction of amount 0 put in front. -/
theorem referral_credits_referrer_only (clk : Clock) (db : Database) (firebaseUid : String)
    (referralCode : Option String)
    (h : (applyReferral clk db firebaseUid referralCode).2.code = 200) :
    ∃ (c : String) (a r a2 r2 : User) (entry : ReferralEntry) (t : Transaction),
      referralCode = some c ∧
      findUserByUid db firebaseUid = some a ∧ findUserByReferralCode db c = some r ∧
      a._id ≠ r._id ∧ truthy a.usedReferralCode = false ∧
      findUserByReferralCode (applyReferral clk db firebaseUid referralCode).1 c = some r2 ∧
      findUserByUid (applyReferral clk db firebaseUid referralCode).1 firebaseUid = some a2 ∧
      r2._id = r._id ∧ r2.coins = r.coins + 500 ∧ r2.referralCount = r.referralCount + 1 ∧
      r2.referralHistory = r.referralHistory ++ [entry] ∧
      entry.coinsEarned = 500 ∧ entry.email = a.email ∧ entry.user = none ∧
      r2.referrals = r.referrals ++ [a._id] ∧
      a2._id = a._id ∧ a2.coins = a.coins ∧
      a2.transactions = t :: a.transactions ∧ t.type = "referral_applied" ∧ t.amount = 0 := by
  obtain ⟨c, a, r, hc, _, ha, hr, hself, hused, heq⟩ :=
    applyReferral_accepted clk db firebaseUid referralCode h
  have hf := applyReferral_finds clk db firebaseUid c a r ha hr hself _ rfl
  rw [heq]
  exact ⟨c, a, r, _, _, _, _, hc, ha, hr, hself, hused, hf.2, hf.1, rfl, rfl, rfl, rfl, rfl,
    rfl, rfl, rfl, rfl, rfl, rfl, rfl, rfl⟩

/-- C18, witness: the example user applies the code of the second user. -/
theorem referral_credits_referrer_only_witness :
    ∃ (c : String) (a r a2 r2 : User) (entry : ReferralEntry) (t : Transaction),
      some "RAV7T1M314" = some c ∧
      findUserByUid exDbTwoUsers "firebase-uid-1" = some a ∧
      findUserByReferralCode exDbTwoUsers c = some r ∧
      a._id ≠ r._id ∧ truthy a.usedReferralCode = false ∧
      findUserByReferralCode
        (applyReferral exClock1 exDbTwoUsers "firebase-uid-1" (some "RAV7T1M314")).1 c =
          some r2 ∧
      findUserByUid
        (applyReferral exClock1 exDbTwoUsers "firebase-uid-1" (some "RAV7T1M314")).1
          "firebase-uid-1" = some a2 ∧
      r2._id = r._id ∧ r2.coins = r.coins + 500 ∧ r2.referralCount = r.referralCount + 1 ∧
      r2.referralHistory = r.referralHistory ++ [entry] ∧
      entry.coinsEarned = 500 ∧ entry.email = a.email ∧ entry.user = none ∧
      r2.referrals = r.referrals ++ [a._id] ∧
      a2._id = a._id ∧ a2.coins = a.coins ∧
      a2.transactions = t :: a.transactions ∧ t.type = "referral_applied" ∧ t.amount = 0 :=
  referral_credits_referrer_only exClock1 exDbTwoUsers "firebase-uid-1" (some "RAV7T1M314")
    rfl

/-- A rewrite of one user document that keeps `uid` and keeps a used referral
code in place leaves the user found by `uid` with a used referral code. -/
theorem used_code_updateFirst (firebaseUid : String) (q : User → Bool) (g : User → User)
    (huid : ∀ x, (g x).uid = x.uid)
    (hused : ∀ x, truthy x.usedReferralCode = true → truthy (g x).usedReferralCode = true)
    (l : List User)
    (h : ∃ u, l.find? (fun u => decide (u.uid = firebaseUid)) = some u ∧
      truthy u.usedReferralCode = true) :
    ∃ u, (updateFirst q g l).find? (fun u => decide (u.uid = firebaseUid)) = some u ∧
      truthy u.usedReferralCode = true := by
  obtain ⟨u, hu, ht⟩ := h
  rcases find?_updateFirst_rel (fun u : User => decide (u.uid = firebaseUid)) q g
    (fun x => by simp [huid x]) l with h1 | h1
  · exact ⟨u, by rw [h1, hu], ht⟩
  · exact ⟨g u, by rw [h1, hu]; rfl, hused u ht⟩

/-- A user with a used referral code keeps one through every apply-referral
call, whoever makes it. -/
theorem used_code_kept (clk : Clock) (db : Database) (caller firebaseUid : String)
    (referralCode : Option String)
    (h : ∃ u, findUserByUid db firebaseUid = some u ∧ truthy u.usedReferralCode = true) :
    ∃ u, findUserByUid (applyReferral clk db caller referralCode).1 firebaseUid = some u ∧
      truthy u.usedReferralCode = true := by
  by_cases hcode : (applyReferral clk db caller referralCode).2.code = 200
  · obtain ⟨c, a, r, _, hc, _, _, _, _, heq⟩ :=
      applyReferral_accepted clk db caller referralCode hcode
    rw [heq]
    unfold findUserByUid at h ⊢
    exact used_code_updateFirst firebaseUid _ (referralReferrer clk a) (fun _ => rfl)
      (fun _ hx => hx) _
      (used_code_updateFirst firebaseUid _ (referralApplier clk c r) (fun _ => rfl)
        (fun _ _ => truthy_some hc) db.users h)
  · rw [applyReferral_rejected clk db caller referralCode hcode]
    exact h

/-- A user with a used referral code is refused by the handler. -/
theorem applyReferral_used (clk : Clock) (db : Database) (firebaseUid : String)
    (referralCode : Option String) (u : User)
    (hu : findUserByUid db firebaseUid = some u)
    (hused : truthy u.usedReferralCode = true) :
    (applyReferral clk db firebaseUid referralCode).2.code = 400 ∨
      (applyReferral clk db firebaseUid referralCode).2.code = 404 := by
  cases referralCode with
  | none => simp [applyReferral, truthy]
  | some code =>
    by_cases hcode : code = ""
    · simp [applyReferral, truthy, hcode]
    · have htruthy : truthy (some code) = true := truthy_some hcode
      cases hrefu : findUserByReferralCode db code with
      | none => simp [applyReferral, htruthy, hu, hrefu]
      | some referralUser =>
        by_cases hself : u._id = referralUser._id
        · simp [applyReferral, htruthy, hu, hrefu, hself]
        · simp [applyReferral, htruthy, hu, hrefu, hself, hused]

theorem referralSuccesses_of_used (firebaseUid : String) (calls : List ReferralCall) :
    ∀ db : Database,
      (∃ u, findUserByUid db firebaseUid = some u ∧ truthy u.usedReferralCode = true) →
      referralSuccesses firebaseUid db calls = 0 := by
  induction calls with
  | nil => intro db _; rfl
  | cons call calls ih =>
    intro db h
    obtain ⟨u, hu, ht⟩ := h
    have hrest := ih _ (used_code_kept call.clk db call.firebaseUid firebaseUid
      call.referralCode ⟨u, hu, ht⟩)
    have hfirst : ¬ (call.firebaseUid = firebaseUid ∧
        (applyReferral call.clk db call.firebaseUid call.referralCode).2.code = 200) := by
      rintro ⟨hcaller, h200⟩
      rw [hcaller] at h200
      rcases applyReferral_used call.clk db firebaseUid call.referralCode u hu ht with h4 | h4
      · rw [h4] at h200; exact absurd h200 (by decide)
      · rw [h4] at h200; exact absurd h200 (by decide)
    simp only [referralSuccesses, hfirst, if_false, hrest]

theorem referralSuccesses_le_one (firebaseUid : String) (calls : List ReferralCall) :
    ∀ db : Database, referralSuccesses firebaseUid db calls ≤ 1 := by
  induction calls with
  | nil => intro db; simp [referralSuccesses]
  | cons call calls ih =>
    intro db
    by_cases hfirst : call.firebaseUid = firebaseUid ∧
        (applyReferral call.clk db call.firebaseUid call.referralCode).2.code = 200
    · obtain ⟨hcaller, h200⟩ := hfirst
      obtain ⟨c, a, r, _, hc, ha, hr, hself, _, heq⟩ :=
        applyReferral_accepted call.clk db call.firebaseUid call.referralCode h200
      have hf := applyReferral_finds call.clk db call.firebaseUid c a r ha hr hself _ rfl
      have hrest := referralSuccesses_of_used firebaseUid calls
        (applyReferral call.clk db call.firebaseUid call.referralCode).1
        ⟨referralApplier call.clk c r a, by rw [heq, ← hcaller]; exact hf.1, truthy_some hc⟩
      simp only [referralSuccesses]
      rw [if_pos ⟨hcaller, h200⟩, hrest]
    · have := ih (applyReferral call.clk db call.firebaseUid call.referralCode).1
      simp only [referralSuccesses, hfirst, if_false]
      omega

/-- C17: for every user whose `usedReferralCode` is set (a non-empty string),
every further apply-referral call of that user, with any code or none, is
answered 400 or 404 and leaves the whole store, hence that user and every
referrer, unchanged; every successful application is made with a non-empty
code and stores it as the caller's `usedReferralCode`; so in any sequence of
apply-referral calls, whoever makes them, at most one call of a given user
succeeds. -/
theorem referral_applied_at_most_once :
    (∀ (clk : Clock) (db : Database) (firebaseUid : String) (referralCode : Option String)
        (u : User),
      findUserByUid db firebaseUid = some u → truthy u.usedReferralCode = true →
      (applyReferral clk db firebaseUid referralCode).1 = db ∧
      ((applyReferral clk db firebaseUid referralCode).2.code = 400 ∨
        (applyReferral clk db firebaseUid referralCode).2.code = 404)) ∧
    (∀ (clk : Clock) (db : Database) (firebaseUid : String) (referralCode : Option String),
      (applyReferral clk db firebaseUid referralCode).2.code = 200 →
      ∃ (c : String) (u : User),
        referralCode = some c ∧ c ≠ "" ∧
        findUserByUid (applyReferral clk db firebaseUid referralCode).1 firebaseUid = some u ∧
        u.usedReferralCode = some c) ∧
    (∀ (firebaseUid : String) (db : Database) (calls : List ReferralCall),
      referralSuccesses firebaseUid db calls ≤ 1) := by
  refine ⟨?_, ?_, ?_⟩
  · intro clk db firebaseUid referralCode u hu hused
    have hcode := applyReferral_used clk db firebaseUid referralCode u hu hused
    refine ⟨applyReferral_rejected clk db firebaseUid referralCode ?_, hcode⟩
    rcases hcode with h4 | h4 <;> rw [h4] <;> decide
  · intro clk db firebaseUid referralCode h200
    obtain ⟨c, a, r, hrc, hc, ha, hr, hself, _, heq⟩ :=
      applyReferral_accepted clk db firebaseUid referralCode h200
    have hf := applyReferral_finds clk db firebaseUid c a r ha hr hself _ rfl
    rw [heq]
    exact ⟨c, _, hrc, hc, hf.1, rfl⟩
  · intro firebaseUid db calls
    exact referralSuccesses_le_one firebaseUid calls db

/-- C17, witness: the example user applies the code of the second user; the
call succeeds and stores the code; a further call is refused and changes
nothing; of the three example calls exactly one succeeds. -/
theorem referral_applied_at_most_once_witness :
    ((applyReferral exClock2
          (applyReferral exClock1 exDbTwoUsers "firebase-uid-1" (some "RAV7T1M314")).1
          "firebase-uid-1" (some "RAV7T1M314")).1 =
        (applyReferral exClock1 exDbTwoUsers "firebase-uid-1" (some "RAV7T1M314")).1 ∧
      ((applyReferral exClock2
          (applyReferral exClock1 exDbTwoUsers "firebase-uid-1" (some "RAV7T1M314")).1
          "firebase-uid-1" (some "RAV7T1M314")).2.code = 400 ∨
        (applyReferral exClock2
          (applyReferral exClock1 exDbTwoUsers "firebase-uid-1" (some "RAV7T1M314")).1
          "firebase-uid-1" (some "RAV7T1M314")).2.code = 404)) ∧
    (∃ (c : String) (u : User),
        some "RAV7T1M314" = some c ∧ c ≠ "" ∧
        findUserByUid
          (applyReferral exClock1 exDbTwoUsers "firebase-uid-1" (some "RAV7T1M314")).1
          "firebase-uid-1" = some u ∧
        u.usedReferralCode = some c) ∧
    referralSuccesses "firebase-uid-1" exDbTwoUsers exReferralCalls ≤ 1 ∧
    referralSuccesses "firebase-uid-1" exDbTwoUsers exReferralCalls = 1 :=
  ⟨referral_applied_at_most_once.1 exClock2
      (applyReferral exClock1 exDbTwoUsers "firebase-uid-1" (some "RAV7T1M314")).1
      "firebase-uid-1" (some "RAV7T1M314")
      (referralApplier exClock1 "RAV7T1M314" exReferrer exUser) rfl rfl,
   referral_applied_at_most_once.2.1 exClock1 exDbTwoUsers "firebase-uid-1"
      (some "RAV7T1M314") rfl,
   referral_applied_at_most_once.2.2 "firebase-uid-1" exDbTwoUsers exReferralCalls,
   by rfl⟩

/-! ## Withdrawal views -/

theorem mem_updateFirst {α : Type} (p : α → Bool) (f : α → α) (l : List α) (u : α)
    (h : u ∈ updateFirst p f l) : u ∈ l ∨ ∃ x, l.find? p = some x ∧ u = f x := by
  induction l with
  | nil => simp [updateFirst] at h
  | cons y ys ih =>
    by_cases hy : p y = true
    · have h1 : updateFirst p f (y :: ys) = f y :: ys := by simp [updateFirst, hy]
      rw [h1] at h
      rcases List.mem_cons.mp h with h | h
      · right
        exact ⟨y, by simp [List.find?, hy], h⟩
      · left
        exact List.mem_cons_of_mem _ h
    · have h1 : updateFirst p f (y :: ys) = y :: updateFirst p f ys := by
        simp [updateFirst, hy]
      rw [h1] at h
      rcases List.mem_cons.mp h with h | h
      · left
        rw [h]
        exact List.mem_cons_self _ _
      · rcases ih h with h2 | ⟨x, hx, hu⟩
        · left
          exact List.mem_cons_of_mem _ h2
        · right
          exact ⟨x, by simpa [List.find?, hy] using hx, hu⟩

theorem map_updateFirst_of_preserved {α β : Type} (p : α → Bool) (f : α → α) (k : α → β)
    (hk : ∀ x, k (f x) = k x) (l : List α) : (updateFirst p f l).map k = l.map k := by
  induction l with
  | nil => rfl
  | cons y ys ih =>
    by_cases hy : p y = true
    · simp [updateFirst, hy, hk]
    · simp [updateFirst, hy, ih]

/-- The store after a withdraw call: as before, or with the requesting user
rewritten by an accepted request that costs a whole number of coins, at least
one and at most the balance. -/
theorem withdraw_store (rt : Runtime) (clk : Clock) (db : Database) (firebaseUid : String)
    (amount : JsValue) :
    (withdraw rt clk db firebaseUid amount).1 = db ∨
    ∃ (user : User) (cost : ℤ) (withdrawal : Withdrawal) (transaction : Transaction)
        (notification : Notification),
      (withdraw rt clk db firebaseUid amount).1 =
        { db with users := updateFirst (fun u => decide (u.uid = firebaseUid))
                    (applyWithdrawal (cost : ℚ) withdrawal transaction notification)
                    db.users } ∧
      findUserByUid db firebaseUid = some user ∧
      withdrawal.id = toString (clk 1) ∧ withdrawal.status = "pending" ∧
      transaction.amount = -(cost : ℚ) ∧
      1 ≤ cost ∧ (cost : ℚ) ≤ user.coins ∧
      (withdraw rt clk db firebaseUid amount).2.newBalance =
        some (user.coins + -(cost : ℚ)) := by
  by_cases h : (withdraw rt clk db firebaseUid amount).2.code = 201
  · right
    obtain ⟨a, q, user, pm, hp, hpos, hq, hqpos, hcost, hone, huser, hlt, hpm⟩ :=
      withdraw_created rt clk db firebaseUid amount h
    rw [withdraw_of_cost rt clk db firebaseUid amount a _ user hp hpos hcost huser]
    simp only [hlt, if_false, hpm]
    exact ⟨user, ⌈q⌉, _, _, _, rfl, huser, rfl, rfl, rfl, hone, not_lt.mp hlt, rfl⟩
  · left
    cases hp : parseFloat amount with
    | nan => simp [withdraw, hp, JsNum.isNaN]
    | inf negative =>
      cases negative with
      | true => simp [withdraw, hp, JsNum.isNaN, JsNum.le]
      | false =>
        cases huser : findUserByUid db firebaseUid with
        | none =>
          simp only [withdraw, hp, huser]
          split <;> rfl
        | some user =>
          simp only [withdraw, hp, huser, coinsRequired, JsNum.divPos, JsNum.ceil, JsNum.lt]
          split <;> simp
    | fin a =>
      by_cases hpos : 0 < a
      · cases huser : findUserByUid db firebaseUid with
        | none =>
          simp only [withdraw, hp, huser]
          split <;> rfl
        | some user =>
          rcases coinsRequired_cases a hpos (parseFloat_grid amount a hp) with hinf |
            ⟨q, hq, hqpos, hcost, hone⟩
          · rw [withdraw_of_overflow rt clk db firebaseUid amount a user hp hpos hinf huser]
          · rw [withdraw_of_cost rt clk db firebaseUid amount a _ user hp hpos hcost huser] at h ⊢
            by_cases hlt : user.coins < ((⌈q⌉ : ℤ) : ℚ)
            · simp [hlt]
            · cases hpm : user.paymentMethod with
              | none => simp [hlt]
              | some paymentMethod => simp [hlt, hpm] at h
      · have hle : a ≤ 0 := not_lt.mp hpos
        simp [withdraw, hp, JsNum.isNaN, JsNum.le, hle]

/-- The store after a verify call: as before, or with the user rewritten by an
accepted verification, which changes the pending and the verified list and the
notifications only. -/
theorem verifyWithdrawal_store (rt : Runtime) (clk : Clock) (db : Database)
    (firebaseUid w : String) (adminUid : Option String) :
    (verifyWithdrawal rt clk db firebaseUid w adminUid).1 = db ∨
    ∃ (user saved : User) (pending : Withdrawal) (admin : String) (i j : Nat),
      (verifyWithdrawal rt clk db firebaseUid w adminUid).1 =
        { db with users := updateFirst (fun u => decide (u.uid = firebaseUid))
                    (fun _ => saved) db.users } ∧
      findUserByUid db firebaseUid = some user ∧
      findIndex (fun x : Withdrawal => decide (x.id = w)) user.pendingWithdrawals = some i ∧
      findIndex (fun x : Withdrawal => decide (x.id = w)) user.withdrawals = some j ∧
      user.pendingWithdrawals.find? (fun x => decide (x.id = w)) = some pending ∧
      saved.coins = user.coins ∧
      saved.withdrawals = user.withdrawals ∧ saved.transactions = user.transactions ∧
      saved.pendingWithdrawals = user.pendingWithdrawals.eraseIdx i ∧
      saved.verifiedWithdrawals =
        markVerified (clk 1) admin pending :: user.verifiedWithdrawals := by
  cases adminUid with
  | none =>
    left
    simp [verifyWithdrawal, truthy]
  | some admin =>
    by_cases hadmin : admin = ""
    · left
      simp [verifyWithdrawal, truthy, hadmin]
    · cases huser : findUserByUid db firebaseUid with
      | none =>
        left
        simp [verifyWithdrawal, truthy_some hadmin, huser]
      | some user =>
        cases hpi : findIndex (fun x : Withdrawal => decide (x.id = w))
            user.pendingWithdrawals with
        | none =>
          left
          simp only [verifyWithdrawal, truthy_some hadmin, huser, hpi, Bool.not_true,
            Bool.false_eq_true, if_false]
        | some i =>
          obtain ⟨pending0, hp0, _, _⟩ := find?_of_findIndex _ _ _ hpi
          cases hmi : findIndex (fun x : Withdrawal => decide (x.id = w))
              user.withdrawals with
          | none =>
            left
            simp only [verifyWithdrawal, truthy_some hadmin, huser, hpi, hp0, hmi,
              Bool.not_true, Bool.false_eq_true, if_false]
          | some j =>
            right
            obtain ⟨pending, saved, hfind, _, hstore, _, hC, _, hW, hT, hP, hV⟩ :=
              verifyWithdrawal_accepted rt clk db firebaseUid w admin user i j hadmin huser
                hpi hmi
            exact ⟨user, saved, pending, admin, i, j, hstore, rfl, hpi, hmi, hfind, hC, hW,
              hT, hP, hV⟩

theorem views_of_empty (u : User) (hW : u.withdrawals = []) (hP : u.pendingWithdrawals = [])
    (hV : u.verifiedWithdrawals = []) : ViewsConsistent u := by
  unfold ViewsConsistent
  rw [hW, hP, hV]
  simp

/-- C12 (the code at the failing input): the example user with 1000 coins, a
payment method and three empty withdrawal lists has consistent views. After a
request for 50 rupees and its verification by an admin, `withdrawals` holds the
record with status `pending`, `pendingWithdrawals` is empty and
`verifiedWithdrawals` holds the copy with status `verified`: the pending entry
of `withdrawals` is in no pending view, and the verified view names a
withdrawal that is not verified in `withdrawals`. -/
theorem verify_breaks_withdrawal_views :
    ViewsConsistent exRichUser ∧
    (findUserByUid (runWithdrawalOps exRuntime exDbRich exWithdrawalOps)
        "firebase-uid-1").map
      (fun u => (u.withdrawals.map (fun x => (x.id, x.status)),
        u.pendingWithdrawals.map (fun x => (x.id, x.status)),
        u.verifiedWithdrawals.map (fun x => (x.id, x.status)))) =
      some ([("1700000000000", "pending")], [], [("1700000000000", "verified")]) ∧
    ∃ u : User,
      findUserByUid (runWithdrawalOps exRuntime exDbRich exWithdrawalOps) "firebase-uid-1" =
        some u ∧
      u.pendingWithdrawals ≠ u.withdrawals.filter isPendingWithdrawal ∧
      ¬ ViewsConsistent u := by
  have hrun : runWithdrawalOps exRuntime exDbRich exWithdrawalOps =
      (verifyWithdrawal exRuntime exClock2 exDbAfterWithdrawal "firebase-uid-1"
        "1700000000000" (some "admin-uid-7")).1 := by
    show (verifyWithdrawal exRuntime exClock2
      (withdraw exRuntime exClock1 exDbRich "firebase-uid-1" (.num (.fin 50))).1
      "firebase-uid-1" "1700000000000" (some "admin-uid-7")).1 = _
    rw [withdraw_example]
  rw [hrun]
  have hne : ∀ u : User, u.pendingWithdrawals = [] → u.withdrawals = [exWithdrawal] →
      u.pendingWithdrawals ≠ u.withdrawals.filter isPendingWithdrawal := by
    intro u hP hW h
    rw [hP, hW] at h
    have : [exWithdrawal].filter isPendingWithdrawal = [exWithdrawal] := by rfl
    rw [this] at h
    exact List.noConfusion h
  refine ⟨views_of_empty exRichUser rfl rfl rfl, by rfl, _, rfl, hne _ rfl rfl, ?_⟩
  intro hv
  exact hne _ rfl rfl hv.2.2.1

/-! ## Tracking identifiers -/

theorem exHexRuntime_hexDigest : exHexRuntime.HexDigest := by
  intro s
  simp only [exHexRuntime]
  split
  · exact ⟨rfl, rfl⟩
  · split
    · exact ⟨rfl, rfl⟩
    · exact ⟨rfl, rfl⟩

theorem generateClickId_toList (rt : Runtime) (clk : Clock) (userId offerId : String) :
    (generateClickId rt clk userId offerId).toList =
      (rt.sha256Hex (userId ++ "_" ++ offerId ++ "_" ++ toString (clk 0))).toList.take 12 :=
  rfl

theorem generateClickId_length (rt : Runtime) (hrt : rt.HexDigest) (clk : Clock)
    (userId offerId : String) : (generateClickId rt clk userId offerId).toList.length = 12 := by
  rw [generateClickId_toList, List.length_take]
  have h := (hrt (userId ++ "_" ++ offerId ++ "_" ++ toString (clk 0))).1
  have h2 : (rt.sha256Hex (userId ++ "_" ++ offerId ++ "_" ++ toString (clk 0))).toList.length =
      64 := h
  omega

theorem generateClickId_isHex (rt : Runtime) (hrt : rt.HexDigest) (clk : Clock)
    (userId offerId : String) :
    ∀ c ∈ (generateClickId rt clk userId offerId).toList, isHexDigit c = true := by
  intro c hc
  rw [generateClickId_toList] at hc
  have h := (hrt (userId ++ "_" ++ offerId ++ "_" ++ toString (clk 0))).2
  exact List.all_eq_true.mp h c (List.mem_of_mem_take hc)

/-- C29: with a digest function that always returns 64 lower-case hexadecimal
digits, `generateClickId` returns the first 12 characters of the digest of the
string `userId_offerId_timestamp`: the result is 12 characters long, each a
digit `0-9a-f`, and it depends on the clock only through the timestamp read, so
equal (userId, offerId, timestamp) triples give equal ids. -/
theorem generateClickId_first_twelve_hex_digits (rt : Runtime) (hrt : rt.HexDigest)
    (clk : Clock) (userId offerId : String) :
    generateClickId rt clk userId offerId =
      substring0 12 (rt.sha256Hex (userId ++ "_" ++ offerId ++ "_" ++ toString (clk 0))) ∧
    (generateClickId rt clk userId offerId).toList =
      (rt.sha256Hex (userId ++ "_" ++ offerId ++ "_" ++ toString (clk 0))).toList.take 12 ∧
    (generateClickId rt clk userId offerId).length = 12 ∧
    (∀ c ∈ (generateClickId rt clk userId offerId).toList, isHexDigit c = true) ∧
    (∀ clk2 : Clock, clk2 0 = clk 0 →
      generateClickId rt clk2 userId offerId = generateClickId rt clk userId offerId) := by
  refine ⟨rfl, rfl, generateClickId_length rt hrt clk userId offerId,
    generateClickId_isHex rt hrt clk userId offerId, ?_⟩
  intro clk2 h
  simp only [generateClickId, h]

/-- C29, witness: the id of the example user and offer at the first example
time is `3213891eaa31`. -/
theorem generateClickId_first_twelve_hex_digits_witness :
    generateClickId exHexRuntime exClock1 "64b7f1c2a3d4e5f607182930"
        "64b7f1c2a3d4e5f607182931" = "3213891eaa31" ∧
    (generateClickId exHexRuntime exClock1 "64b7f1c2a3d4e5f607182930"
        "64b7f1c2a3d4e5f607182931").length = 12 ∧
    (∀ c ∈ (generateClickId exHexRuntime exClock1 "64b7f1c2a3d4e5f607182930"
        "64b7f1c2a3d4e5f607182931").toList, isHexDigit c = true) :=
  ⟨rfl,
   (generateClickId_first_twelve_hex_digits exHexRuntime exHexRuntime_hexDigest exClock1
      "64b7f1c2a3d4e5f607182930" "64b7f1c2a3d4e5f607182931").2.2.1,
   (generateClickId_first_twelve_hex_digits exHexRuntime exHexRuntime_hexDigest exClock1
      "64b7f1c2a3d4e5f607182930" "64b7f1c2a3d4e5f607182931").2.2.2.1⟩

/-! ## Postbacks without a status, postbacks for rejected clicks -/

theorem newStatus_of_no_status (req : PostbackRequest) (h : truthy req.status = false) :
    req.newStatus = "installed" := by
  simp [PostbackRequest.newStatus, h]

theorem findUserById_settle_clicks (db : Database) (userId : String) (amount : ℚ)
    (clicks : List Click) :
    findUserById
        { db with
            users := updateFirst (fun u => decide (u._id = userId))
              (fun u => { u with coins := u.coins + amount }) db.users,
            clicks := clicks } userId =
      (findUserById db userId).map (fun u => { u with coins := u.coins + amount }) := by
  unfold findUserById
  exact find?_updateFirst _ _ (fun x hx => by simpa using hx) db.users

/-- C25 (as amended): for every unrewarded click, found by the tracking id of
the postback, whose owner exists, a postback that carries no status (the field
is missing or empty) and passes the offer check (it names no offer or the offer
of the click) is answered 200 with status `installed` and
`isRewarded` true; afterwards the click has status `installed`, `isRewarded`
true and `rewardedAt` set to the time of the request, and the owner has the
click's `rewardCoins` more than before. -/
theorem postback_default_status (clk : Clock) (db : Database) (req : PostbackRequest)
    (id : String) (click : Click) (owner : User)
    (hstatus : truthy req.status = false)
    (hid : req.trackingId = some id) (hne : id ≠ "")
    (hclick : findClick db id = some click) (hm : req.offerMismatch click = false)
    (hrew : click.isRewarded = false)
    (howner : findUserById db click.userId = some owner) :
    (postback clk db req).2 =
      { code := 200, success := true, message := "Postback processed successfully",
        status := some "installed", isRewarded := some true,
        click_id := some id, pcid := some id } ∧
    findClick (postback clk db req).1 id =
      some { click with status := "installed", isRewarded := true,
                        rewardedAt := some (clk 0), updatedAt := clk 1 } ∧
    findUserById (postback clk db req).1 click.userId =
      some { owner with coins := owner.coins + click.rewardCoins } := by
  have hnew := newStatus_of_no_status req hstatus
  have hc : req.isCompletion := Or.inl hnew
  have hid2 : click.clickId = id := findClick_clickId db id click hclick
  rw [postback_settle clk db req id click owner hid hne hclick hm hrew hc howner, hnew]
  refine ⟨rfl, ?_, ?_⟩
  · exact findClick_saved db _ id _ hid2 click hclick
  · show findUserById
      { db with
          users := updateFirst (fun u => decide (u._id = click.userId))
            (fun u => { u with coins := u.coins + click.rewardCoins }) db.users,
          clicks := _ } click.userId = _
    rw [findUserById_settle_clicks, howner]
    rfl

/-- C25, witness: a postback with only the tracking id for the pending example
click, worth 100 coins, of the fresh example user. -/
theorem postback_default_status_witness :
    (postback exClock2 exDbPending exBarePostback).2 =
      { code := 200, success := true, message := "Postback processed successfully",
        status := some "installed", isRewarded := some true,
        click_id := some "3213891eaa31", pcid := some "3213891eaa31" } ∧
    findClick (postback exClock2 exDbPending exBarePostback).1 "3213891eaa31" =
      some { exClick with status := "installed", isRewarded := true,
                          rewardedAt := some (exClock2 0), updatedAt := exClock2 1 } ∧
    findUserById (postback exClock2 exDbPending exBarePostback).1 exClick.userId =
      some { exUser with coins := exUser.coins + exClick.rewardCoins } :=
  postback_default_status exClock2 exDbPending exBarePostback "3213891eaa31" exClick exUser
    rfl rfl (by decide) rfl rfl rfl rfl

/-- C25, counterexample: the pending example click is not rewarded; a postback
for it that carries no status and names another offer is answered 400 "Offer
ID mismatch" and changes nothing, so the click keeps status `pending` and is
not rewarded. -/
theorem postback_default_status_counterexample :
    findClick exDbPending "3213891eaa31" = some exClick ∧ exClick.isRewarded = false ∧
    exBareMismatchPostback.status = none ∧
    postback exClock2 exDbPending exBareMismatchPostback =
      (exDbPending, { code := 400, success := false, message := "Offer ID mismatch" }) ∧
    (findClick (postback exClock2 exDbPending exBareMismatchPostback).1 "3213891eaa31").map
      (fun c => (c.status, c.isRewarded)) = some ("pending", false) := by
  have h := postback_mismatch exClock2 exDbPending exBareMismatchPostback "3213891eaa31"
    exClick rfl (by decide) rfl rfl
  rw [h]
  exact ⟨rfl, rfl, rfl, rfl, rfl⟩

theorem rejected_not_completion : ¬ exRejectPostback.isCompletion := by
  intro hc
  have hc2 : ("rejected" : String) = "installed" ∨ ("rejected" : String) = "completed" := hc
  revert hc2
  decide

/-- The store `exDbRejected` is what a create call and a postback `rejected`
make of the example store. -/
theorem exDbRejected_reached :
    (postback exClock1 (createClick exRuntime exClock1 exDb exCreate).1 exRejectPostback).1 =
      exDbRejected := by
  rw [createClick_example]
  rw [postback_status exClock1 { exDb with clicks := [exCreatedClick] } exRejectPostback
    "3213891eaa31" exCreatedClick rfl (by decide) rfl rfl rfl rejected_not_completion]
  rfl

/-- C26, counterexample: after a create call and a postback `rejected` the
click of the example user has status `rejected` and is not rewarded. The
postback with status `installed` that follows is answered 200, and afterwards
the click has status `installed`, `isRewarded` true and `rewardedAt` set. -/
theorem rejected_click_counterexample :
    (postback exClock1 (createClick exRuntime exClock1 exDb exCreate).1 exRejectPostback).1 =
      exDbRejected ∧
    (findClick exDbRejected "3213891eaa31").map (fun c => (c.status, c.isRewarded)) =
      some ("rejected", false) ∧
    (postback exClock2 exDbRejected exInstalledPostback).2.code = 200 ∧
    (findClick (postback exClock2 exDbRejected exInstalledPostback).1 "3213891eaa31").map
      (fun c => (c.status, c.isRewarded, c.rewardedAt)) =
      some ("installed", true, some 1700000005000) := by
  have h := postback_settle exClock2 exDbRejected exInstalledPostback "3213891eaa31"
    exRejectedClick exUser rfl (by decide) rfl rfl rfl (Or.inl rfl) rfl
  rw [h]
  exact ⟨exDbRejected_reached, rfl, rfl, rfl⟩

/-- C26 (as amended): for every click with status `rejected`, found by the
tracking id of a postback. (1) A postback that fails the offer check, or any
postback when the click is already rewarded, changes nothing. (2) A postback
that passes the offer check and reports a status other than `installed` and
`completed`, for a click not yet rewarded, changes no user, leaves `isRewarded`
false and sets the status of the click to the reported one; the status stays
`rejected` when that is what it reports. (3) A postback that passes the offer
check and reports `installed` or `completed`, or no status, for a click not
yet rewarded whose owner exists, is answered 200: the click gets the reported
status and `isRewarded` true, and the owner is credited the `rewardCoins` of
the click. -/
theorem rejected_click_postback :
    (∀ (clk : Clock) (db : Database) (req : PostbackRequest) (id : String) (click : Click),
      req.trackingId = some id → id ≠ "" → findClick db id = some click →
      click.status = "rejected" →
      req.offerMismatch click = true ∨ click.isRewarded = true →
      (postback clk db req).1 = db ∧ (postback clk db req).2.code = 400) ∧
    (∀ (clk : Clock) (db : Database) (req : PostbackRequest) (id : String) (click : Click),
      req.trackingId = some id → id ≠ "" → findClick db id = some click →
      click.status = "rejected" →
      req.offerMismatch click = false → click.isRewarded = false → ¬ req.isCompletion →
      (postback clk db req).1.users = db.users ∧
      findClick (postback clk db req).1 id =
        some { click with status := req.newStatus, updatedAt := clk 0 } ∧
      (req.status = some "rejected" →
        (findClick (postback clk db req).1 id).map (fun c => (c.status, c.isRewarded)) =
          some ("rejected", false))) ∧
    (∀ (clk : Clock) (db : Database) (req : PostbackRequest) (id : String) (click : Click)
        (owner : User),
      req.trackingId = some id → id ≠ "" → findClick db id = some click →
      click.status = "rejected" →
      req.offerMismatch click = false → click.isRewarded = false → req.isCompletion →
      findUserById db click.userId = some owner →
      (postback clk db req).2.code = 200 ∧
      findClick (postback clk db req).1 id =
        some { click with status := req.newStatus, isRewarded := true,
                          rewardedAt := some (clk 0), updatedAt := clk 1 } ∧
      findUserById (postback clk db req).1 click.userId =
        some { owner with coins := owner.coins + click.rewardCoins }) := by
  refine ⟨?_, ?_, ?_⟩
  · intro clk db req id click hid hne hclick _ hor
    cases hm : req.offerMismatch click with
    | true =>
      rw [postback_mismatch clk db req id click hid hne hclick hm]
      exact ⟨rfl, rfl⟩
    | false =>
      have hrew : click.isRewarded = true := by
        rcases hor with h | h
        · rw [hm] at h
          exact absurd h Bool.false_ne_true
        · exact h
      rw [postback_already clk db req id click hid hne hclick hm hrew]
      exact ⟨rfl, rfl⟩
  · intro clk db req id click hid hne hclick _ hm hrew hc
    have hid2 : click.clickId = id := findClick_clickId db id click hclick
    rw [postback_status clk db req id click hid hne hclick hm hrew hc]
    have hfind : findClick
        { db with clicks := updateFirst (fun c => decide (c.clickId = id))
                    (fun _ => { click with status := req.newStatus, updatedAt := clk 0 })
                    db.clicks } id =
        some { click with status := req.newStatus, updatedAt := clk 0 } :=
      findClick_saved db db.users id _ hid2 click hclick
    refine ⟨rfl, hfind, ?_⟩
    intro hst
    rw [hfind]
    have hnew : req.newStatus = "rejected" := by
      simp [PostbackRequest.newStatus, hst, truthy]
    simp [hnew, hrew]
  · intro clk db req id click owner hid hne hclick _ hm hrew hc howner
    have hid2 : click.clickId = id := findClick_clickId db id click hclick
    rw [postback_settle clk db req id click owner hid hne hclick hm hrew hc howner]
    refine ⟨rfl, findClick_saved db _ id _ hid2 click hclick, ?_⟩
    show findUserById
      { db with
          users := updateFirst (fun u => decide (u._id = click.userId))
            (fun u => { u with coins := u.coins + click.rewardCoins }) db.users,
          clicks := _ } click.userId = _
    rw [findUserById_settle_clicks, howner]
    rfl

/-- C26, witness: on the store with the rejected click of the example user, a
postback that names another offer, a postback that reports `rejected` again and
a postback that reports `installed`. -/
theorem rejected_click_postback_witness :
    ((postback exClock2 exDbRejected exMismatchPostback).1 = exDbRejected ∧
      (postback exClock2 exDbRejected exMismatchPostback).2.code = 400) ∧
    ((postback exClock2 exDbRejected exRejectPostback).1.users = exDbRejected.users ∧
      findClick (postback exClock2 exDbRejected exRejectPostback).1 "3213891eaa31" =
        some { exRejectedClick with status := exRejectPostback.newStatus,
                                    updatedAt := exClock2 0 } ∧
      (exRejectPostback.status = some "rejected" →
        (findClick (postback exClock2 exDbRejected exRejectPostback).1 "3213891eaa31").map
          (fun c => (c.status, c.isRewarded)) = some ("rejected", false))) ∧
    ((postback exClock2 exDbRejected exInstalledPostback).2.code = 200 ∧
      findClick (postback exClock2 exDbRejected exInstalledPostback).1 "3213891eaa31" =
        some { exRejectedClick with status := exInstalledPostback.newStatus,
                                    isRewarded := true,
                                    rewardedAt := some (exClock2 0),
                                    updatedAt := exClock2 1 } ∧
      findUserById (postback exClock2 exDbRejected exInstalledPostback).1
          exRejectedClick.userId =
        some { exUser with coins := exUser.coins + exRejectedClick.rewardCoins }) :=
  ⟨rejected_click_postback.1 exClock2 exDbRejected exMismatchPostback "3213891eaa31"
      exRejectedClick rfl (by decide) rfl rfl (Or.inl rfl),
   rejected_click_postback.2.1 exClock2 exDbRejected exRejectPostback "3213891eaa31"
      exRejectedClick rfl (by decide) rfl rfl rfl rfl rejected_not_completion,
   rejected_click_postback.2.2 exClock2 exDbRejected exInstalledPostback "3213891eaa31"
      exRejectedClick exUser rfl (by decide) rfl rfl rfl rfl (Or.inl rfl) rfl⟩

/-! ## Validation of the withdrawal amount -/

/-- The guard of the withdraw handler lets through exactly the amounts that
`parseFloat` reads as a positive finite number or as `Infinity`. -/
theorem amount_guard_iff (amount : JsValue) :
    (!amount.truthy || (parseFloat amount).isNaN || (parseFloat amount).le (.fin 0)) = false ↔
      (∃ a : ℚ, parseFloat amount = .fin a ∧ 0 < a) ∨ parseFloat amount = .inf false := by
  constructor
  · intro h
    cases hp : parseFloat amount with
    | nan => simp [hp, JsNum.isNaN] at h
    | inf negative =>
      cases negative with
      | true => simp [hp, JsNum.isNaN, JsNum.le] at h
      | false => exact Or.inr rfl
    | fin a =>
      left
      refine ⟨a, rfl, ?_⟩
      simp only [hp, JsNum.isNaN, JsNum.le, Bool.or_false, Bool.or_eq_false_iff,
        decide_eq_false_iff_not, not_le] at h
      exact h.2
  · rintro (⟨a, hp, hpos⟩ | hp)
    · have ht := truthy_of_parseFloat_pos amount a hp hpos
      have hle : ¬ a ≤ 0 := not_le.mpr hpos
      simp [hp, ht, JsNum.isNaN, JsNum.le, hle]
    · have ht : amount.truthy = true := by
        cases amount with
        | undefined => simp [parseFloat] at hp
        | null => simp [parseFloat] at hp
        | bool b => simp [parseFloat] at hp
        | num x =>
          have hx : x.toDouble = .inf false := hp
          simp [JsValue.truthy, hx, JsNum.truthy]
        | str s =>
          have hs : s ≠ "" := by
            intro hs
            rw [hs] at hp
            have : parseFloat (.str "") = .nan := parseFloatString_empty
            rw [this] at hp
            exact JsNum.noConfusion hp
          simp [JsValue.truthy, hs]
      simp [hp, ht, JsNum.isNaN, JsNum.le]

/-- An amount that fails the guard is refused whatever the store holds. -/
theorem withdraw_invalid (rt : Runtime) (clk : Clock) (db : Database) (firebaseUid : String)
    (amount : JsValue)
    (h : (!amount.truthy || (parseFloat amount).isNaN || (parseFloat amount).le (.fin 0)) =
      true) :
    withdraw rt clk db firebaseUid amount =
      (db, { code := 400, message := "Valid amount is required" }) := by
  simp only [withdraw, h, if_true]

/-- An amount read as `Infinity` passes the guard and is refused afterwards. -/
theorem withdraw_infinite (rt : Runtime) (clk : Clock) (db : Database) (firebaseUid : String)
    (amount : JsValue) (hp : parseFloat amount = .inf false) :
    withdraw rt clk db firebaseUid amount =
      match findUserByUid db firebaseUid with
      | none => (db, { code := 404, message := "User not found" })
      | some user =>
        (db, { code := 400, message := "Insufficient coins for this withdrawal",
               available := some user.coins, required := some (.inf false) }) := by
  have hg := (amount_guard_iff amount).mpr (Or.inr hp)
  have ht : amount.truthy = true := by simpa [hp, JsNum.isNaN, JsNum.le] using hg
  cases huser : findUserByUid db firebaseUid with
  | none => simp [withdraw, ht, hp, huser, JsNum.isNaN, JsNum.le]
  | some user =>
    simp [withdraw, ht, hp, huser, JsNum.isNaN, JsNum.le, coinsRequired, JsNum.divPos,
      JsNum.ceil, JsNum.lt]

/-- An amount that passes the guard is not answered "Valid amount is required". -/
theorem withdraw_valid_message (rt : Runtime) (clk : Clock) (db : Database)
    (firebaseUid : String) (amount : JsValue)
    (h : (!amount.truthy || (parseFloat amount).isNaN || (parseFloat amount).le (.fin 0)) =
      false) :
    (withdraw rt clk db firebaseUid amount).2.message ≠ "Valid amount is required" := by
  have n1 : ("User not found" : String) ≠ "Valid amount is required" := by decide
  have n2 : ("Insufficient coins for this withdrawal" : String) ≠
      "Valid amount is required" := by decide
  have n3 : ("No payment method found. Please add a payment method first." : String) ≠
      "Valid amount is required" := by decide
  have n4 : ("Withdrawal request submitted successfully" : String) ≠
      "Valid amount is required" := by decide
  have n5 : ("Server error" : String) ≠ "Valid amount is required" := by decide
  rcases (amount_guard_iff amount).mp h with ⟨a, hp, hpos⟩ | hp
  · cases huser : findUserByUid db firebaseUid with
    | none =>
      have : withdraw rt clk db firebaseUid amount =
          (db, { code := 404, message := "User not found" }) := by
        simp [withdraw, h, huser]
      rw [this]
      exact n1
    | some user =>
      rw [withdraw_of_valid rt clk db firebaseUid amount a user hp hpos huser]
      split
      · exact n2
      · cases hpm : user.paymentMethod with
        | none => exact n3
        | some paymentMethod =>
          cases coinsRequired (.fin a) with
          | nan => exact n5
          | inf negative => exact n5
          | fin coins => exact n4
  · rw [withdraw_infinite rt clk db firebaseUid amount hp]
    cases huser : findUserByUid db firebaseUid with
    | none => exact n1
    | some user => exact n2

/-- C21 (as amended): a withdrawal request gets past the amount validation if
and only if `parseFloat` reads the supplied amount as a positive finite number
or as `Infinity`. Every other amount (missing, null, zero, negative, NaN,
`-Infinity`, the empty string, text without a leading number, a positive
literal so small that it is read as 0) is answered 400
"Valid amount is required" whatever the store holds, hence before any user
lookup, and the store is unchanged. An amount read as `Infinity` passes the
validation and is refused afterwards, also without any change: 404 "User not
found" when the user does not exist, 400 "Insufficient coins for this
withdrawal" otherwise. -/
theorem withdraw_amount_validation (rt : Runtime) (clk : Clock) (db : Database)
    (firebaseUid : String) (amount : JsValue) :
    ((withdraw rt clk db firebaseUid amount).2.message = "Valid amount is required" ↔
      ¬ ((∃ a : ℚ, parseFloat amount = .fin a ∧ 0 < a) ∨ parseFloat amount = .inf false)) ∧
    ((withdraw rt clk db firebaseUid amount).2.message = "Valid amount is required" →
      withdraw rt clk db firebaseUid amount =
        (db, { code := 400, message := "Valid amount is required" })) ∧
    (parseFloat amount = .inf false →
      (withdraw rt clk db firebaseUid amount).1 = db ∧
      (withdraw rt clk db firebaseUid amount).2.message =
        match findUserByUid db firebaseUid with
        | none => "User not found"
        | some _ => "Insufficient coins for this withdrawal") := by
  have hcases : ∀ b : Bool, b = true ∨ b = false := fun b => by cases b <;> simp
  refine ⟨⟨?_, ?_⟩, ?_, ?_⟩
  · intro hmsg hpass
    exact withdraw_valid_message rt clk db firebaseUid amount
      ((amount_guard_iff amount).mpr hpass) hmsg
  · intro hnot
    rcases hcases (!amount.truthy || (parseFloat amount).isNaN ||
      (parseFloat amount).le (.fin 0)) with hg | hg
    · rw [withdraw_invalid rt clk db firebaseUid amount hg]
    · exact absurd ((amount_guard_iff amount).mp hg) hnot
  · intro hmsg
    rcases hcases (!amount.truthy || (parseFloat amount).isNaN ||
      (parseFloat amount).le (.fin 0)) with hg | hg
    · exact withdraw_invalid rt clk db firebaseUid amount hg
    · exact absurd hmsg (withdraw_valid_message rt clk db firebaseUid amount hg)
  · intro hp
    rw [withdraw_infinite rt clk db firebaseUid amount hp]
    cases huser : findUserByUid db firebaseUid with
    | none => exact ⟨rfl, rfl⟩
    | some user => exact ⟨rfl, rfl⟩

/-- The literal `1e-400` is below half the least positive double and is read
as 0. -/
theorem parseFloat_underflow : parseFloat (.str "1e-400") = .fin 0 := by
  rw [parseFloat_unsigned "1e-400" ['1', 'e', '-', '4', '0', '0'] (by rfl)
    (by intro t h; injection h with h _; revert h; decide)
    (by intro t h; injection h with h _; revert h; decide)]
  rw [parseUnsigned_decimal ['1', 'e', '-', '4', '0', '0']
    ((((1 : ℕ) : ℚ) + ((0 : ℕ) : ℚ) / 10 ^ (0 : ℕ)) * (10 : ℚ) ^ (-((400 : ℕ) : ℤ)))
    (by rfl) (by rfl)]
  have hval : (((1 : ℕ) : ℚ) + ((0 : ℕ) : ℚ) / 10 ^ (0 : ℕ)) * (10 : ℚ) ^ (-((400 : ℕ) : ℤ)) =
      1 / (10 : ℚ) ^ 400 := by
    rw [zpow_neg, zpow_natCast]
    norm_num
  rw [hval]
  exact roundDouble_tiny _ (by positivity) (by
    apply one_div_lt_one_div_of_lt (by positivity)
    norm_num)

/-- C21, witness: the text `abc` and the literal `1e-400` are refused by the
validation, on the store of the example user with 1000 coins; the amount 50 is
not. -/
theorem withdraw_amount_validation_witness :
    withdraw exRuntime exClock1 exDbRich "firebase-uid-1" (.str "abc") =
      (exDbRich, { code := 400, message := "Valid amount is required" }) ∧
    (withdraw exRuntime exClock1 exDbRich "firebase-uid-1" (.str "1e-400")).2.message =
      "Valid amount is required" ∧
    (withdraw exRuntime exClock1 exDbRich "firebase-uid-1" (.num (.fin 50))).2.message ≠
      "Valid amount is required" :=
  ⟨(withdraw_amount_validation exRuntime exClock1 exDbRich "firebase-uid-1" (.str "abc")).2.1
      rfl,
   (withdraw_amount_validation exRuntime exClock1 exDbRich "firebase-uid-1"
      (.str "1e-400")).1.mpr (by
        rw [parseFloat_underflow]
        rintro (⟨a, ha, hpos⟩ | h)
        · injection ha with ha
          rw [← ha] at hpos
          exact lt_irrefl _ hpos
        · exact JsNum.noConfusion h),
   fun h =>
     ((withdraw_amount_validation exRuntime exClock1 exDbRich "firebase-uid-1"
        (.num (.fin 50))).1.mp h) (Or.inl ⟨50, parseFloat_fifty, by norm_num⟩)⟩

/-- A text with a leading number is read as that number. -/
theorem parseFloat_leading_number : parseFloat (.str "12abc") = .fin 12 := by
  rw [parseFloat_unsigned "12abc" ['1', '2', 'a', 'b', 'c'] (by rfl)
    (by intro t h; injection h with h _; revert h; decide)
    (by intro t h; injection h with h _; revert h; decide)]
  rw [parseUnsigned_decimal ['1', '2', 'a', 'b', 'c']
    ((((12 : ℕ) : ℚ) + ((0 : ℕ) : ℚ) / 10 ^ (0 : ℕ)) * (10 : ℚ) ^ (0 : ℤ))
    (by rfl) (by rfl)]
  have hval : (((12 : ℕ) : ℚ) + ((0 : ℕ) : ℚ) / 10 ^ (0 : ℕ)) * (10 : ℚ) ^ (0 : ℤ) =
      ((12 : ℕ) : ℚ) := by norm_num
  rw [hval, roundDouble_natCast 12 (by norm_num) (by norm_num)]
  norm_num

/-- C21, counterexample: the amount `"Infinity"` is an infinite amount (and a
text), yet the request is not answered "Valid amount is required": for the
fresh example user it is refused as "Insufficient coins for this withdrawal",
and for a user that does not exist as "User not found", so the user lookup was
made. The text `12abc` is read as 12 and the request of the example user with
1000 coins is accepted. -/
theorem withdraw_infinite_amount_counterexample :
    parseFloat (.str "Infinity") = .inf false ∧
    (withdraw exRuntime exClock1 exDb "firebase-uid-1" (.str "Infinity")).2.message =
      "Insufficient coins for this withdrawal" ∧
    (withdraw exRuntime exClock1 exDb "firebase-uid-1" (.str "Infinity")).2.message ≠
      "Valid amount is required" ∧
    findUserByUid exDb "firebase-uid-9" = none ∧
    (withdraw exRuntime exClock1 exDb "firebase-uid-9" (.str "Infinity")).2 =
      { code := 404, message := "User not found" } ∧
    parseFloat (.str "12abc") = .fin 12 ∧
    (withdraw exRuntime exClock1 exDbRich "firebase-uid-1" (.str "12abc")).2.code = 201 := by
  have hp : parseFloat (.str "Infinity") = .inf false := by rfl
  have h1 := withdraw_infinite exRuntime exClock1 exDb "firebase-uid-1" (.str "Infinity") hp
  have h2 := withdraw_infinite exRuntime exClock1 exDb "firebase-uid-9" (.str "Infinity") hp
  have hu1 : findUserByUid exDb "firebase-uid-1" = some exUser := rfl
  have hu9 : findUserByUid exDb "firebase-uid-9" = none := rfl
  rw [hu1] at h1
  rw [hu9] at h2
  have hcost : coinsRequired (.fin 12) = .fin 120 := by
    have h := coinsRequired_natCast 12 (by norm_num) (by norm_num)
    norm_num at h
    exact h
  have h3 := withdraw_of_cost exRuntime exClock1 exDbRich "firebase-uid-1" (.str "12abc") 12
    120 exRichUser parseFloat_leading_number (by norm_num) hcost rfl
  have hcoins : exRichUser.coins = 1000 := rfl
  have hpm : exRichUser.paymentMethod =
      some { type := "upi", details := [("upiId", "asha@upi")] } := rfl
  rw [hcoins, hpm] at h3
  rw [h1, h2, h3]
  refine ⟨hp, rfl, by decide, hu9, rfl, parseFloat_leading_number, ?_⟩
  norm_num

/-! ## The reward-paid flag -/

theorem getElem?_updateFirst_of_ne {α : Type} (p : α → Bool) (g : α → α) (x c : α)
    (hne : c ≠ x) :
    ∀ (l : List α) (i : Nat), l.find? p = some x → l[i]? = some c →
      (updateFirst p g l)[i]? = some c := by
  intro l
  induction l with
  | nil => intro i h; simp at h
  | cons y ys ih =>
    intro i hx hc
    by_cases hp : p y = true
    · have hyx : y = x := by simpa [List.find?, hp] using hx
      have h1 : updateFirst p g (y :: ys) = g y :: ys := by simp [updateFirst, hp]
      rw [h1]
      cases i with
      | zero =>
        have : y = c := by simpa using hc
        exact absurd (this.symm.trans hyx) hne
      | succ j => simpa using hc
    · have hx2 : ys.find? p = some x := by simpa [List.find?, hp] using hx
      have h1 : updateFirst p g (y :: ys) = y :: updateFirst p g ys := by
        simp [updateFirst, hp]
      rw [h1]
      cases i with
      | zero => simpa using hc
      | succ j =>
        have hc2 : ys[j]? = some c := by simpa using hc
        simpa using ih j hx2 hc2

/-- Effect of `POST /create` on the click collection, with the flags of the
new click. -/
theorem createClick_clicks_flags (rt : Runtime) (clk : Clock) (db : Database)
    (req : CreateRequest) :
    (createClick rt clk db req).1 = db ∨
    ∃ click : Click,
      (createClick rt clk db req).1 = { db with clicks := db.clicks ++ [click] } ∧
      click.isRewarded = false ∧ click.rewardedAt = none := by
  unfold createClick
  split
  · exact Or.inl rfl
  · dsimp only
    split
    · split
      · split
        · exact Or.inl rfl
        · split
          · exact Or.inl rfl
          · exact Or.inr ⟨_, rfl, rfl, rfl⟩
      · exact Or.inl rfl
    · exact Or.inl rfl

/-- Effect of `POST /postback` on the click collection, with the flags of the
click written: it was not rewarded, and it is now rewarded or its flags are
what they were. -/
theorem postback_clicks_flags (clk : Clock) (db : Database) (req : PostbackRequest) :
    (postback clk db req).1.clicks = db.clicks ∨
    ∃ (click saved : Click),
      findClick db (req.trackingId.getD "") = some click ∧ click.isRewarded = false ∧
      (postback clk db req).1.clicks =
        updateFirst (fun c => decide (c.clickId = req.trackingId.getD "")) (fun _ => saved)
          db.clicks ∧
      (saved.isRewarded = true ∨
        (saved.isRewarded = click.isRewarded ∧ saved.rewardedAt = click.rewardedAt)) := by
  unfold postback
  split
  · exact Or.inl rfl
  · dsimp only
    split
    · exact Or.inl rfl
    · rename_i click hclick
      split
      · exact Or.inl rfl
      · split
        · exact Or.inl rfl
        · rename_i hr
          have hr2 : click.isRewarded = false := by simpa using hr
          split
          · split
            · exact Or.inl rfl
            · exact Or.inr ⟨click, _, hclick, hr2, rfl, Or.inl rfl⟩
          · exact Or.inr ⟨click, _, hclick, hr2, rfl, Or.inr ⟨rfl, rfl⟩⟩

theorem getClick_store (db : Database) (clickId : String) : (getClick db clickId).1 = db := by
  unfold getClick
  split <;> rfl

theorem listUserClicks_store (db : Database) (userId : String) (status : Option String) :
    (listUserClicks db userId status).1 = db := by
  unfold listUserClicks
  split <;> rfl

/-- A rewarded click is left as it is by every call of the click API. -/
theorem rewarded_click_kept (rt : Runtime) (db : Database) (op : ClickApiOp) (i : Nat)
    (c : Click) (hc : db.clicks[i]? = some c) (hrew : c.isRewarded = true) :
    (op.run rt db).clicks[i]? = some c := by
  cases op with
  | create clk req =>
    rcases createClick_clicks_flags rt clk db req with h | ⟨click, h, _, _⟩
    · rw [ClickApiOp.run, h]
      exact hc
    · rw [ClickApiOp.run, h]
      have hi : i < db.clicks.length := (List.getElem?_eq_some.mp hc).1
      show (db.clicks ++ [click])[i]? = some c
      rw [List.getElem?_append_left hi]
      exact hc
  | postback clk req =>
    rcases postback_clicks_flags clk db req with h | ⟨click, saved, hclick, hnot, h, _⟩
    · rw [ClickApiOp.run, h]
      exact hc
    · rw [ClickApiOp.run, h]
      have hne : c ≠ click := by
        intro e
        rw [e, hnot] at hrew
        exact Bool.noConfusion hrew
      exact getElem?_updateFirst_of_ne _ _ click c hne db.clicks i hclick hc
  | status clickId =>
    rw [ClickApiOp.run, getClick_store]
    exact hc
  | list userId statusFilter =>
    rw [ClickApiOp.run, listUserClicks_store]
    exact hc

/-- The time `rewardedAt` is set only on rewarded clicks. -/
theorem rewardedAt_step (rt : Runtime) (db : Database) (op : ClickApiOp)
    (hinv : ∀ c ∈ db.clicks, c.rewardedAt ≠ none → c.isRewarded = true) :
    ∀ c ∈ (op.run rt db).clicks, c.rewardedAt ≠ none → c.isRewarded = true := by
  cases op with
  | create clk req =>
    rcases createClick_clicks_flags rt clk db req with h | ⟨click, h, _, hat⟩
    · rw [ClickApiOp.run, h]
      exact hinv
    · rw [ClickApiOp.run, h]
      intro c hc hset
      rcases List.mem_append.mp hc with h1 | h1
      · exact hinv c h1 hset
      · have hcc : c = click := by simpa using h1
        rw [hcc] at hset
        exact absurd hat hset
  | postback clk req =>
    rcases postback_clicks_flags clk db req with h | ⟨click, saved, hclick, _, h, hflags⟩
    · rw [ClickApiOp.run, h]
      exact hinv
    · rw [ClickApiOp.run, h]
      intro c hc hset
      rcases mem_updateFirst _ _ _ _ hc with h1 | ⟨x, _, hcx⟩
      · exact hinv c h1 hset
      · rw [hcx] at hset ⊢
        rcases hflags with h2 | ⟨h2, h3⟩
        · exact h2
        · rw [h2]
          rw [h3] at hset
          exact hinv click (List.mem_of_find?_eq_some hclick) hset
  | status clickId =>
    rw [ClickApiOp.run, getClick_store]
    exact hinv
  | list userId statusFilter =>
    rw [ClickApiOp.run, listUserClicks_store]
    exact hinv

theorem rewardedAt_run (rt : Runtime) (ops : List ClickApiOp) :
    ∀ db : Database, (∀ c ∈ db.clicks, c.rewardedAt ≠ none → c.isRewarded = true) →
      ∀ c ∈ (runClickApiOps rt db ops).clicks, c.rewardedAt ≠ none → c.isRewarded = true := by
  induction ops with
  | nil => intro db h; exact h
  | cons op ops ih =>
    intro db h
    exact ih (op.run rt db) (rewardedAt_step rt db op h)

/-- C22: every call of the click API (create, postback, status read, list)
leaves every rewarded click as it is: a click (a position of the click
collection) whose `isRewarded` is true before the call is the same document
after it, so `isRewarded` stays true and `rewardedAt` keeps its value. In every
state reached from an empty click collection by calls of the click API,
`rewardedAt` is set only on rewarded clicks, so a `rewardedAt` once set is
never changed. -/
theorem reward_paid_monotonic :
    (∀ (rt : Runtime) (db : Database) (op : ClickApiOp) (i : Nat) (c : Click),
      db.clicks[i]? = some c → c.isRewarded = true → (op.run rt db).clicks[i]? = some c) ∧
    (∀ (rt : Runtime) (db : Database) (ops : List ClickApiOp) (op : ClickApiOp) (i : Nat)
        (c : Click),
      db.clicks = [] → (runClickApiOps rt db ops).clicks[i]? = some c → c.rewardedAt ≠ none →
      c.isRewarded = true ∧
        (op.run rt (runClickApiOps rt db ops)).clicks[i]? = some c) := by
  constructor
  · intro rt db op i c hc hrew
    exact rewarded_click_kept rt db op i c hc hrew
  · intro rt db ops op i c hempty hc hset
    have hinv : ∀ c ∈ db.clicks, c.rewardedAt ≠ none → c.isRewarded = true := by
      intro c hc
      rw [hempty] at hc
      simp at hc
    have hmem : c ∈ (runClickApiOps rt db ops).clicks := List.mem_iff_getElem?.mpr ⟨i, hc⟩
    have hrew := rewardedAt_run rt ops db hinv c hmem hset
    exact ⟨hrew, rewarded_click_kept rt _ op i c hc hrew⟩

/-- C22, witness: a completion postback for the rewarded example click leaves
it as it is; on the empty example store, after a create call and an
`installed` postback the click is rewarded, and a further `completed` postback
leaves it as it is. -/
theorem reward_paid_monotonic_witness :
    ((ClickApiOp.postback exClock2 exInstalledPostback).run exRuntime exDbRewarded).clicks[0]? =
      some exRewardedClick ∧
    ({ exCreatedClick with status := "installed", isRewarded := true,
                           rewardedAt := some 1700000005000,
                           updatedAt := 1700000005000 } : Click).isRewarded = true ∧
    ((ClickApiOp.postback exClock2
        { click_id := some "3213891eaa31", status := some "completed" }).run exRuntime
      (runClickApiOps exRuntime exDb
        [.create exClock1 exCreate, .postback exClock2 exInstalledPostback])).clicks[0]? =
      some { exCreatedClick with status := "installed", isRewarded := true,
                                 rewardedAt := some 1700000005000,
                                 updatedAt := 1700000005000 } :=
  ⟨reward_paid_monotonic.1 exRuntime exDbRewarded
      (.postback exClock2 exInstalledPostback) 0 exRewardedClick rfl rfl,
   reward_paid_monotonic.2 exRuntime exDb
      [.create exClock1 exCreate, .postback exClock2 exInstalledPostback]
      (.postback exClock2 { click_id := some "3213891eaa31", status := some "completed" }) 0
      { exCreatedClick with status := "installed", isRewarded := true,
                            rewardedAt := some 1700000005000, updatedAt := 1700000005000 }
      rfl rfl (by decide)⟩

/-! ## Daily check-in -/

/-- A check-in of a user whose last check-in is not before the start of the day. -/
theorem checkIn_rejected (startOfDay : Timestamp → Timestamp) (clk : Clock) (db : Database)
    (firebaseUid : String) (user : User) (t : Timestamp)
    (huser : findUserByUid db firebaseUid = some user)
    (hlast : user.lastCheckIn = some t) (hday : startOfDay (clk 0) ≤ t) :
    checkIn startOfDay clk db firebaseUid =
      (db, { code := 400, message := "Already checked in today" }) := by
  simp [checkIn, huser, hlast, hday]

/-- A check-in of a user with no check-in since the start of the day. -/
theorem checkIn_accepted (startOfDay : Timestamp → Timestamp) (clk : Clock) (db : Database)
    (firebaseUid : String) (user : User)
    (huser : findUserByUid db firebaseUid = some user)
    (hlast : ∀ t, user.lastCheckIn = some t → t < startOfDay (clk 0)) :
    checkIn startOfDay clk db firebaseUid =
      ({ db with users := updateFirst (fun u => decide (u.uid = firebaseUid))
                   (fun _ =>
                     { user with
                         coins := user.coins + 50,
                         lastCheckIn := some (clk 1),
                         transactions :=
                           { id := toString (clk 2), type := "earn", amount := 50,
                             description := "Daily check-in reward", date := clk 3 } ::
                             user.transactions,
                         notifications :=
                           { id := toString (clk 4), title := "Daily Check-in Reward!",
                             message := "You earned 50 coins for checking in today.",
                             type := "reward", read := false, timestamp := clk 5,
                             date := some (clk 6) } :: user.notifications }) db.users },
       { code := 200, message := "Check-in successful", coins := some (user.coins + 50),
         transaction := some
           { id := toString (clk 2), type := "earn", amount := 50,
             description := "Daily check-in reward", date := clk 3 },
         notification := some
           { id := toString (clk 4), title := "Daily Check-in Reward!",
             message := "You earned 50 coins for checking in today.",
             type := "reward", read := false, timestamp := clk 5, date := some (clk 6) } }) := by
  cases hl : user.lastCheckIn with
  | none => simp [checkIn, huser, hl]
  | some t =>
    have hlt : ¬ startOfDay (clk 0) ≤ t := not_le.mpr (hlast t hl)
    simp [checkIn, huser, hl, hlt]

theorem resetCheckIns_lastCheckIn (db : Database) :
    ∀ u ∈ (resetCheckIns db).users, u.lastCheckIn = none := by
  intro u hu
  obtain ⟨v, _, hv⟩ := List.mem_map.mp hu
  rw [← hv]

/-- C28: for every user whose `lastCheckIn` is at or after the start of the
current day, a check-in is answered 400 "Already checked in today" and leaves
the store, hence balance, `lastCheckIn`, transactions and notifications,
unchanged. For every other user (no `lastCheckIn`, or one before the start of
the day) it is answered 200, adds exactly 50 coins, sets `lastCheckIn` to the
current time and puts one `earn` transaction of amount 50 and one notification
at the front of their lists. Hence of two check-ins on the same day, with no
reset in between, the second is refused and 50 coins are credited once. -/
theorem checkIn_once_per_day :
    (∀ (startOfDay : Timestamp → Timestamp) (clk : Clock) (db : Database)
        (firebaseUid : String) (user : User) (t : Timestamp),
      findUserByUid db firebaseUid = some user → user.lastCheckIn = some t →
      startOfDay (clk 0) ≤ t →
      checkIn startOfDay clk db firebaseUid =
          (db, { code := 400, message := "Already checked in today" }) ∧
        findUserByUid (checkIn startOfDay clk db firebaseUid).1 firebaseUid = some user) ∧
    (∀ (startOfDay : Timestamp → Timestamp) (clk : Clock) (db : Database)
        (firebaseUid : String) (user : User),
      findUserByUid db firebaseUid = some user →
      (∀ t, user.lastCheckIn = some t → t < startOfDay (clk 0)) →
      ∃ (updated : User) (t : Transaction) (n : Notification),
        (checkIn startOfDay clk db firebaseUid).2.code = 200 ∧
        findUserByUid (checkIn startOfDay clk db firebaseUid).1 firebaseUid = some updated ∧
        updated.coins = user.coins + 50 ∧
        (checkIn startOfDay clk db firebaseUid).2.coins = some updated.coins ∧
        updated.lastCheckIn = some (clk 1) ∧
        updated.transactions = t :: user.transactions ∧ t.type = "earn" ∧ t.amount = 50 ∧
        updated.notifications = n :: user.notifications) ∧
    (∀ (startOfDay : Timestamp → Timestamp) (clk1 clk2 : Clock) (db : Database)
        (firebaseUid : String) (user : User),
      findUserByUid db firebaseUid = some user →
      (∀ t, user.lastCheckIn = some t → t < startOfDay (clk1 0)) →
      (∀ t, startOfDay t ≤ t) → clk1 0 ≤ clk1 1 →
      startOfDay (clk2 0) = startOfDay (clk1 0) →
      checkIn startOfDay clk2 (checkIn startOfDay clk1 db firebaseUid).1 firebaseUid =
          ((checkIn startOfDay clk1 db firebaseUid).1,
           { code := 400, message := "Already checked in today" }) ∧
        (findUserByUid
          (checkIn startOfDay clk2 (checkIn startOfDay clk1 db firebaseUid).1 firebaseUid).1
          firebaseUid).map (fun u => u.coins) = some (user.coins + 50)) := by
  refine ⟨?_, ?_, ?_⟩
  · intro startOfDay clk db firebaseUid user t huser hlast hday
    rw [checkIn_rejected startOfDay clk db firebaseUid user t huser hlast hday]
    exact ⟨rfl, huser⟩
  · intro startOfDay clk db firebaseUid user huser hlast
    rw [checkIn_accepted startOfDay clk db firebaseUid user huser hlast]
    have hf := findUserByUid_save db firebaseUid user
      { user with
          coins := user.coins + 50,
          lastCheckIn := some (clk 1),
          transactions :=
            { id := toString (clk 2), type := "earn", amount := 50,
              description := "Daily check-in reward", date := clk 3 } :: user.transactions,
          notifications :=
            { id := toString (clk 4), title := "Daily Check-in Reward!",
              message := "You earned 50 coins for checking in today.",
              type := "reward", read := false, timestamp := clk 5,
              date := some (clk 6) } :: user.notifications }
      huser (findUserByUid_uid db firebaseUid user huser)
    exact ⟨_, _, _, rfl, hf, rfl, rfl, rfl, rfl, rfl, rfl, rfl⟩
  · intro startOfDay clk1 clk2 db firebaseUid user huser hlast hstart hclock hsame
    rw [checkIn_accepted startOfDay clk1 db firebaseUid user huser hlast]
    have hf := findUserByUid_save db firebaseUid user
      { user with
          coins := user.coins + 50,
          lastCheckIn := some (clk1 1),
          transactions :=
            { id := toString (clk1 2), type := "earn", amount := 50,
              description := "Daily check-in reward", date := clk1 3 } :: user.transactions,
          notifications :=
            { id := toString (clk1 4), title := "Daily Check-in Reward!",
              message := "You earned 50 coins for checking in today.",
              type := "reward", read := false, timestamp := clk1 5,
              date := some (clk1 6) } :: user.notifications }
      huser (findUserByUid_uid db firebaseUid user huser)
    have hday : startOfDay (clk2 0) ≤ clk1 1 := by
      rw [hsame]
      exact le_trans (hstart (clk1 0)) hclock
    rw [checkIn_rejected startOfDay clk2 _ firebaseUid _ (clk1 1) hf rfl hday]
    refine ⟨rfl, ?_⟩
    show (findUserByUid _ firebaseUid).map (fun u => u.coins) = _
    rw [hf]
    rfl

/-- C28, witness: the fresh example user checks in, and checks in again five
seconds later on the same UTC day. -/
theorem checkIn_once_per_day_witness :
    (checkIn exStartOfDay exClock2 (checkIn exStartOfDay exClock1 exDb "firebase-uid-1").1
        "firebase-uid-1" =
      ((checkIn exStartOfDay exClock1 exDb "firebase-uid-1").1,
       { code := 400, message := "Already checked in today" }) ∧
      findUserByUid
        (checkIn exStartOfDay exClock2 (checkIn exStartOfDay exClock1 exDb "firebase-uid-1").1
          "firebase-uid-1").1 "firebase-uid-1" =
        some
          { exUser with
              coins := exUser.coins + 50,
              lastCheckIn := some 1700000000000,
              transactions :=
                [{ id := "1700000000000", type := "earn", amount := 50,
                   description := "Daily check-in reward", date := 1700000000000 }],
              notifications :=
                [{ id := "1700000000000", title := "Daily Check-in Reward!",
                   message := "You earned 50 coins for checking in today.",
                   type := "reward", read := false, timestamp := 1700000000000,
                   date := some 1700000000000 }] }) ∧
    (∃ (updated : User) (t : Transaction) (n : Notification),
        (checkIn exStartOfDay exClock1 exDb "firebase-uid-1").2.code = 200 ∧
        findUserByUid (checkIn exStartOfDay exClock1 exDb "firebase-uid-1").1
          "firebase-uid-1" = some updated ∧
        updated.coins = exUser.coins + 50 ∧
        (checkIn exStartOfDay exClock1 exDb "firebase-uid-1").2.coins = some updated.coins ∧
        updated.lastCheckIn = some (exClock1 1) ∧
        updated.transactions = t :: exUser.transactions ∧ t.type = "earn" ∧ t.amount = 50 ∧
        updated.notifications = n :: exUser.notifications) ∧
    (checkIn exStartOfDay exClock2 (checkIn exStartOfDay exClock1 exDb "firebase-uid-1").1
        "firebase-uid-1" =
      ((checkIn exStartOfDay exClock1 exDb "firebase-uid-1").1,
       { code := 400, message := "Already checked in today" }) ∧
      (findUserByUid
        (checkIn exStartOfDay exClock2 (checkIn exStartOfDay exClock1 exDb "firebase-uid-1").1
          "firebase-uid-1").1 "firebase-uid-1").map (fun u => u.coins) =
        some (exUser.coins + 50)) :=
  ⟨checkIn_once_per_day.1 exStartOfDay exClock2
      (checkIn exStartOfDay exClock1 exDb "firebase-uid-1").1 "firebase-uid-1"
      { exUser with
          coins := exUser.coins + 50,
          lastCheckIn := some 1700000000000,
          transactions :=
            [{ id := "1700000000000", type := "earn", amount := 50,
               description := "Daily check-in reward", date := 1700000000000 }],
          notifications :=
            [{ id := "1700000000000", title := "Daily Check-in Reward!",
               message := "You earned 50 coins for checking in today.",
               type := "reward", read := false, timestamp := 1700000000000,
               date := some 1700000000000 }] }
      1700000000000 (by rfl) rfl (by decide),
   checkIn_once_per_day.2.1 exStartOfDay exClock1 exDb "firebase-uid-1" exUser rfl
      (fun t h => Option.noConfusion h),
   checkIn_once_per_day.2.2 exStartOfDay exClock1 exClock2 exDb "firebase-uid-1" exUser rfl
      (fun t h => Option.noConfusion h) (fun t => Nat.sub_le t _) (le_refl _) (by decide)⟩

/-! ## Referral codes -/

theorem digitChar_isDecimalDigit (d : Nat) (h : d < 10) :
    isDecimalDigit (Nat.digitChar d) = true := by
  interval_cases d <;> rfl

theorem toDigitsCore_isDecimalDigit (fuel : Nat) :
    ∀ (n : Nat) (acc : List Char), (∀ c ∈ acc, isDecimalDigit c = true) →
      ∀ c ∈ Nat.toDigitsCore 10 fuel n acc, isDecimalDigit c = true := by
  induction fuel with
  | zero => intro n acc hacc; simpa [Nat.toDigitsCore] using hacc
  | succ fuel ih =>
    intro n acc hacc
    have hd : ∀ c ∈ Nat.digitChar (n % 10) :: acc, isDecimalDigit c = true := by
      intro c hc
      rcases List.mem_cons.mp hc with h | h
      · rw [h]
        exact digitChar_isDecimalDigit _ (Nat.mod_lt _ (by decide))
      · exact hacc c h
    simp only [Nat.toDigitsCore]
    split
    · exact hd
    · exact ih _ _ hd

theorem toDigitsCore_length_ge (fuel : Nat) :
    ∀ (n : Nat) (acc : List Char), acc.length ≤ (Nat.toDigitsCore 10 fuel n acc).length := by
  induction fuel with
  | zero => intro n acc; simp [Nat.toDigitsCore]
  | succ fuel ih =>
    intro n acc
    simp only [Nat.toDigitsCore]
    split
    · simp
    · exact le_trans (by simp) (ih _ _)

/-- The decimal representation of a number from 100 on has at least 3 characters. -/
theorem toDigits_length_ge_three (n : Nat) (h : 100 ≤ n) : 3 ≤ (Nat.toDigits 10 n).length := by
  obtain ⟨m, hm⟩ : ∃ m, n + 1 = m + 3 := ⟨n - 2, by omega⟩
  have h1 : n / 10 ≠ 0 := by omega
  have h2 : n / 10 / 10 ≠ 0 := by omega
  unfold Nat.toDigits
  rw [hm]
  simp only [Nat.toDigitsCore, h1, h2, if_false]
  split
  · simp
  · exact le_trans (by simp) (toDigitsCore_length_ge _ _ _)

theorem toString_toList (n : Nat) : (toString n).toList = Nat.toDigits 10 n := rfl

theorem sliceLast_three_timestamp (n : Nat) (h : 100 ≤ n) :
    (sliceLast 3 (toString n)).toList.length = 3 ∧
    ∀ c ∈ (sliceLast 3 (toString n)).toList, isDecimalDigit c = true := by
  have hl := toDigits_length_ge_three n h
  constructor
  · show ((toString n).toList.drop ((toString n).toList.length - 3)).length = 3
    rw [toString_toList, List.length_drop]
    omega
  · intro c hc
    have hc2 : c ∈ (toString n).toList.drop ((toString n).toList.length - 3) := hc
    rw [toString_toList] at hc2
    exact toDigitsCore_isDecimalDigit _ _ _ (by simp) c (List.mem_of_mem_drop hc2)

theorem characters_length : characters.length = 36 := by rfl

/-- One random character: `Math.random()` is at least 0 and below 1, so the
index is one of the 36 positions of the alphabet. -/
theorem charAt_characters (r : ℚ) (h0 : 0 ≤ r) (h1 : r < 1) :
    ∃ c : Char, charAt characters ⌊r * (characters.length : ℚ)⌋ = String.singleton c ∧
      c ∈ characters.toList := by
  rw [characters_length]
  have hnn : (0 : ℤ) ≤ ⌊r * ((36 : ℕ) : ℚ)⌋ := Int.floor_nonneg.mpr (by positivity)
  have hlt : ⌊r * ((36 : ℕ) : ℚ)⌋ < 36 := by
    rw [Int.floor_lt]
    push_cast
    linarith
  have hidx : (⌊r * ((36 : ℕ) : ℚ)⌋).toNat < characters.toList.length := by
    have : characters.toList.length = 36 := by rfl
    rw [this]
    omega
  have hget : characters.toList.get? (⌊r * ((36 : ℕ) : ℚ)⌋).toNat =
      some (characters.toList.get ⟨_, hidx⟩) := List.get?_eq_get hidx
  refine ⟨characters.toList.get ⟨_, hidx⟩, ?_, List.get_mem _ _ _⟩
  simp only [charAt, not_lt.mpr hnn, if_false, hget]

theorem characters_upper : ∀ c ∈ characters.toList, isUpperAlphanumeric c = true := by
  decide

theorem toUpper_isUpperAlphanumeric (c : Char) (h : isAlphanumeric c = true) :
    isUpperAlphanumeric c.toUpper = true := by
  by_cases hl : 97 ≤ c.toNat ∧ c.toNat ≤ 122
  · have hup : c.toUpper = Char.ofNat (c.toNat - 32) := by
      simp [Char.toUpper, hl]
    rw [hup]
    obtain ⟨k, hk⟩ : ∃ k, c.toNat = k := ⟨_, rfl⟩
    rw [hk] at hl ⊢
    obtain ⟨hl1, hl2⟩ := hl
    interval_cases k <;> rfl
  · have hup : c.toUpper = c := by
      simp only [Char.toUpper]
      rw [if_neg]
      simpa using hl
    rw [hup]
    simp only [isAlphanumeric, Bool.or_eq_true, Bool.and_eq_true, decide_eq_true_eq] at h
    simp only [isUpperAlphanumeric, Bool.or_eq_true, Bool.and_eq_true, decide_eq_true_eq]
    rcases h with (h | h) | h
    · exact absurd h hl
    · exact Or.inl h
    · exact Or.inr h

theorem generateReferralCode_toList (random : Nat → ℚ) (clk : Clock) (name : String) :
    (generateReferralCode random clk name).toList =
      ((name.toList.filter isAlphanumeric).take 3).map Char.toUpper ++
        ((charAt characters ⌊random 0 * (characters.length : ℚ)⌋).toList ++
          (charAt characters ⌊random 1 * (characters.length : ℚ)⌋).toList ++
          (charAt characters ⌊random 2 * (characters.length : ℚ)⌋).toList ++
          (charAt characters ⌊random 3 * (characters.length : ℚ)⌋).toList) ++
        (sliceLast 3 (toString (clk 0))).toList := by
  have hr : List.range 4 = [0, 1, 2, 3] := by rfl
  simp only [generateReferralCode, hr, List.foldl_cons, List.foldl_nil, String.toList,
    String.data_append]
  simp

/-- C30: with `Math.random()` at least 0 and below 1 and a timestamp of at least
three digits, for every name `generateReferralCode` returns the first
min(3, k) alphanumeric characters of the name in upper case (k the number of
characters `a-z`, `A-Z`, `0-9` in the name), then 4 characters of the alphabet
`A-Z0-9`, then the last 3 decimal digits of the timestamp; all its characters
are in `A-Z0-9` and its length is min(3, k) + 7, between 7 and 10. -/
theorem generateReferralCode_layout (random : Nat → ℚ) (clk : Clock) (name : String)
    (hrandom : ∀ i, 0 ≤ random i ∧ random i < 1) (hclock : 100 ≤ clk 0) :
    ∃ randomChars digits : List Char,
      (generateReferralCode random clk name).toList =
        ((name.toList.filter isAlphanumeric).take 3).map Char.toUpper ++ randomChars ++
          digits ∧
      (((name.toList.filter isAlphanumeric).take 3).map Char.toUpper).length =
        min 3 (name.toList.filter isAlphanumeric).length ∧
      randomChars.length = 4 ∧ (∀ c ∈ randomChars, c ∈ characters.toList) ∧
      digits = (toString (clk 0)).toList.drop ((toString (clk 0)).toList.length - 3) ∧
      digits.length = 3 ∧ (∀ c ∈ digits, isDecimalDigit c = true) ∧
      (∀ c ∈ (generateReferralCode random clk name).toList, isUpperAlphanumeric c = true) ∧
      (generateReferralCode random clk name).length =
        min 3 (name.toList.filter isAlphanumeric).length + 7 ∧
      7 ≤ (generateReferralCode random clk name).length ∧
      (generateReferralCode random clk name).length ≤ 10 := by
  obtain ⟨c0, h0, m0⟩ := charAt_characters (random 0) (hrandom 0).1 (hrandom 0).2
  obtain ⟨c1, h1, m1⟩ := charAt_characters (random 1) (hrandom 1).1 (hrandom 1).2
  obtain ⟨c2, h2, m2⟩ := charAt_characters (random 2) (hrandom 2).1 (hrandom 2).2
  obtain ⟨c3, h3, m3⟩ := charAt_characters (random 3) (hrandom 3).1 (hrandom 3).2
  obtain ⟨hdl, hdd⟩ := sliceLast_three_timestamp (clk 0) hclock
  have hlist := generateReferralCode_toList random clk name
  rw [h0, h1, h2, h3] at hlist
  have hs : ∀ c : Char, (String.singleton c).toList = [c] := fun _ => rfl
  simp only [hs, List.singleton_append] at hlist
  have hplen : (((name.toList.filter isAlphanumeric).take 3).map Char.toUpper).length =
      min 3 (name.toList.filter isAlphanumeric).length := by
    rw [List.length_map, List.length_take]
  have hrc : ∀ c ∈ [c0, c1, c2, c3], c ∈ characters.toList := by
    intro c hc
    simp only [List.mem_cons, List.mem_singleton, List.not_mem_nil, or_false] at hc
    rcases hc with h | h | h | h <;> rw [h] <;> assumption
  have hlen : (generateReferralCode random clk name).toList.length =
      min 3 (name.toList.filter isAlphanumeric).length + 7 := by
    rw [hlist, List.length_append, List.length_append, hplen, hdl]
    rfl
  refine ⟨[c0, c1, c2, c3], (sliceLast 3 (toString (clk 0))).toList, hlist, hplen, rfl, hrc,
    rfl, hdl, hdd, ?_, hlen, ?_, ?_⟩
  · intro c hc
    rw [hlist] at hc
    rcases List.mem_append.mp hc with hc1 | hc1
    · rcases List.mem_append.mp hc1 with hc2 | hc2
      · obtain ⟨x, hx, hxc⟩ := List.mem_map.mp hc2
        rw [← hxc]
        exact toUpper_isUpperAlphanumeric x
          (List.mem_filter.mp (List.mem_of_mem_take hx)).2
      · exact characters_upper c (hrc c hc2)
    · have := hdd c hc1
      simp only [isDecimalDigit] at this
      simp only [isUpperAlphanumeric, this, Bool.or_true]
  · show 7 ≤ (generateReferralCode random clk name).toList.length
    omega
  · show (generateReferralCode random clk name).toList.length ≤ 10
    rw [hlen]
    have := Nat.min_le_left 3 (name.toList.filter isAlphanumeric).length
    omega

theorem exRandom_range : ∀ i, 0 ≤ exRandom i ∧ exRandom i < 1 := by
  intro i
  unfold exRandom
  have h : i % 4 < 4 := Nat.mod_lt _ (by decide)
  constructor
  · positivity
  · rw [div_lt_one (by norm_num)]
    exact_mod_cast h

/-- C30, witness: the code generated for the name `Asha K.` at the first
example time. -/
theorem generateReferralCode_layout_witness :
    ∃ randomChars digits : List Char,
      (generateReferralCode exRandom exClock1 "Asha K.").toList =
        (("Asha K.".toList.filter isAlphanumeric).take 3).map Char.toUpper ++ randomChars ++
          digits ∧
      ((("Asha K.".toList.filter isAlphanumeric).take 3).map Char.toUpper).length =
        min 3 ("Asha K.".toList.filter isAlphanumeric).length ∧
      randomChars.length = 4 ∧ (∀ c ∈ randomChars, c ∈ characters.toList) ∧
      digits = (toString (exClock1 0)).toList.drop ((toString (exClock1 0)).toList.length - 3) ∧
      digits.length = 3 ∧ (∀ c ∈ digits, isDecimalDigit c = true) ∧
      (∀ c ∈ (generateReferralCode exRandom exClock1 "Asha K.").toList,
        isUpperAlphanumeric c = true) ∧
      (generateReferralCode exRandom exClock1 "Asha K.").length =
        min 3 ("Asha K.".toList.filter isAlphanumeric).length + 7 ∧
      7 ≤ (generateReferralCode exRandom exClock1 "Asha K.").length ∧
      (generateReferralCode exRandom exClock1 "Asha K.").length ≤ 10 :=
  generateReferralCode_layout exRandom exClock1 "Asha K." exRandom_range (by decide)

/-! ## Profile updates -/

theorem sameOutsideAllowList_refl (u : User) : SameOutsideAllowList u u := rfl

theorem sameOutsideAllowList_trans (u v w : User) (h1 : SameOutsideAllowList u v)
    (h2 : SameOutsideAllowList v w) : SameOutsideAllowList u w := by
  unfold SameOutsideAllowList at *
  rw [h2, h1]

/-- Each assignment to an allow-listed path leaves the other fields alone. -/
theorem setField_frame (m : Mongoose) (key : String) (value : JsValue) (f : User → User)
    (hkey : key ∈ allowedUpdates) (h : setField m key value = .ok f) :
    ∀ u, SameOutsideAllowList u (f u) := by
  unfold setField at h
  split at h
  · split at h
    · cases h; intro u; rfl
    · cases h
  · split at h
    · split at h
      · cases h; intro u; rfl
      · cases h
    · split at h
      · split at h
        · cases h; intro u; rfl
        · cases h
      · split at h
        · split at h
          · cases h; intro u; rfl
          · cases h
        · split at h
          · split at h
            · cases h; intro u; rfl
            · cases h
          · split at h
            · split at h
              · cases h; intro u; rfl
              · cases h
            · split at h
              · split at h
                · cases h; intro u; rfl
                · cases h
              · split at h
                · rename_i hk
                  rw [hk] at hkey
                  exact absurd hkey (by decide)
                · cases h; intro u; rfl

theorem setFields_frame (m : Mongoose) :
    ∀ (updates : RequestBody) (f : User → User),
      (∀ kv ∈ updates, kv.1 ∈ allowedUpdates) → setFields m updates = .ok f →
      ∀ u, SameOutsideAllowList u (f u) := by
  intro updates
  induction updates with
  | nil =>
    intro f _ h u
    simp only [setFields] at h
    cases h
    rfl
  | cons kv rest ih =>
    intro f hkeys h u
    obtain ⟨key, value⟩ := kv
    simp only [setFields] at h
    cases h1 : setField m key value with
    | error e => simp [h1] at h
    | ok g =>
      cases h2 : setFields m rest with
      | error e => simp [h1, h2] at h
      | ok g2 =>
        simp only [h1, h2] at h
        cases h
        exact sameOutsideAllowList_trans u (g u) (g2 (g u))
          (setField_frame m key value g (hkeys (key, value) (List.mem_cons_self _ _)) h1 u)
          (ih g2 (fun kv hkv => hkeys kv (List.mem_cons_of_mem _ hkv)) h2 (g u))

theorem getElem?_updateFirst {α : Type} (p : α → Bool) (g : α → α) :
    ∀ (l : List α) (i : Nat) (u : α), l[i]? = some u →
      (updateFirst p g l)[i]? = some u ∨ (updateFirst p g l)[i]? = some (g u) := by
  intro l
  induction l with
  | nil => intro i u h; simp at h
  | cons y ys ih =>
    intro i u h
    by_cases hp : p y = true
    · have h1 : updateFirst p g (y :: ys) = g y :: ys := by simp [updateFirst, hp]
      rw [h1]
      cases i with
      | zero =>
        right
        have : y = u := by simpa using h
        simp [this]
      | succ j =>
        left
        simpa using h
    · have h1 : updateFirst p g (y :: ys) = y :: updateFirst p g ys := by
        simp [updateFirst, hp]
      rw [h1]
      cases i with
      | zero =>
        left
        simpa using h
      | succ j =>
        have h2 : ys[j]? = some u := by simpa using h
        simpa using ih j u h2

/-- The store after `PATCH /:firebaseUid`: as before, or with the user rewritten
by the assignments of the allow-listed entries of the body. -/
theorem patchUser_store (m : Mongoose) (db : Database) (firebaseUid : String)
    (body : RequestBody) :
    (patchUser m db firebaseUid body).1 = db ∨
    ∃ f : User → User,
      setFields m (body.filter (fun kv => allowedUpdates.contains kv.1)) = .ok f ∧
      (patchUser m db firebaseUid body).1 =
        { db with users := updateFirst (fun u => decide (u.uid = firebaseUid)) f db.users } := by
  unfold patchUser
  dsimp only
  split
  · exact Or.inl rfl
  · split
    · exact Or.inl rfl
    · rename_i f hf
      split
      · exact Or.inl rfl
      · split
        · exact Or.inl rfl
        · exact Or.inr ⟨f, hf, rfl⟩

/-- C23: for every request body, `PATCH /:firebaseUid` leaves the offers and the
clicks as they are and leaves every user document, at its position, with every
field outside `name`, `email`, `phone`, `dateOfBirth`, `gender`,
`profileImageUrl`, `advertisingID` unchanged (so `coins`, `transactions`,
`withdrawals` and the referral fields are what they were); a body with no
allow-listed key is answered 400 "No valid fields to update" without any
change. `PATCH /profile/:uid` answers 400 "Invalid updates!" without any change
to every body that has a key outside its allow-list. -/
theorem profile_updates_allow_listed :
    (∀ (m : Mongoose) (db : Database) (firebaseUid : String) (body : RequestBody),
      (patchUser m db firebaseUid body).1.offers = db.offers ∧
      (patchUser m db firebaseUid body).1.clicks = db.clicks ∧
      (patchUser m db firebaseUid body).1.users.length = db.users.length ∧
      ∀ (i : Nat) (u : User), db.users[i]? = some u →
        ∃ v : User, (patchUser m db firebaseUid body).1.users[i]? = some v ∧
          SameOutsideAllowList u v ∧
          v.coins = u.coins ∧ v.transactions = u.transactions ∧
          v.withdrawals = u.withdrawals ∧ v.referralCode = u.referralCode ∧
          v.usedReferralCode = u.usedReferralCode ∧ v.referredBy = u.referredBy ∧
          v.referralCount = u.referralCount ∧ v.uid = u.uid) ∧
    (∀ (m : Mongoose) (db : Database) (firebaseUid : String) (body : RequestBody),
      (∀ kv ∈ body, kv.1 ∉ allowedUpdates) →
      patchUser m db firebaseUid body =
        (db, { code := 400, message := some "No valid fields to update" })) ∧
    (∀ (m : Mongoose) (db : Database) (uid : String) (updates : RequestBody),
      (∃ kv ∈ updates, kv.1 ∉ allowedProfileUpdates) →
      patchProfile m db uid updates = (db, { code := 400, error := some "Invalid updates!" })) := by
  refine ⟨?_, ?_, ?_⟩
  · intro m db firebaseUid body
    have hfields : ∀ u v : User, SameOutsideAllowList u v →
        SameOutsideAllowList u v ∧
          v.coins = u.coins ∧ v.transactions = u.transactions ∧
          v.withdrawals = u.withdrawals ∧ v.referralCode = u.referralCode ∧
          v.usedReferralCode = u.usedReferralCode ∧ v.referredBy = u.referredBy ∧
          v.referralCount = u.referralCount ∧ v.uid = u.uid := by
      intro u v h
      refine ⟨h, ?_⟩
      unfold SameOutsideAllowList at h
      rw [h]
      exact ⟨rfl, rfl, rfl, rfl, rfl, rfl, rfl, rfl⟩
    rcases patchUser_store m db firebaseUid body with h | ⟨f, hf, h⟩
    · rw [h]
      exact ⟨rfl, rfl, rfl, fun i u hu => ⟨u, hu, hfields u u (sameOutsideAllowList_refl u)⟩⟩
    · rw [h]
      refine ⟨rfl, rfl, length_updateFirst _ _ _, ?_⟩
      intro i u hu
      have hframe := setFields_frame m _ f
        (fun kv hkv => by
          have := (List.mem_filter.mp hkv).2
          simpa using this) hf
      rcases getElem?_updateFirst (fun u : User => decide (u.uid = firebaseUid)) f db.users i u
        hu with h1 | h1
      · exact ⟨u, h1, hfields u u (sameOutsideAllowList_refl u)⟩
      · exact ⟨f u, h1, hfields u (f u) (hframe u)⟩
  · intro m db firebaseUid body hnone
    have hfilter : body.filter (fun kv => allowedUpdates.contains kv.1) = [] := by
      rw [List.filter_eq_nil_iff]
      intro kv hkv
      simpa using hnone kv hkv
    unfold patchUser
    dsimp only
    rw [hfilter]
    rfl
  · intro m db uid updates hbad
    obtain ⟨kv, hkv, hnot⟩ := hbad
    have hall : updates.all (fun kv => allowedProfileUpdates.contains kv.1) = false := by
      rw [List.all_eq_false]
      exact ⟨kv, hkv, by simpa using hnot⟩
    unfold patchProfile
    dsimp only
    rw [hall]
    rfl

/-- C23, witness: a body that renames the example user and asks for a million
coins changes the name only; a body that only asks for the coins is refused;
the profile route refuses the first body outright. -/
theorem profile_updates_allow_listed_witness :
    (patchUser exMongoose exDb "firebase-uid-1"
      [("name", .str "Asha K"), ("coins", .num (.fin 1000000))]).1.users =
        [{ exUser with name := "Asha K" }] ∧
    (∃ v : User,
      (patchUser exMongoose exDb "firebase-uid-1"
        [("name", .str "Asha K"), ("coins", .num (.fin 1000000))]).1.users[0]? = some v ∧
      SameOutsideAllowList exUser v ∧
      v.coins = exUser.coins ∧ v.transactions = exUser.transactions ∧
      v.withdrawals = exUser.withdrawals ∧ v.referralCode = exUser.referralCode ∧
      v.usedReferralCode = exUser.usedReferralCode ∧ v.referredBy = exUser.referredBy ∧
      v.referralCount = exUser.referralCount ∧ v.uid = exUser.uid) ∧
    patchUser exMongoose exDb "firebase-uid-1" [("coins", .num (.fin 1000000))] =
      (exDb, { code := 400, message := some "No valid fields to update" }) ∧
    patchProfile exMongoose exDb "firebase-uid-1"
        [("name", .str "Asha K"), ("coins", .num (.fin 1000000))] =
      (exDb, { code := 400, error := some "Invalid updates!" }) :=
  ⟨by rfl,
   (profile_updates_allow_listed.1 exMongoose exDb "firebase-uid-1"
      [("name", .str "Asha K"), ("coins", .num (.fin 1000000))]).2.2.2 0 exUser rfl,
   profile_updates_allow_listed.2.1 exMongoose exDb "firebase-uid-1"
      [("coins", .num (.fin 1000000))]
      (by
        intro kv hkv
        have : kv = ("coins", .num (.fin 1000000)) := by simpa using hkv
        rw [this]
        decide),
   profile_updates_allow_listed.2.2 exMongoose exDb "firebase-uid-1"
      [("name", .str "Asha K"), ("coins", .num (.fin 1000000))]
      ⟨("coins", .num (.fin 1000000)), by simp, by decide⟩⟩

/-! ## Balances -/

/-- The store after a withdraw call, with the cost as an integer. -/
theorem withdraw_store_cost (rt : Runtime) (clk : Clock) (db : Database)
    (firebaseUid : String) (amount : JsValue) :
    (withdraw rt clk db firebaseUid amount).1 = db ∨
    ∃ (user : User) (cost : ℤ) (withdrawal : Withdrawal) (transaction : Transaction)
        (notification : Notification),
      (withdraw rt clk db firebaseUid amount).1 =
        { db with users := updateFirst (fun u => decide (u.uid = firebaseUid))
                    (applyWithdrawal (cost : ℚ) withdrawal transaction notification)
                    db.users } ∧
      findUserByUid db firebaseUid = some user ∧
      (1 : ℚ) ≤ (cost : ℚ) ∧ (cost : ℚ) ≤ user.coins ∧
      (withdraw rt clk db firebaseUid amount).2.newBalance =
        some (user.coins + -(cost : ℚ)) := by
  rcases withdraw_store rt clk db firebaseUid amount with h |
    ⟨user, cost, w, t, n, hdb, huser, _, _, _, hone, hle, hnew⟩
  · exact Or.inl h
  · exact Or.inr ⟨user, cost, w, t, n, hdb, huser, by exact_mod_cast hone, hle, hnew⟩

/-- The store after a check-in: as before, or with the user rewritten with 50
coins more and one transaction of 50 in front. -/
theorem checkIn_store (startOfDay : Timestamp → Timestamp) (clk : Clock) (db : Database)
    (firebaseUid : String) :
    (checkIn startOfDay clk db firebaseUid).1 = db ∨
    ∃ (user saved : User) (transaction : Transaction),
      findUserByUid db firebaseUid = some user ∧ saved.coins = user.coins + 50 ∧
      saved.transactions = transaction :: user.transactions ∧ transaction.amount = 50 ∧
      (checkIn startOfDay clk db firebaseUid).1 =
        { db with users := updateFirst (fun u => decide (u.uid = firebaseUid))
                    (fun _ => saved) db.users } := by
  unfold checkIn
  split
  · exact Or.inl rfl
  · rename_i user huser
    dsimp only
    split
    · exact Or.inl rfl
    · exact Or.inr ⟨user, _, _, huser, rfl, rfl, rfl, rfl⟩

/-- The store after a postback: as before, or with the click rewritten, its
reward value kept, and possibly that value added to the balance of its owner. -/
theorem postback_store (clk : Clock) (db : Database) (req : PostbackRequest) :
    (postback clk db req).1 = db ∨
    ∃ (click saved : Click),
      findClick db (req.trackingId.getD "") = some click ∧
      (postback clk db req).1.offers = db.offers ∧
      (postback clk db req).1.clicks =
        updateFirst (fun c => decide (c.clickId = req.trackingId.getD "")) (fun _ => saved)
          db.clicks ∧
      saved.rewardCoins = click.rewardCoins ∧
      ((postback clk db req).1.users = db.users ∨
        (postback clk db req).1.users =
          updateFirst (fun u => decide (u._id = click.userId))
            (fun u => { u with coins := u.coins + click.rewardCoins }) db.users) := by
  unfold postback
  split
  · exact Or.inl rfl
  · dsimp only
    split
    · exact Or.inl rfl
    · rename_i click hclick
      split
      · exact Or.inl rfl
      · split
        · exact Or.inl rfl
        · split
          · split
            · exact Or.inl rfl
            · exact Or.inr ⟨click, _, hclick, rfl, rfl, rfl, Or.inr rfl⟩
          · exact Or.inr ⟨click, _, hclick, rfl, rfl, rfl, Or.inl rfl⟩

/-- The store after a complete call: as before, or with the coin value of the
offer added to the balance of the user. -/
theorem completeOffer_store (rt : Runtime) (clk : Clock) (db : Database)
    (offerId firebaseUid : String) :
    (completeOffer rt clk db offerId firebaseUid).1 = db ∨
    ∃ (offerOid : ObjectId) (offer : Offer) (transaction : Transaction)
        (notification : Notification),
      findOfferById db offerId = some offer ∧ transaction.amount = offer.coins ∧
      (completeOffer rt clk db offerId firebaseUid).1 =
        { db with
            users := updateFirst (fun u => decide (u.uid = firebaseUid))
              (applyCompletion offerId offer.coins transaction notification) db.users,
            offers := updateFirst (fun o => decide (o._id = offerOid))
              (fun o => { o with completedBy := o.completedBy ++ [firebaseUid] })
              db.offers } := by
  unfold completeOffer
  split
  · exact Or.inl rfl
  · rename_i offerOid _
    split
    · exact Or.inl rfl
    · rename_i offer hoffer
      split
      · exact Or.inl rfl
      · split
        · exact Or.inl rfl
        · split
          · exact Or.inl rfl
          · exact Or.inr ⟨offerOid, offer, _, _, hoffer, rfl, rfl⟩

/-- One balance-changing call keeps a property of the coin values that is
closed under the additions and the deduction that the handlers make. -/
theorem coinValues_step (P : ℚ → Prop) (hadd : ∀ x y, P x → P y → P (x + y))
    (hfifty : P 50) (hbonus : P REFERRAL_BONUS)
    (hsub : ∀ (x : ℚ) (z : ℤ), P x → (1 : ℚ) ≤ (z : ℚ) → (z : ℚ) ≤ x → P (x + -(z : ℚ)))
    (rt : Runtime) (db : Database) (op : BalanceOp) (h : CoinValues P db) :
    CoinValues P (op.run rt db) := by
  obtain ⟨hu, ho, hc⟩ := h
  cases op with
  | withdraw clk firebaseUid amount =>
    rcases withdraw_store_cost rt clk db firebaseUid amount with
      e | ⟨user, cost, w, t, n, e, huser, hone, hle, _⟩
    · rw [BalanceOp.run, e]
      exact ⟨hu, ho, hc⟩
    · rw [BalanceOp.run, e]
      refine ⟨?_, ho, hc⟩
      intro u hmem
      rcases mem_updateFirst _ _ _ _ hmem with h1 | ⟨x, hx, hux⟩
      · exact hu u h1
      · have hxu : x = user := by
          unfold findUserByUid at huser
          rw [huser] at hx
          exact (Option.some.inj hx).symm
        rw [hux, hxu]
        exact hsub user.coins cost (hu user (List.mem_of_find?_eq_some huser)) hone hle
  | checkIn startOfDay clk firebaseUid =>
    rcases checkIn_store startOfDay clk db firebaseUid with
      e | ⟨user, saved, _, huser, hs, _, _, e⟩
    · rw [BalanceOp.run, e]
      exact ⟨hu, ho, hc⟩
    · rw [BalanceOp.run, e]
      refine ⟨?_, ho, hc⟩
      intro u hmem
      rcases mem_updateFirst _ _ _ _ hmem with h1 | ⟨x, _, hux⟩
      · exact hu u h1
      · rw [hux, hs]
        exact hadd _ _ (hu user (List.mem_of_find?_eq_some huser)) hfifty
  | referral clk firebaseUid referralCode =>
    by_cases hcode : (applyReferral clk db firebaseUid referralCode).2.code = 200
    · obtain ⟨c, a, r, _, _, _, _, _, _, e⟩ :=
        applyReferral_accepted clk db firebaseUid referralCode hcode
      rw [BalanceOp.run, e]
      refine ⟨?_, ho, hc⟩
      intro u hmem
      rcases mem_updateFirst _ _ _ _ hmem with h1 | ⟨x, hx, hux⟩
      · rcases mem_updateFirst _ _ _ _ h1 with h2 | ⟨y, hy, huy⟩
        · exact hu u h2
        · rw [huy]
          exact hu y (List.mem_of_find?_eq_some hy)
      · rw [hux]
        have hxm := List.mem_of_find?_eq_some hx
        have hPx : P x.coins := by
          rcases mem_updateFirst _ _ _ _ hxm with h2 | ⟨y, hy, hxy⟩
          · exact hu x h2
          · rw [hxy]
            exact hu y (List.mem_of_find?_eq_some hy)
        exact hadd _ _ hPx hbonus
    · rw [BalanceOp.run, applyReferral_rejected clk db firebaseUid referralCode hcode]
      exact ⟨hu, ho, hc⟩
  | postback clk req =>
    rcases postback_store clk db req with e | ⟨click, saved, hclick, eo, ec, hs, eu⟩
    · rw [BalanceOp.run, e]
      exact ⟨hu, ho, hc⟩
    · have hPc : P click.rewardCoins := hc click (List.mem_of_find?_eq_some hclick)
      refine ⟨?_, ?_, ?_⟩
      · rw [BalanceOp.run]
        rcases eu with eu | eu
        · rw [eu]
          exact hu
        · rw [eu]
          intro u hmem
          rcases mem_updateFirst _ _ _ _ hmem with h1 | ⟨x, hx, hux⟩
          · exact hu u h1
          · rw [hux]
            exact hadd _ _ (hu x (List.mem_of_find?_eq_some hx)) hPc
      · rw [BalanceOp.run, eo]
        exact ho
      · rw [BalanceOp.run, ec]
        intro c2 hmem
        rcases mem_updateFirst _ _ _ _ hmem with h1 | ⟨x, _, hcx⟩
        · exact hc c2 h1
        · rw [hcx, hs]
          exact hPc
  | complete clk offerId firebaseUid =>
    rcases completeOffer_store rt clk db offerId firebaseUid with
      e | ⟨offerOid, offer, t, n, hoffer, _, e⟩
    · rw [BalanceOp.run, e]
      exact ⟨hu, ho, hc⟩
    · rw [BalanceOp.run, e]
      have hPo : P offer.coins := by
        obtain ⟨oid, _, hfind⟩ := findOfferById_cast db offerId offer hoffer
        exact ho offer (List.mem_of_find?_eq_some hfind)
      refine ⟨?_, ?_, hc⟩
      · intro u hmem
        rcases mem_updateFirst _ _ _ _ hmem with h1 | ⟨x, hx, hux⟩
        · exact hu u h1
        · rw [hux]
          exact hadd _ _ (hu x (List.mem_of_find?_eq_some hx)) hPo
      · intro o hmem
        rcases mem_updateFirst _ _ _ _ hmem with h1 | ⟨x, hx, hox⟩
        · exact ho o h1
        · rw [hox]
          exact ho x (List.mem_of_find?_eq_some hx)

theorem coinValues_run (P : ℚ → Prop) (hadd : ∀ x y, P x → P y → P (x + y))
    (hfifty : P 50) (hbonus : P REFERRAL_BONUS)
    (hsub : ∀ (x : ℚ) (z : ℤ), P x → (1 : ℚ) ≤ (z : ℚ) → (z : ℚ) ≤ x → P (x + -(z : ℚ)))
    (rt : Runtime) (ops : List BalanceOp) :
    ∀ db : Database, CoinValues P db → CoinValues P (runBalanceOps rt db ops) := by
  induction ops with
  | nil => intro db h; exact h
  | cons op ops ih =>
    intro db h
    exact ih (op.run rt db) (coinValues_step P hadd hfifty hbonus hsub rt db op h)

theorem nonNegInteger_add (x y : ℚ) (hx : NonNegInteger x) (hy : NonNegInteger y) :
    NonNegInteger (x + y) := by
  obtain ⟨n, hn⟩ := hx
  obtain ⟨k, hk⟩ := hy
  exact ⟨n + k, by rw [hn, hk]; push_cast; rfl⟩

theorem nonNegInteger_sub (x : ℚ) (z : ℤ) (hx : NonNegInteger x) (_h1 : (1 : ℚ) ≤ (z : ℚ))
    (hle : (z : ℚ) ≤ x) : NonNegInteger (x + -(z : ℚ)) := by
  obtain ⟨n, hn⟩ := hx
  rw [hn] at hle ⊢
  have hle2 : z ≤ (n : ℤ) := by exact_mod_cast hle
  refine ⟨((n : ℤ) - z).toNat, ?_⟩
  have h3 : (((n : ℤ) - z).toNat : ℤ) = (n : ℤ) - z := Int.toNat_of_nonneg (by omega)
  have h4 : ((((n : ℤ) - z).toNat : ℤ) : ℚ) = (((n : ℤ) - z : ℤ) : ℚ) := by rw [h3]
  push_cast at h4
  rw [h4]
  ring

/-- C27 (as amended): in every state reached by withdrawal requests,
check-ins, referral applications, click postbacks and offer completions from a
store in which the balances (0 for freshly synced users), the coin values of
the offers and the reward values of the clicks are non-negative, every balance
is non-negative; when these values are non-negative integers, every balance is
a non-negative integer. A successful withdrawal never leaves the balance below
zero. -/
theorem balances_non_negative :
    (∀ (rt : Runtime) (db : Database) (ops : List BalanceOp),
      CoinValues (fun q => 0 ≤ q) db →
      CoinValues (fun q => 0 ≤ q) (runBalanceOps rt db ops)) ∧
    (∀ (rt : Runtime) (db : Database) (ops : List BalanceOp),
      CoinValues NonNegInteger db → CoinValues NonNegInteger (runBalanceOps rt db ops)) ∧
    (∀ (rt : Runtime) (clk : Clock) (db : Database) (firebaseUid : String) (amount : JsValue),
      (withdraw rt clk db firebaseUid amount).2.code = 201 →
      ∃ b : ℚ, (withdraw rt clk db firebaseUid amount).2.newBalance = some b ∧ 0 ≤ b ∧
        (findUserByUid (withdraw rt clk db firebaseUid amount).1 firebaseUid).map
          (fun u => u.coins) = some b) := by
  refine ⟨?_, ?_, ?_⟩
  · intro rt db ops h
    refine coinValues_run (fun q => 0 ≤ q) ?_ ?_ ?_ ?_ rt ops db h
    · intro x y hx hy
      exact add_nonneg hx hy
    · norm_num
    · norm_num [REFERRAL_BONUS]
    · intro x z _ _ hle
      linarith
  · intro rt db ops h
    exact coinValues_run NonNegInteger nonNegInteger_add ⟨50, by norm_num⟩
      ⟨500, by norm_num [REFERRAL_BONUS]⟩ nonNegInteger_sub rt ops db h
  · intro rt clk db firebaseUid amount hcode
    obtain ⟨a, q, user, pm, hp, hpos, hq, hqpos, hcost, hone, huser, hlt, hpm⟩ :=
      withdraw_created rt clk db firebaseUid amount hcode
    rw [withdraw_of_cost rt clk db firebaseUid amount a _ user hp hpos hcost huser]
    simp only [hlt, if_false, hpm]
    refine ⟨user.coins + -((⌈q⌉ : ℤ) : ℚ), rfl, ?_, ?_⟩
    · have := not_lt.mp hlt
      linarith
    · rw [findUserByUid_applyWithdrawal, huser]
      rfl

theorem half_not_nonNegInteger : ¬ NonNegInteger ((0 : ℚ) + 1 / 2) := by
  rintro ⟨n, hn⟩
  have h2 : (2 : ℚ) * (n : ℚ) = 1 := by linarith
  have h3 : 2 * n = 1 := by exact_mod_cast h2
  omega

/-- C27, witness: on the example store with the pending 100-coin click, after
a check-in, the postback for the click, a withdrawal request and a completion
of the 100-coin offer every balance is a non-negative integer. -/
theorem balances_non_negative_witness :
    CoinValues (fun q => 0 ≤ q) (runBalanceOps exRuntime exDbPending
      [.checkIn exStartOfDay exClock1 "firebase-uid-1", .postback exClock2 exInstalledPostback,
       .withdraw exClock2 "firebase-uid-1" (.num (.fin 5)),
       .complete exClock2 "64b7f1c2a3d4e5f607182931" "firebase-uid-1"]) ∧
    CoinValues NonNegInteger (runBalanceOps exRuntime exDbPending
      [.checkIn exStartOfDay exClock1 "firebase-uid-1", .postback exClock2 exInstalledPostback,
       .withdraw exClock2 "firebase-uid-1" (.num (.fin 5)),
       .complete exClock2 "64b7f1c2a3d4e5f607182931" "firebase-uid-1"]) ∧
    (∃ b : ℚ,
      (withdraw exRuntime exClock1 exDbRich "firebase-uid-1" (.num (.fin 50))).2.newBalance =
        some b ∧ 0 ≤ b ∧
      (findUserByUid (withdraw exRuntime exClock1 exDbRich "firebase-uid-1"
        (.num (.fin 50))).1 "firebase-uid-1").map (fun u => u.coins) = some b) :=
  ⟨balances_non_negative.1 exRuntime exDbPending _
      ⟨by intro u hu; simp [exDbPending, exDb] at hu; rw [hu]; simp [exUser],
       by intro o ho; simp [exDbPending, exDb] at ho; rw [ho]; simp [exOffer],
       by intro c hc; simp [exDbPending] at hc; rw [hc]; simp [exClick]⟩,
   balances_non_negative.2.1 exRuntime exDbPending _
      ⟨by intro u hu; simp [exDbPending, exDb] at hu; rw [hu]; exact ⟨0, by simp [exUser]⟩,
       by intro o ho; simp [exDbPending, exDb] at ho; rw [ho]; exact ⟨100, by simp [exOffer]⟩,
       by intro c hc; simp [exDbPending] at hc; rw [hc]; exact ⟨100, by simp [exClick]⟩⟩,
   balances_non_negative.2.2 exRuntime exClock1 exDbRich "firebase-uid-1" (.num (.fin 50))
      (by rw [withdraw_example])⟩

/-- C27, counterexample: the fresh example user completes the offer worth half
a coin, a non-negative coin value; the balance is then 1/2, not an integer. -/
theorem fractional_offer_counterexample :
    exUser.coins = 0 ∧ 0 ≤ exHalfCoinOffer.coins ∧
    findUserByUid exDbHalfCoin "firebase-uid-1" = some exUser ∧
    (completeOffer exRuntime exClock1 exDbHalfCoin "64b7f1c2a3d4e5f607182931"
      "firebase-uid-1").2.code = 200 ∧
    (findUserByUid (completeOffer exRuntime exClock1 exDbHalfCoin "64b7f1c2a3d4e5f607182931"
      "firebase-uid-1").1 "firebase-uid-1").map (fun u => u.coins) = some (0 + 1 / 2) ∧
    ¬ NonNegInteger ((0 : ℚ) + 1 / 2) := by
  have h := completeOffer_accepted exRuntime exClock1 exDbHalfCoin "64b7f1c2a3d4e5f607182931"
    "firebase-uid-1" "64b7f1c2a3d4e5f607182931" exHalfCoinOffer exUser (by decide) rfl rfl rfl
    (by simp [exUser])
  rw [h, findUserByUid_applyCompletion]
  refine ⟨rfl, ?_, rfl, rfl, rfl, half_not_nonNegInteger⟩
  norm_num [exHalfCoinOffer]

/-! ## Tracking URLs -/

theorem prefix_drop_lt {α : Type} (pat l : List α) (k : Nat) (hpat : pat ≠ [])
    (h : pat <+: l.drop k) : k < l.length := by
  by_contra hk
  have : l.drop k = [] := List.drop_eq_nil_of_le (not_lt.mp hk)
  rw [this] at h
  exact hpat (List.prefix_nil.mp h)

theorem includesChars_iff (pat : List Char) (hpat : pat ≠ []) :
    ∀ l : List Char, includesChars pat l = true ↔ ∃ k, pat <+: l.drop k := by
  intro l
  induction l with
  | nil =>
    constructor
    · intro h
      simp [includesChars, hpat] at h
    · rintro ⟨k, hk⟩
      simp at hk
      exact absurd hk hpat
  | cons c cs ih =>
    constructor
    · intro h
      simp only [includesChars, Bool.or_eq_true] at h
      rcases h with h | h
      · exact ⟨0, List.isPrefixOf_iff_prefix.mp h⟩
      · obtain ⟨k, hk⟩ := ih.mp h
        exact ⟨k + 1, by simpa using hk⟩
    · rintro ⟨k, hk⟩
      simp only [includesChars, Bool.or_eq_true]
      cases k with
      | zero => exact Or.inl (List.isPrefixOf_iff_prefix.mpr (by simpa using hk))
      | succ j => exact Or.inr (ih.mpr ⟨j, by simpa using hk⟩)

/-- The replacement acts at the first position at which the pattern occurs. -/
theorem replaceFirstChars_first (pat rep : List Char) (hpat : pat ≠ []) :
    ∀ l : List Char, includesChars pat l = true →
      ∃ k0, pat <+: l.drop k0 ∧ (∀ k, k < k0 → ¬ pat <+: l.drop k) ∧
        replaceFirstChars pat rep l = l.take k0 ++ rep ++ l.drop (k0 + pat.length) := by
  intro l
  induction l with
  | nil =>
    intro h
    simp [includesChars, hpat] at h
  | cons c cs ih =>
    intro h
    by_cases hp : pat.isPrefixOf (c :: cs) = true
    · refine ⟨0, by simpa using List.isPrefixOf_iff_prefix.mp hp, ?_, ?_⟩
      · intro k hk
        exact absurd hk (Nat.not_lt_zero k)
      · simp [replaceFirstChars, hp]
    · have hcs : includesChars pat cs = true := by
        simp only [includesChars, Bool.or_eq_true] at h
        rcases h with h | h
        · exact absurd h hp
        · exact h
      obtain ⟨k0, h1, h2, h3⟩ := ih hcs
      refine ⟨k0 + 1, by simpa using h1, ?_, ?_⟩
      · intro k hk
        cases k with
        | zero =>
          intro hpre
          exact hp (List.isPrefixOf_iff_prefix.mpr (by simpa using hpre))
        | succ j =>
          have := h2 j (by omega)
          simpa using this
      · have e : k0 + 1 + pat.length = (k0 + pat.length) + 1 := by omega
        simp only [replaceFirstChars, hp, if_false, h3, e, List.take_succ_cons,
          List.drop_succ_cons, List.cons_append, Bool.false_eq_true]

theorem countOccurrences_zero (pat : List Char) :
    ∀ l : List Char, countOccurrences pat l = 0 → ∀ k, k < l.length → ¬ pat <+: l.drop k := by
  intro l
  induction l with
  | nil => intro _ k hk; simp at hk
  | cons c cs ih =>
    intro h k hk
    simp only [countOccurrences] at h
    have hhead : ¬ pat.isPrefixOf (c :: cs) = true := by
      intro hp
      simp [hp] at h
    have htail : countOccurrences pat cs = 0 := by omega
    cases k with
    | zero =>
      intro hpre
      exact hhead (List.isPrefixOf_iff_prefix.mpr (by simpa using hpre))
    | succ j =>
      have := ih htail j (by simpa using hk)
      simpa using this

theorem countOccurrences_unique (pat : List Char) :
    ∀ l : List Char, countOccurrences pat l = 1 →
      ∀ k k2, k < l.length → k2 < l.length → pat <+: l.drop k → pat <+: l.drop k2 → k = k2 := by
  intro l
  induction l with
  | nil => intro _ k k2 hk; simp at hk
  | cons c cs ih =>
    intro h k k2 hk hk2 ho ho2
    simp only [countOccurrences] at h
    by_cases hp : pat.isPrefixOf (c :: cs) = true
    · have htail : countOccurrences pat cs = 0 := by
        simp only [hp, if_true] at h
        omega
      have hzero := countOccurrences_zero pat cs htail
      cases k with
      | zero =>
        cases k2 with
        | zero => rfl
        | succ j2 =>
          exact absurd (by simpa using ho2) (hzero j2 (by simpa using hk2))
      | succ j =>
        exact absurd (by simpa using ho) (hzero j (by simpa using hk))
    · have htail : countOccurrences pat cs = 1 := by
        simp only [hp, if_false, Bool.false_eq_true] at h
        omega
      cases k with
      | zero => exact absurd (List.isPrefixOf_iff_prefix.mpr (by simpa using ho)) hp
      | succ j =>
        cases k2 with
        | zero => exact absurd (List.isPrefixOf_iff_prefix.mpr (by simpa using ho2)) hp
        | succ j2 =>
          have := ih htail j j2 (by simpa using hk) (by simpa using hk2) (by simpa using ho)
            (by simpa using ho2)
          omega

theorem includesChars_of_count (pat : List Char) :
    ∀ l : List Char, countOccurrences pat l = 1 → includesChars pat l = true := by
  intro l
  induction l with
  | nil => intro h; simp [countOccurrences] at h
  | cons c cs ih =>
    intro h
    simp only [countOccurrences] at h
    simp only [includesChars, Bool.or_eq_true]
    by_cases hp : pat.isPrefixOf (c :: cs) = true
    · exact Or.inl hp
    · right
      apply ih
      simp only [hp, if_false, Bool.false_eq_true] at h
      omega

/-- After the replacement of the only occurrence of a pattern by a text that
holds neither the first nor the last character of the pattern and is at most
one character shorter than it, the pattern does not occur. -/
theorem no_occurrence_left (pat rep mid : List Char) (first last : Char)
    (hpat : pat = first :: (mid ++ [last]))
    (hfirst : ∀ c ∈ rep, c ≠ first) (hlast : ∀ c ∈ rep, c ≠ last)
    (hlen : pat.length ≤ rep.length + 1)
    (l : List Char) (hcount : countOccurrences pat l = 1) :
    includesChars pat (replaceFirstChars pat rep l) = false := by
  have hne : pat ≠ [] := by rw [hpat]; simp
  have hn : pat.length = mid.length + 2 := by rw [hpat]; simp
  by_contra hinc
  have hinc2 : includesChars pat (replaceFirstChars pat rep l) = true := by
    simpa using hinc
  obtain ⟨k0, hk0, hmin, hT⟩ :=
    replaceFirstChars_first pat rep hne l (includesChars_of_count pat l hcount)
  have hk0l : k0 < l.length := prefix_drop_lt pat l k0 hne hk0
  obtain ⟨k, hk⟩ := (includesChars_iff pat hne _).mp hinc2
  rw [hT] at hk
  have htake : (l.take k0).length = k0 := by
    rw [List.length_take]
    omega
  obtain ⟨t, ht⟩ := hk
  -- the first and the last character of the occurrence
  have hat : ∀ i, i < pat.length →
      (l.take k0 ++ rep ++ l.drop (k0 + pat.length))[k + i]? = pat[i]? := by
    intro i hi
    rw [← List.getElem?_drop, ← ht, List.getElem?_append_left hi]
  have hfirstAt : (l.take k0 ++ rep ++ l.drop (k0 + pat.length))[k]? = some first := by
    have hp0 : pat[0]? = some first := by rw [hpat]; simp
    have := hat 0 (by omega)
    rw [Nat.add_zero, hp0] at this
    exact this
  have hlastAt : (l.take k0 ++ rep ++ l.drop (k0 + pat.length))[k + (mid.length + 1)]? =
      some last := by
    have := hat (mid.length + 1) (by omega)
    rw [this, hpat]
    simp
  have hrepAt : ∀ j, k0 ≤ j → j < k0 + rep.length →
      ∃ c ∈ rep, (l.take k0 ++ rep ++ l.drop (k0 + pat.length))[j]? = some c := by
    intro j h1 h2
    have hj : j - k0 < rep.length := by omega
    refine ⟨rep[j - k0], List.getElem_mem _, ?_⟩
    rw [List.append_assoc, List.getElem?_append_right (by omega), htake,
      List.getElem?_append_left hj, List.getElem?_eq_getElem hj]
  by_cases hlt : k < k0
  · by_cases he : k + (mid.length + 1) < k0
    · -- the occurrence lies before the replaced one
      apply hmin k hlt
      have h1 : (l.take k0 ++ rep ++ l.drop (k0 + pat.length)).drop k =
          (l.take k0).drop k ++ (rep ++ l.drop (k0 + pat.length)) := by
        rw [List.append_assoc, List.drop_append_of_le_length (by omega)]
      have h2 : pat <+: (l.take k0).drop k ++ (rep ++ l.drop (k0 + pat.length)) := by
        rw [← h1]
        exact ⟨t, ht⟩
      have h3 : pat <+: (l.take k0).drop k :=
        List.prefix_of_prefix_length_le h2 (List.prefix_append _ _)
          (by rw [List.length_drop, htake]; omega)
      have h4 : (l.take k0).drop k <+: l.drop k := by
        rw [List.drop_take]
        exact List.take_prefix _ _
      exact h3.trans h4
    · obtain ⟨c, hc, hcAt⟩ := hrepAt (k + (mid.length + 1)) (by omega) (by omega)
      rw [hcAt] at hlastAt
      exact hlast c hc (Option.some.inj hlastAt)
  · by_cases hin : k < k0 + rep.length
    · obtain ⟨c, hc, hcAt⟩ := hrepAt k (by omega) hin
      rw [hcAt] at hfirstAt
      exact hfirst c hc (Option.some.inj hfirstAt)
    · -- the occurrence lies after the replaced one
      have h1 : (l.take k0 ++ rep ++ l.drop (k0 + pat.length)).drop k =
          l.drop (k0 + pat.length + (k - (k0 + rep.length))) := by
        have e : k = (l.take k0 ++ rep).length + (k - (k0 + rep.length)) := by
          rw [List.length_append, htake]
          omega
        rw [e, List.drop_append, List.drop_drop]
        congr 1
        rw [List.length_append, htake]
        omega
      have h2 : pat <+: l.drop (k0 + pat.length + (k - (k0 + rep.length))) := by
        rw [← h1]
        exact ⟨t, ht⟩
      have h3 := countOccurrences_unique pat l hcount k0
        (k0 + pat.length + (k - (k0 + rep.length))) hk0l
        (prefix_drop_lt pat l _ hne h2) hk0 h2
      omega

/-- What a 201 answer of `POST /create` returns: the generated id and the
tracking URL of the offer with the id substituted. -/
theorem createClick_trackingUrl (rt : Runtime) (clk : Clock) (db : Database)
    (req : CreateRequest) (h : (createClick rt clk db req).2.code = 201) :
    ∃ (userId offerId : String) (offer : Offer),
      req.userId = some userId ∧ req.offerId = some offerId ∧
      findOfferById db offerId = some offer ∧
      (createClick rt clk db req).2.clickId = some (generateClickId rt clk userId offerId) ∧
      (createClick rt clk db req).2.trackingUrl =
        some (replaceFirst offer.trackingUrl "{click_id}"
          (generateClickId rt clk userId offerId)) := by
  obtain ⟨userId, offerId, userOid, offerOid, user, offer, click, hu, hun, ho, hon, hcu, hco,
    huser, hoffer, hex, _⟩ := createClick_created rt clk db req h
  refine ⟨userId, offerId, offer, hu, ho, hoffer, ?_⟩
  cases hupi : truthy req.upi with
  | false => simp [createClick, hupi] at h
  | true =>
    simp only [createClick, hu, ho, truthy_some hun, truthy_some hon, hupi, Option.getD_some,
      hcu, hco, huser, hoffer, hex] at h ⊢
    by_cases hdup : db.clicks.any (fun c => decide (c.clickId =
        generateClickId rt clk userId offerId)) = true
    · simp [hdup] at h
    · simp [hdup]

theorem isHexDigit_ne_braces (c : Char) (h : isHexDigit c = true) : c ≠ '{' ∧ c ≠ '}' := by
  constructor
  · intro e
    rw [e] at h
    exact Bool.noConfusion h
  · intro e
    rw [e] at h
    exact Bool.noConfusion h

theorem includesChars_middle (pat : List Char) (hpat : pat ≠ []) (a b : List Char) :
    includesChars pat (a ++ pat ++ b) = true := by
  rw [includesChars_iff pat hpat]
  refine ⟨a.length, ?_⟩
  rw [List.append_assoc, List.drop_left]
  exact List.prefix_append _ _

/-- C24 (as amended): on a successful create the returned `trackingUrl` is the
tracking URL template of the offer with the first occurrence of `{click_id}`
replaced by the newly generated click id (12 hexadecimal digits). When the
template contains the placeholder, the returned URL is the part before its
first occurrence, the click id, and the part after that occurrence, so it
contains the click id. Later occurrences of the placeholder are left in place:
no placeholder remains when the template contains it exactly once. -/
theorem trackingUrl_replaces_first_placeholder (rt : Runtime) (hrt : rt.HexDigest)
    (clk : Clock) (db : Database) (req : CreateRequest)
    (h : (createClick rt clk db req).2.code = 201) :
    ∃ (offerId clickId : String) (offer : Offer),
      req.offerId = some offerId ∧ findOfferById db offerId = some offer ∧
      (createClick rt clk db req).2.clickId = some clickId ∧
      (createClick rt clk db req).2.trackingUrl =
        some (replaceFirst offer.trackingUrl "{click_id}" clickId) ∧
      (includes offer.trackingUrl "{click_id}" = true →
        (∃ k0 : Nat,
          "{click_id}".toList <+: offer.trackingUrl.toList.drop k0 ∧
          (∀ k, k < k0 → ¬ "{click_id}".toList <+: offer.trackingUrl.toList.drop k) ∧
          (replaceFirst offer.trackingUrl "{click_id}" clickId).toList =
            offer.trackingUrl.toList.take k0 ++ clickId.toList ++
              offer.trackingUrl.toList.drop (k0 + 10)) ∧
        includes (replaceFirst offer.trackingUrl "{click_id}" clickId) clickId = true) ∧
      (countOccurrences "{click_id}".toList offer.trackingUrl.toList = 1 →
        includes (replaceFirst offer.trackingUrl "{click_id}" clickId) "{click_id}" = false) := by
  obtain ⟨userId, offerId, offer, _, ho, hoffer, hid, hurl⟩ :=
    createClick_trackingUrl rt clk db req h
  refine ⟨offerId, generateClickId rt clk userId offerId, offer, ho, hoffer, hid, hurl, ?_, ?_⟩
  · intro hinc
    have hpat : "{click_id}".toList ≠ [] := by decide
    obtain ⟨k0, h1, h2, h3⟩ := replaceFirstChars_first "{click_id}".toList
      (generateClickId rt clk userId offerId).toList hpat offer.trackingUrl.toList hinc
    have hres : (replaceFirst offer.trackingUrl "{click_id}"
        (generateClickId rt clk userId offerId)).toList =
        offer.trackingUrl.toList.take k0 ++ (generateClickId rt clk userId offerId).toList ++
          offer.trackingUrl.toList.drop (k0 + 10) := h3
    refine ⟨⟨k0, h1, h2, hres⟩, ?_⟩
    have hidne : (generateClickId rt clk userId offerId).toList ≠ [] := by
      intro e
      have := generateClickId_length rt hrt clk userId offerId
      rw [e] at this
      exact absurd this (by decide)
    show includesChars (generateClickId rt clk userId offerId).toList
      (replaceFirst offer.trackingUrl "{click_id}"
        (generateClickId rt clk userId offerId)).toList = true
    rw [hres]
    exact includesChars_middle _ hidne _ _
  · intro hcount
    exact no_occurrence_left "{click_id}".toList (generateClickId rt clk userId offerId).toList
      "click_id".toList '{' '}' (by rfl)
      (fun c hc => (isHexDigit_ne_braces c (generateClickId_isHex rt hrt clk userId offerId c
        hc)).1)
      (fun c hc => (isHexDigit_ne_braces c (generateClickId_isHex rt hrt clk userId offerId c
        hc)).2)
      (by
        rw [generateClickId_length rt hrt clk userId offerId]
        decide)
      offer.trackingUrl.toList hcount

/-- C24, witness: the create call of the example user for the example offer,
whose template carries the placeholder once, returns the template with the
placeholder replaced by the click id `3213891eaa31`. -/
theorem trackingUrl_replaces_first_placeholder_witness :
    (createClick exHexRuntime exClock1 exDb exCreate).2.trackingUrl =
      some "https://track.example/c?pcid=3213891eaa31" ∧
    countOccurrences "{click_id}".toList exOffer.trackingUrl.toList = 1 ∧
    ∃ (offerId clickId : String) (offer : Offer),
      exCreate.offerId = some offerId ∧ findOfferById exDb offerId = some offer ∧
      (createClick exHexRuntime exClock1 exDb exCreate).2.clickId = some clickId ∧
      (createClick exHexRuntime exClock1 exDb exCreate).2.trackingUrl =
        some (replaceFirst offer.trackingUrl "{click_id}" clickId) ∧
      (includes offer.trackingUrl "{click_id}" = true →
        (∃ k0 : Nat,
          "{click_id}".toList <+: offer.trackingUrl.toList.drop k0 ∧
          (∀ k, k < k0 → ¬ "{click_id}".toList <+: offer.trackingUrl.toList.drop k) ∧
          (replaceFirst offer.trackingUrl "{click_id}" clickId).toList =
            offer.trackingUrl.toList.take k0 ++ clickId.toList ++
              offer.trackingUrl.toList.drop (k0 + 10)) ∧
        includes (replaceFirst offer.trackingUrl "{click_id}" clickId) clickId = true) ∧
      (countOccurrences "{click_id}".toList offer.trackingUrl.toList = 1 →
        includes (replaceFirst offer.trackingUrl "{click_id}" clickId) "{click_id}" = false) :=
  ⟨by rfl, by rfl,
   trackingUrl_replaces_first_placeholder exHexRuntime exHexRuntime_hexDigest exClock1 exDb
     exCreate (by rfl)⟩

/-- C24, counterexample: the template of the offer of `exDbTwoPlaceholders`
contains the placeholder (twice); the create call succeeds and the returned
`trackingUrl` still contains `{click_id}`. -/
theorem trackingUrl_placeholder_counterexample :
    includes exOfferTwoPlaceholders.trackingUrl "{click_id}" = true ∧
    (createClick exHexRuntime exClock1 exDbTwoPlaceholders exCreate).2.code = 201 ∧
    (createClick exHexRuntime exClock1 exDbTwoPlaceholders exCreate).2.clickId =
      some "3213891eaa31" ∧
    (createClick exHexRuntime exClock1 exDbTwoPlaceholders exCreate).2.trackingUrl =
      some "https://track.example/c?pcid=3213891eaa31&sub={click_id}" ∧
    includes "https://track.example/c?pcid=3213891eaa31&sub={click_id}" "{click_id}" = true := by
  exact ⟨by rfl, by rfl, by rfl, by rfl, by rfl⟩

/-! ## Ledger consistency -/

/-- The store after a create call: as before, or with one click more, whose
reward is 0. -/
theorem createClick_store (rt : Runtime) (clk : Clock) (db : Database) (req : CreateRequest) :
    (createClick rt clk db req).1 = db ∨
    ∃ click : Click,
      (createClick rt clk db req).1 = { db with clicks := db.clicks ++ [click] } ∧
      click.rewardCoins = 0 := by
  unfold createClick
  split
  · exact Or.inl rfl
  · dsimp only
    split
    · split
      · split
        · exact Or.inl rfl
        · split
          · exact Or.inl rfl
          · exact Or.inr ⟨_, rfl, rfl⟩
      · exact Or.inl rfl
    · exact Or.inl rfl

/-- Rewriting the first match of a list of users keeps the balances equal to
the sums of the logs when the rewrite does so on the user it meets. -/
theorem ledger_updateFirst (p : User → Bool) (f : User → User) (l : List User)
    (hf : ∀ x, l.find? p = some x → x.coins = ledgerSum x → (f x).coins = ledgerSum (f x))
    (h : ∀ u ∈ l, u.coins = ledgerSum u) :
    ∀ u ∈ updateFirst p f l, u.coins = ledgerSum u := by
  intro u hmem
  rcases mem_updateFirst p f l u hmem with h1 | ⟨x, hx, hux⟩
  · exact h u h1
  · rw [hux]
    exact hf x hx (h x (List.mem_of_find?_eq_some hx))

theorem ledgerSum_cons (u : User) (t : Transaction) (ts : List Transaction)
    (h : u.transactions = t :: ts) : ledgerSum u = t.amount + (ts.map (fun t => t.amount)).sum := by
  unfold ledgerSum
  rw [h]
  rfl

/-- One call keeps the balances equal to the sums of the logs, and the rewards
of the clicks 0. -/
theorem ledger_step (rt : Runtime) (db : Database) (op : LedgerOp)
    (h : LedgerConsistent db) (hz : ZeroRewardClicks db) :
    LedgerConsistent (op.run rt db) ∧ ZeroRewardClicks (op.run rt db) := by
  cases op with
  | create clk req =>
    rcases createClick_store rt clk db req with e | ⟨click, e, hzero⟩
    · rw [LedgerOp.run, e]
      exact ⟨h, hz⟩
    · rw [LedgerOp.run, e]
      refine ⟨h, ?_⟩
      intro c hc
      rcases List.mem_append.mp hc with h1 | h1
      · exact hz c h1
      · rw [List.mem_singleton.mp h1]
        exact hzero
  | postback clk req =>
    rcases postback_store clk db req with e | ⟨click, saved, hclick, _, ec, hs, eu⟩
    · rw [LedgerOp.run, e]
      exact ⟨h, hz⟩
    · have hzero : click.rewardCoins = 0 := hz click (List.mem_of_find?_eq_some hclick)
      refine ⟨?_, ?_⟩
      · unfold LedgerConsistent
        rw [LedgerOp.run]
        rcases eu with eu | eu
        · rw [eu]
          exact h
        · rw [eu]
          apply ledger_updateFirst _ _ _ _ h
          intro x _ hx
          show x.coins + click.rewardCoins = ledgerSum x
          rw [hzero, add_zero]
          exact hx
      · unfold ZeroRewardClicks
        rw [LedgerOp.run, ec]
        intro c hc
        rcases mem_updateFirst _ _ _ _ hc with h1 | ⟨x, _, hcx⟩
        · exact hz c h1
        · rw [hcx, hs]
          exact hzero
  | complete clk offerId firebaseUid =>
    rcases completeOffer_store rt clk db offerId firebaseUid with
      e | ⟨offerOid, offer, t, n, _, ht, e⟩
    · rw [LedgerOp.run, e]
      exact ⟨h, hz⟩
    · rw [LedgerOp.run, e]
      refine ⟨?_, hz⟩
      apply ledger_updateFirst _ _ _ _ h
      intro x _ hx
      show x.coins + offer.coins = t.amount + (x.transactions.map (fun t => t.amount)).sum
      rw [ht, hx, add_comm]
      rfl
  | checkIn startOfDay clk firebaseUid =>
    rcases checkIn_store startOfDay clk db firebaseUid with
      e | ⟨user, saved, t, huser, hs, hts, ht, e⟩
    · rw [LedgerOp.run, e]
      exact ⟨h, hz⟩
    · rw [LedgerOp.run, e]
      refine ⟨?_, hz⟩
      apply ledger_updateFirst _ _ _ _ h
      intro x _ _
      show saved.coins = ledgerSum saved
      rw [hs, ledgerSum_cons saved t user.transactions hts, ht,
        h user (List.mem_of_find?_eq_some huser), add_comm]
      rfl
  | referral clk firebaseUid referralCode =>
    by_cases hcode : (applyReferral clk db firebaseUid referralCode).2.code = 200
    · obtain ⟨c, a, r, _, _, _, _, _, _, e⟩ :=
        applyReferral_accepted clk db firebaseUid referralCode hcode
      rw [LedgerOp.run, e]
      refine ⟨?_, hz⟩
      apply ledger_updateFirst
      · intro x _ hx
        show x.coins + REFERRAL_BONUS =
          REFERRAL_BONUS + (x.transactions.map (fun t => t.amount)).sum
        rw [hx, add_comm]
        rfl
      · apply ledger_updateFirst _ _ _ _ h
        intro x _ hx
        show x.coins = 0 + (x.transactions.map (fun t => t.amount)).sum
        rw [zero_add]
        exact hx
    · rw [LedgerOp.run, applyReferral_rejected clk db firebaseUid referralCode hcode]
      exact ⟨h, hz⟩
  | withdraw clk firebaseUid amount =>
    rcases withdraw_store rt clk db firebaseUid amount with
      e | ⟨user, cost, w, t, n, e, _, _, _, ht, _⟩
    · rw [LedgerOp.run, e]
      exact ⟨h, hz⟩
    · rw [LedgerOp.run, e]
      refine ⟨?_, hz⟩
      apply ledger_updateFirst _ _ _ _ h
      intro x _ hx
      show x.coins + -(cost : ℚ) = t.amount + (x.transactions.map (fun t => t.amount)).sum
      rw [ht, hx, add_comm]
      rfl
  | verify clk firebaseUid withdrawalId adminUid =>
    rcases verifyWithdrawal_store rt clk db firebaseUid withdrawalId adminUid with
      e | ⟨user, saved, pending, admin, i, j, e, huser, _, _, _, hcoins, _, hts, _⟩
    · rw [LedgerOp.run, e]
      exact ⟨h, hz⟩
    · rw [LedgerOp.run, e]
      refine ⟨?_, hz⟩
      apply ledger_updateFirst _ _ _ _ h
      intro x _ _
      show saved.coins = ledgerSum saved
      unfold ledgerSum
      rw [hcoins, hts]
      exact h user (List.mem_of_find?_eq_some huser)

theorem ledger_run (rt : Runtime) (ops : List LedgerOp) :
    ∀ db : Database, LedgerConsistent db → ZeroRewardClicks db →
      LedgerConsistent (runLedgerOps rt db ops) ∧ ZeroRewardClicks (runLedgerOps rt db ops) := by
  induction ops with
  | nil => intro db h hz; exact ⟨h, hz⟩
  | cons op ops ih =>
    intro db h hz
    exact ih (op.run rt db) (ledger_step rt db op h hz).1 (ledger_step rt db op h hz).2

theorem ledgerConsistent_of_fresh (db : Database) (h : FreshlySynced db) :
    LedgerConsistent db := by
  intro u hu
  obtain ⟨hc, ht⟩ := h u hu
  unfold ledgerSum
  rw [hc, ht]
  rfl

/-- C3: in every state reached from a store of freshly synced users (coins 0,
empty transaction log) whose clicks, if any, carry the reward 0 that
`POST /create` stores, by any sequence of click creations, click postbacks,
offer completions, daily check-ins, referral applications, withdrawal requests
and withdrawal verifications, the coin balance of every user equals the sum of
the amounts of the user's transaction log. The same holds from every store in
which the balances equal these sums; every click in the reached state carries
the reward 0, so that a postback credits nothing. -/
theorem ledger_consistency :
    (∀ (rt : Runtime) (db : Database) (ops : List LedgerOp),
      FreshlySynced db → db.clicks = [] →
      ∀ u ∈ (runLedgerOps rt db ops).users, u.coins = ledgerSum u) ∧
    (∀ (rt : Runtime) (db : Database) (ops : List LedgerOp),
      LedgerConsistent db → ZeroRewardClicks db →
      LedgerConsistent (runLedgerOps rt db ops) ∧ ZeroRewardClicks (runLedgerOps rt db ops)) := by
  refine ⟨?_, ?_⟩
  · intro rt db ops hfresh hclicks
    refine (ledger_run rt ops db (ledgerConsistent_of_fresh db hfresh) ?_).1
    intro c hc
    rw [hclicks] at hc
    exact absurd hc (List.not_mem_nil c)
  · intro rt db ops h hz
    exact ledger_run rt ops db h hz

theorem exDbLedger_fresh : FreshlySynced exDbLedger := by
  intro u hu
  simp only [exDbLedger, List.mem_cons, List.mem_singleton, List.not_mem_nil, or_false] at hu
  rcases hu with hu | hu
  · rw [hu]
    exact ⟨rfl, rfl⟩
  · rw [hu]
    exact ⟨rfl, rfl⟩

theorem parseFloat_ten : parseFloat (.num (.fin 10)) = .fin 10 := by
  have h := roundDouble_natCast 10 (by norm_num) (by norm_num)
  simpa [parseFloat, JsNum.toDouble] using h

theorem coinsRequired_ten : coinsRequired (.fin 10) = .fin 100 := by
  have h := coinsRequired_natCast 10 (by norm_num) (by norm_num)
  norm_num at h
  exact h

/-- The example calls, run: the user ends with 50 coins and four transactions
(100, 50, 0, -100), the referrer with 550 coins and two (500, 50); the
withdrawal request has left the pending list for the verified one. -/
theorem exLedgerOps_balances :
    (runLedgerOps exHexRuntime exDbLedger exLedgerOps).users.map
      (fun u => (u.coins, ledgerSum u, u.transactions.length, u.pendingWithdrawals.length,
        u.verifiedWithdrawals.length)) =
      [(50, 50, 4, 0, 1), (550, 550, 2, 0, 0)] := by
  have hsplit : runLedgerOps exHexRuntime exDbLedger exLedgerOps =
      runLedgerOps exHexRuntime
        (withdraw exHexRuntime exClock2
          (runLedgerOps exHexRuntime exDbLedger (exLedgerOps.take 5)) "firebase-uid-1"
          (.num (.fin 10))).1
        (exLedgerOps.drop 6) := rfl
  obtain ⟨user, huser, hcoins, hpm⟩ : ∃ user : User,
      findUserByUid (runLedgerOps exHexRuntime exDbLedger (exLedgerOps.take 5))
        "firebase-uid-1" = some user ∧
      user.coins = (0 : ℚ) + 0 + 100 + 50 ∧
      user.paymentMethod = some { type := "upi", details := [("upiId", "asha@upi")] } :=
    ⟨_, rfl, rfl, rfl⟩
  rw [hsplit, withdraw_of_cost exHexRuntime exClock2 _ "firebase-uid-1" (.num (.fin 10)) 10 100
    user parseFloat_ten (by norm_num) coinsRequired_ten huser, hpm,
    if_neg (by rw [hcoins]; norm_num)]
  calc _ = [((0 : ℚ) + 0 + 100 + 50 + -100, -100 + ((0 : ℚ) + (50 + (100 + 0))), 4, 0, 1),
            ((0 : ℚ) + REFERRAL_BONUS + 50, (50 : ℚ) + (REFERRAL_BONUS + 0), 2, 0, 0)] := rfl
    _ = _ := by norm_num [REFERRAL_BONUS]

/-- C3, witness: on the store of two fresh users, without clicks, the example
user creates a click, its postback arrives (the click is settled with its
reward of 0 coins), the user completes the 100-coin offer, checks in, applies
the referrer's code, asks for 10 rupees, the request is verified, and the
referrer checks in. The balances are then 50 and 550, as are the sums of the
two logs, and every balance equals the sum of its log. -/
theorem ledger_consistency_witness :
    FreshlySynced exDbLedger ∧ exDbLedger.clicks = [] ∧
    (runLedgerOps exHexRuntime exDbLedger (exLedgerOps.take 2)).clicks.map
      (fun c => (c.status, c.isRewarded, c.rewardCoins)) = [("installed", true, 0)] ∧
    (runLedgerOps exHexRuntime exDbLedger exLedgerOps).users.map
      (fun u => (u.coins, ledgerSum u, u.transactions.length, u.pendingWithdrawals.length,
        u.verifiedWithdrawals.length)) =
      [(50, 50, 4, 0, 1), (550, 550, 2, 0, 0)] ∧
    (∀ u ∈ (runLedgerOps exHexRuntime exDbLedger exLedgerOps).users, u.coins = ledgerSum u) ∧
    LedgerConsistent (runLedgerOps exHexRuntime exDbLedger exLedgerOps) ∧
    ZeroRewardClicks (runLedgerOps exHexRuntime exDbLedger exLedgerOps) :=
  ⟨exDbLedger_fresh, rfl, by rfl, exLedgerOps_balances,
   ledger_consistency.1 exHexRuntime exDbLedger exLedgerOps exDbLedger_fresh rfl,
   ledger_consistency.2 exHexRuntime exDbLedger exLedgerOps
     (fun u hu => by
       obtain ⟨hc, ht⟩ := exDbLedger_fresh u hu
       unfold ledgerSum
       rw [hc, ht]
       rfl)
     (fun c hc => absurd hc (List.not_mem_nil c))⟩

end RewardsBackend
